import Mathlib

/-! NumericSlider: a shallow embedding of `src/components/numeric-slider/numeric-slider.js`.

Numbers are modelled in exact arithmetic: a JavaScript number is a rational or `NaN`
(`JsNum`).  `undefined` read into a numeric position coerces to `NaN`, as `ToNumber` does.
Infinities and the sign of zero are not represented: a division by zero, which JavaScript
answers with an infinity or `NaN`, is answered with `NaN` here.  The divisors in the code
are `step`, the track width and `max - min`.  For `step = 0` the code and the model agree:
`Math.round` of an infinity times `0` is `NaN`.  For a track of width zero they differ:
the code clamps the infinite fraction to `0` or `1` and stores `min` or `max`, the model
has `NaN`.  A theorem that states which number a pointer event stores or notifies
therefore assumes a track with a width, or takes the snapped value as a finite number;
the geometry theorem assumes `min < max`.  What is proved about the callback log, the drag
flags and the exceptions does not depend on a quotient and holds for every width.

The widget is a record of its fields (`State`); every method is a function on that record.
A method that can throw returns an `Outcome`, which keeps the state reached at the throw.
Callbacks are opaque observers: each invocation is appended to the log `State.calls`.

The split panel (`setSplit`), the modal (`open`, `close`) and the test server (the request
handler and `isPathInside`) are embedded after the slider, each in its own namespace.
-/

namespace NumericSlider

/-! ## JavaScript numbers and values -/

/-- A JavaScript number in exact arithmetic: `NaN` or a rational. -/
inductive JsNum where
  | nan : JsNum
  | fin (q : ℚ) : JsNum
  deriving DecidableEq, Repr

namespace JsNum

/-- The operator `a + b` on numbers. -/
def add : JsNum → JsNum → JsNum
  | fin a, fin b => fin (a + b)
  | _, _ => nan

/-- The operator `a - b`. -/
def sub : JsNum → JsNum → JsNum
  | fin a, fin b => fin (a - b)
  | _, _ => nan

/-- The operator `a * b`. -/
def mul : JsNum → JsNum → JsNum
  | fin a, fin b => fin (a * b)
  | _, _ => nan

/-- The operator `a / b` for a nonzero divisor.  A zero divisor gives `nan` here, where
JavaScript gives `NaN` only for `0 / 0` and an infinity otherwise: infinities are not
represented, and the value theorems exclude a track of width zero. -/
def div : JsNum → JsNum → JsNum
  | fin a, fin b => if b = 0 then nan else fin (a / b)
  | _, _ => nan

/-- The function `Math.max(a, b)`: `NaN` if either argument is `NaN`. -/
def mathMax : JsNum → JsNum → JsNum
  | fin a, fin b => fin (max a b)
  | _, _ => nan

/-- The function `Math.min(a, b)`: `NaN` if either argument is `NaN`. -/
def mathMin : JsNum → JsNum → JsNum
  | fin a, fin b => fin (min a b)
  | _, _ => nan

/-- The function `Math.round(a)`: the nearest integer, halves rounded towards `+∞`. -/
def mathRound : JsNum → JsNum
  | fin a => fin ((⌊a + 1 / 2⌋ : ℤ) : ℚ)
  | nan => nan

/-- The function `Math.abs(a)`. -/
def mathAbs : JsNum → JsNum
  | fin a => fin |a|
  | nan => nan

/-- The comparison `a > b`: false as soon as one side is `NaN`. -/
def gt : JsNum → JsNum → Bool
  | fin a, fin b => decide (b < a)
  | _, _ => false

/-- The comparison `a < b`: false as soon as one side is `NaN`. -/
def lt : JsNum → JsNum → Bool
  | fin a, fin b => decide (a < b)
  | _, _ => false

/-- A possibly `undefined` number read into a numeric position. -/
def ofOption : Option ℚ → JsNum
  | some q => fin q
  | none => nan

end JsNum

/-- The values the slider stores and receives: a number, or an array of numbers. -/
inductive JsVal where
  | num (x : JsNum) : JsVal
  | arr (xs : List JsNum) : JsVal
  deriving DecidableEq, Repr

namespace JsVal

/-- The test `Array.isArray(v)`. -/
def isArray : JsVal → Bool
  | arr _ => true
  | num _ => false

/-- The property `v.length` of an array (`undefined`, here `none`, on a number). -/
def length : JsVal → Option Nat
  | arr xs => some xs.length
  | num _ => none

/-- The element `v[i]` read into a numeric position: `undefined` coerces to `NaN`. -/
def idx : JsVal → Nat → JsNum
  | arr xs, i => xs.getD i JsNum.nan
  | num _, _ => JsNum.nan

/-- The coercion `ToNumber(v)` applied by `Math.min` and `Math.max` to an argument:
a number is itself, `[]` is `0`, `[x]` is `x`, a longer array is `NaN`. -/
def toNumber : JsVal → JsNum
  | num x => x
  | arr [] => JsNum.fin 0
  | arr [x] => x
  | arr _ => JsNum.nan

end JsVal

/-! ## Configuration, state, events -/

/-- The option `type`: the code tests `config.type === 'range'`; any other value is a
single slider. -/
inductive SliderType where
  | single : SliderType
  | range : SliderType
  deriving DecidableEq, Repr

/-- The handle tags `'min'`, `'max'`, `'single'` passed by `bindEvents`. -/
inductive HandleType where
  | min : HandleType
  | max : HandleType
  | single : HandleType
  deriving DecidableEq, Repr

/-- The fields of `this.config` read by the methods; a callback is recorded by whether it
is registered. -/
structure Config where
  type : SliderType
  min : ℚ
  max : ℚ
  step : ℚ
  showInputs : Bool
  continuousUpdates : Bool
  throttleMs : ℚ
  onChange : Bool
  onInputChange : Bool
  disabled : Bool
  deriving DecidableEq, Repr

/-- One invocation of a caller-supplied callback, with its two arguments. -/
inductive Call where
  | onChange (value : JsVal) (source : Option HandleType) : Call
  | onInputChange (value : JsVal) (source : Option HandleType) : Call
  deriving DecidableEq, Repr

/-- What `updateVisuals` writes to the document: handle positions and filled track in
percent, and the content of the input fields. -/
structure View where
  minHandleLeft : JsNum
  maxHandleLeft : JsNum
  handleLeft : JsNum
  filledLeft : JsNum
  filledWidth : JsNum
  minInput : JsNum
  maxInput : JsNum
  valueInput : JsNum
  deriving DecidableEq, Repr

/-- The instance fields of a `NumericSlider`, its rendered view and the log of callback
invocations made so far. -/
structure State where
  config : Config
  isDragging : Bool
  activeHandle : Option HandleType
  startX : Option ℚ
  startValue : Option JsVal
  lastCallbackTime : ℚ
  values : JsVal
  view : View
  calls : List Call
  deriving DecidableEq, Repr

/-- The exceptions the methods can raise. -/
inductive Err where
  | rangeValue : Err
  | typeError : Err
  deriving DecidableEq, Repr

/-- The result of a method that may throw; the state reached is kept in both cases. -/
inductive Outcome where
  | ok (s : State) : Outcome
  | threw (e : Err) (s : State) : Outcome
  deriving DecidableEq, Repr

/-- The state a method leaves behind, whether it returned or threw. -/
def Outcome.state : Outcome → State
  | Outcome.ok s => s
  | Outcome.threw _ s => s

/-- Whether the method returned normally. -/
def Outcome.isOk : Outcome → Bool
  | Outcome.ok _ => true
  | Outcome.threw _ _ => false

/-- The result of `track.getBoundingClientRect()`. -/
structure Rect where
  left : ℚ
  width : ℚ
  deriving DecidableEq, Repr

/-- A mouse or touch event: `clientX` is `undefined` on a touch event, `touches` (the
`clientX` of each touch point) is `undefined` on a mouse event. -/
structure PointerEvt where
  clientX : Option ℚ
  touches : Option (List ℚ)
  deriving DecidableEq, Repr

/-- The expression `e.touches && e.touches[0].clientX`: `undefined` without a touch list,
a `TypeError` on an empty one. -/
def touchX (e : PointerEvt) : Except Err (Option ℚ) :=
  match e.touches with
  | none => Except.ok none
  | some [] => Except.error Err.typeError
  | some (t :: _) => Except.ok (some t)

/-- The expression `e.clientX || (e.touches && e.touches[0].clientX)`: a `clientX` of `0`
is falsy and falls through to the touch list. -/
def pointerX (e : PointerEvt) : Except Err (Option ℚ) :=
  match e.clientX with
  | some x => if x ≠ 0 then Except.ok (some x) else touchX e
  | none => touchX e

/-! ## Methods -/

/-- The method `snapToStep(value)`. -/
def snapToStep (c : Config) (value : JsNum) : JsNum :=
  JsNum.add
    (JsNum.mul
      (JsNum.mathRound (JsNum.div (JsNum.sub value (JsNum.fin c.min)) (JsNum.fin c.step)))
      (JsNum.fin c.step))
    (JsNum.fin c.min)

/-- The method `updateVisuals()`: positions, filled track and input fields. -/
def updateVisuals (s : State) : State :=
  let range : JsNum := JsNum.fin (s.config.max - s.config.min)
  match s.config.type with
  | SliderType.range =>
    let minPercent :=
      JsNum.mul (JsNum.div (JsNum.sub (s.values.idx 0) (JsNum.fin s.config.min)) range)
        (JsNum.fin 100)
    let maxPercent :=
      JsNum.mul (JsNum.div (JsNum.sub (s.values.idx 1) (JsNum.fin s.config.min)) range)
        (JsNum.fin 100)
    { s with
      view :=
        { s.view with
          minHandleLeft := minPercent
          maxHandleLeft := maxPercent
          filledLeft := minPercent
          filledWidth := JsNum.sub maxPercent minPercent
          minInput :=
            if s.config.showInputs then JsNum.mathRound (s.values.idx 0) else s.view.minInput
          maxInput :=
            if s.config.showInputs then JsNum.mathRound (s.values.idx 1)
            else s.view.maxInput } }
  | SliderType.single =>
    let percent :=
      JsNum.mul (JsNum.div (JsNum.sub s.values.toNumber (JsNum.fin s.config.min)) range)
        (JsNum.fin 100)
    { s with
      view :=
        { s.view with
          handleLeft := percent
          filledLeft := JsNum.fin 0
          filledWidth := percent
          valueInput :=
            if s.config.showInputs then JsNum.mathRound s.values.toNumber
            else s.view.valueInput } }

/-- The two callback invocations that end `setValue`. -/
def fireCallbacks (s : State) (source : Option HandleType) (triggerCallback : Bool) : State :=
  let s1 :=
    if triggerCallback && s.config.onChange then
      { s with calls := s.calls ++ [Call.onChange s.values source] }
    else s
  if triggerCallback && s1.config.onInputChange && source.isSome then
    { s1 with calls := s1.calls ++ [Call.onInputChange s1.values source] }
  else s1

/-- The pair `setValue` stores in range mode from `value[0]` and `value[1]`. -/
def rangeValues (c : Config) (v0 v1 : JsNum) : JsVal :=
  let lo := JsNum.mathMax (JsNum.fin c.min)
    (JsNum.mathMin (JsNum.mathMin v0 v1) (JsNum.fin c.max))
  let hi := JsNum.mathMin (JsNum.fin c.max)
    (JsNum.mathMax (JsNum.mathMax v0 v1) (JsNum.fin c.min))
  if JsNum.gt lo hi then JsVal.arr [hi, lo] else JsVal.arr [lo, hi]

/-- The method `setValue(value, source = null, triggerCallback = true)`. -/
def setValue (s : State) (value : JsVal) (source : Option HandleType)
    (triggerCallback : Bool) : Outcome :=
  match s.config.type with
  | SliderType.range =>
    if !value.isArray || value.length != some 2 then
      Outcome.threw Err.rangeValue s
    else
      let s1 := { s with values := rangeValues s.config (value.idx 0) (value.idx 1) }
      Outcome.ok (fireCallbacks (updateVisuals s1) source triggerCallback)
  | SliderType.single =>
    let s1 :=
      { s with
        values :=
          JsVal.num
            (JsNum.mathMax (JsNum.fin s.config.min)
              (JsNum.mathMin (JsNum.fin s.config.max) value.toNumber)) }
    Outcome.ok (fireCallbacks (updateVisuals s1) source triggerCallback)

/-- The method `getValue()`. -/
def getValue (s : State) : JsVal :=
  s.values

/-- The method `startDrag(e, handleType)`.  The handle elements `minHandle` and `maxHandle`
exist on a range slider only and `handle` on a single slider only; touching the class
list of a missing one is a `TypeError`. -/
def startDrag (s : State) (e : PointerEvt) (handleType : HandleType) : Outcome :=
  if s.config.disabled then Outcome.ok s
  else
    let s1 := { s with isDragging := true, activeHandle := some handleType }
    match pointerX e with
    | Except.error err => Outcome.threw err s1
    | Except.ok x =>
      let s2 := { s1 with startX := x }
      match handleType with
      | HandleType.min =>
        let s3 := { s2 with startValue := some (JsVal.num (s2.values.idx 0)) }
        if s.config.type = SliderType.range then Outcome.ok s3
        else Outcome.threw Err.typeError s3
      | HandleType.max =>
        let s3 := { s2 with startValue := some (JsVal.num (s2.values.idx 1)) }
        if s.config.type = SliderType.range then Outcome.ok s3
        else Outcome.threw Err.typeError s3
      | HandleType.single =>
        let s3 := { s2 with startValue := some s2.values }
        if s.config.type = SliderType.single then Outcome.ok s3
        else Outcome.threw Err.typeError s3

/-- The method `handleDrag(e)`, with the track rectangle and the reading of `Date.now()`
it obtains (both reads of the clock in one call are taken to give the same reading). -/
def handleDrag (s : State) (e : PointerEvt) (rect : Rect) (now : ℚ) : Outcome :=
  if !s.isDragging || s.activeHandle.isNone then Outcome.ok s
  else
    match pointerX e with
    | Except.error err => Outcome.threw err s
    | Except.ok x =>
      let percent :=
        JsNum.mathMax (JsNum.fin 0)
          (JsNum.mathMin (JsNum.fin 1)
            (JsNum.div (JsNum.sub (JsNum.ofOption x) (JsNum.fin rect.left))
              (JsNum.fin rect.width)))
      let newValue :=
        JsNum.add (JsNum.fin s.config.min)
          (JsNum.mul percent (JsNum.fin (s.config.max - s.config.min)))
      let snappedValue := snapToStep s.config newValue
      let shouldTrigger :=
        s.config.continuousUpdates && decide (now - s.lastCallbackTime ≥ s.config.throttleMs)
      let s1 := if shouldTrigger then { s with lastCallbackTime := now } else s
      match s.activeHandle with
      | some HandleType.min =>
        let newMin :=
          JsNum.mathMax (JsNum.fin s.config.min) (JsNum.mathMin snappedValue (s.values.idx 1))
        setValue s1 (JsVal.arr [newMin, s.values.idx 1]) (some HandleType.min) shouldTrigger
      | some HandleType.max =>
        let newMax :=
          JsNum.mathMin (JsNum.fin s.config.max) (JsNum.mathMax snappedValue (s.values.idx 0))
        setValue s1 (JsVal.arr [s.values.idx 0, newMax]) (some HandleType.max) shouldTrigger
      | _ =>
        setValue s1 (JsVal.num snappedValue) (some HandleType.single) shouldTrigger

/-- The method `endDrag()`. -/
def endDrag (s : State) : State :=
  if s.isDragging then
    let activeHandle := s.activeHandle
    let s1 := { s with isDragging := false, activeHandle := none }
    if s1.config.onChange then
      { s1 with
        calls := s1.calls ++ [Call.onChange s1.values (some (activeHandle.getD HandleType.single))] }
    else s1
  else s

/-- The options object given to the constructor; `none` is an option whose key is absent
from the object, so that the default survives the spread `...options` (for `value`, also
`undefined` or `null`).  A key present with the value `undefined` would overwrite the
default with `undefined`; such an object is not represented. -/
structure Options where
  type : Option SliderType
  min : Option ℚ
  max : Option ℚ
  step : Option ℚ
  value : Option JsVal
  showInputs : Option Bool
  continuousUpdates : Option Bool
  throttleMs : Option ℚ
  onChange : Bool
  onInputChange : Bool
  disabled : Bool
  deriving DecidableEq, Repr

/-- The empty options object: every option left to its default. -/
def Options.defaults : Options :=
  { type := none, min := none, max := none, step := none, value := none, showInputs := none,
    continuousUpdates := none, throttleMs := none, onChange := false, onInputChange := false,
    disabled := false }

/-- The view of a document nothing has been written to yet. -/
def View.unset : View :=
  { minHandleLeft := JsNum.nan, maxHandleLeft := JsNum.nan, handleLeft := JsNum.nan,
    filledLeft := JsNum.nan, filledWidth := JsNum.nan, minInput := JsNum.nan,
    maxInput := JsNum.nan, valueInput := JsNum.nan }

/-- The constructor, for a container that is found: configuration defaults, idle drag
state, initial value, and the first `updateVisuals()` made by `init()`. -/
def construct (o : Options) : State :=
  let config : Config :=
    { type := o.type.getD SliderType.single
      min := o.min.getD 0
      max := o.max.getD 100
      step := o.step.getD 1
      showInputs := o.showInputs.getD false
      continuousUpdates := o.continuousUpdates.getD false
      throttleMs := o.throttleMs.getD 16
      onChange := o.onChange
      onInputChange := o.onInputChange
      disabled := o.disabled }
  let values : JsVal :=
    match config.type with
    | SliderType.range =>
      match o.value with
      | some (JsVal.arr xs) =>
        let v0 := JsNum.mathMax (JsNum.fin config.min) ((JsVal.arr xs).idx 0)
        let v1 := JsNum.mathMin (JsNum.fin config.max) ((JsVal.arr xs).idx 1)
        if JsNum.gt v0 v1 then JsVal.arr [v1, v0] else JsVal.arr [v0, v1]
      | _ => JsVal.arr [JsNum.fin config.min, JsNum.fin config.max]
    | SliderType.single =>
      match o.value with
      | some v =>
        JsVal.num
          (JsNum.mathMax (JsNum.fin config.min) (JsNum.mathMin (JsNum.fin config.max) v.toNumber))
      | none => JsVal.num (JsNum.fin config.min)
  updateVisuals
    { config := config, isDragging := false, activeHandle := none, startX := some 0,
      startValue := none, lastCallbackTime := 0, values := values, view := View.unset,
      calls := [] }

/-- Clamping into `[min, max]`, as the specification words it. -/
def clampSpec (c : Config) (x : ℚ) : ℚ :=
  max c.min (min c.max x)

/-- The reference procedure of the specification for a range value: clamp each element
of the pair into `[min, max]`, then swap the two if the first exceeds the second. -/
def setValueRangeSpec (c : Config) (a b : ℚ) : ℚ × ℚ :=
  let a1 := clampSpec c a
  let b1 := clampSpec c b
  if a1 > b1 then (b1, a1) else (a1, b1)

/-- Whether a logged invocation is one of `onChange`. -/
def Call.isOnChange : Call → Bool
  | Call.onChange _ _ => true
  | Call.onInputChange _ _ => false

/-- The `onChange` invocations of a log, in order. -/
def onChangeCalls (log : List Call) : List Call :=
  log.filter Call.isOnChange

/-- A default single slider with an `onChange` callback: `min = 0`, `max = 100`. -/
def sampleSingle : State :=
  construct { Options.defaults with onChange := true }

/-- A default range slider with an `onChange` callback: `min = 0`, `max = 100`. -/
def sampleRange : State :=
  construct { Options.defaults with type := some SliderType.range, onChange := true }

/-- The stored value of one handle, read as `startDrag` reads it: `values[0]` for `'min'`,
`values[1]` for `'max'`, `values` itself for `'single'`. -/
def handleValue (s : State) : HandleType → JsNum
  | HandleType.min => s.values.idx 0
  | HandleType.max => s.values.idx 1
  | HandleType.single => s.values.toNumber

/-- The handles `bindEvents` binds on a slider of each type: `'single'` on a single slider,
`'min'` and `'max'` on a range slider. -/
def handleBound : SliderType → HandleType → Bool
  | SliderType.single, HandleType.single => true
  | SliderType.range, HandleType.min => true
  | SliderType.range, HandleType.max => true
  | _, _ => false

/-- The stored value has the shape of the slider type with finite entries: a number on a
single slider, a pair on a range slider. -/
def finiteValues : SliderType → JsVal → Bool
  | SliderType.single, JsVal.num (JsNum.fin _) => true
  | SliderType.range, JsVal.arr [JsNum.fin _, JsNum.fin _] => true
  | _, _ => false

/-- A number lies on the grid of the configuration: it is `min` plus an integer multiple
of `step`. -/
def onGrid (c : Config) (x : JsNum) : Prop :=
  ∃ (q : ℚ) (k : ℤ), x = JsNum.fin q ∧ q - c.min = k * c.step

/-- The snapped value `handleDrag` and `handleTrackClick` derive from a pointer coordinate
`x` and the track rectangle. -/
def snappedAt (c : Config) (x : Option ℚ) (rect : Rect) : JsNum :=
  snapToStep c
    (JsNum.add (JsNum.fin c.min)
      (JsNum.mul
        (JsNum.mathMax (JsNum.fin 0)
          (JsNum.mathMin (JsNum.fin 1)
            (JsNum.div (JsNum.sub (JsNum.ofOption x) (JsNum.fin rect.left))
              (JsNum.fin rect.width))))
        (JsNum.fin (c.max - c.min))))

/-- A mouse event at the given `clientX`. -/
def mouseAt (x : ℚ) : PointerEvt :=
  { clientX := some x, touches := none }

/-- A single slider with `min = 0`, `max = 10`, `step = 4`, whose handle has been grabbed. -/
def draggingSingle : State :=
  (startDrag
    (construct { Options.defaults with min := some 0, max := some 10, step := some 4 })
    (mouseAt 5) HandleType.single).state

/-- A range slider with `min = 0`, `max = 100`, `step = 10` and value `[20, 75]`, whose
`min` handle has been grabbed. -/
def draggingRange : State :=
  (startDrag
    (construct
      { Options.defaults with
        type := some SliderType.range
        step := some 10
        value := some (JsVal.arr [JsNum.fin 20, JsNum.fin 75]) })
    (mouseAt 20) HandleType.min).state

/-- The track rectangle used in the examples: it spans `0` to `100`. -/
def sampleRect : Rect :=
  { left := 0, width := 100 }

/-- One pointer-move as `handleDrag` sees it: the event, the track rectangle and the clock
reading at that moment. -/
structure Move where
  e : PointerEvt
  rect : Rect
  now : ℚ
  deriving DecidableEq, Repr

/-- The document-level move listener applied to a sequence of pointer-moves: each event
runs `handleDrag` on the state the previous one left, whether that one returned or threw. -/
def dragMoves (s : State) : List Move → State
  | [] => s
  | m :: ms => dragMoves (handleDrag s m.e m.rect m.now).state ms

/-- A full drag: pointer-down on a handle, the pointer-moves, pointer-up. -/
def fullDrag (s : State) (down : PointerEvt) (handleType : HandleType) (ms : List Move) :
    State :=
  endDrag (dragMoves (startDrag s down handleType).state ms)

/-- The number of `onChange` invocations made so far. -/
def onChangeCount (s : State) : Nat :=
  (onChangeCalls s.calls).length

/-- The clock readings of the pointer-moves at which `handleDrag` invoked `onChange`. -/
def notifyTimes (s : State) : List Move → List ℚ
  | [] => []
  | m :: ms =>
    let s1 := (handleDrag s m.e m.rect m.now).state
    if onChangeCount s < onChangeCount s1 then m.now :: notifyTimes s1 ms
    else notifyTimes s1 ms

/-- The clock reading of the last move of `m :: ms`. -/
def lastNow : Move → List Move → ℚ
  | m, [] => m.now
  | _, m :: ms => lastNow m ms

/-- The time from the first to the last pointer-move of a drag (`0` without moves). -/
def duration : List Move → ℚ
  | [] => 0
  | m :: ms => lastNow m ms - m.now

/-- A mouse move at `x` over the sample track at clock reading `now`. -/
def moveAt (x now : ℚ) : Move :=
  { e := mouseAt x, rect := sampleRect, now := now }

/-- An idle default single slider with `onChange`, notifying continuously during drags
at most every `16` ms. -/
def sampleContinuous : State :=
  construct { Options.defaults with continuousUpdates := some true, onChange := true }

/-- The method `handleTrackClick(e)`, with the track rectangle it obtains.  A click on a
range slider goes to the `min` handle only when the snapped value is strictly closer to
`values[0]`; otherwise, ties included, it goes to the `max` handle. -/
def handleTrackClick (s : State) (e : PointerEvt) (rect : Rect) : Outcome :=
  match pointerX e with
  | Except.error err => Outcome.threw err s
  | Except.ok x =>
    let clickPercent :=
      JsNum.mathMax (JsNum.fin 0)
        (JsNum.mathMin (JsNum.fin 1)
          (JsNum.div (JsNum.sub (JsNum.ofOption x) (JsNum.fin rect.left))
            (JsNum.fin rect.width)))
    let newValue :=
      JsNum.add (JsNum.fin s.config.min)
        (JsNum.mul clickPercent (JsNum.fin (s.config.max - s.config.min)))
    let snappedValue := snapToStep s.config newValue
    match s.config.type with
    | SliderType.range =>
      let minDist := JsNum.mathAbs (JsNum.sub snappedValue (s.values.idx 0))
      let maxDist := JsNum.mathAbs (JsNum.sub snappedValue (s.values.idx 1))
      if JsNum.lt minDist maxDist then
        setValue s (JsVal.arr [snappedValue, s.values.idx 1]) (some HandleType.min) true
      else
        setValue s (JsVal.arr [s.values.idx 0, snappedValue]) (some HandleType.max) true
    | SliderType.single => setValue s (JsVal.num snappedValue) none true

/-- The keys `handleKeyDown` tells apart; `other` is any other key. -/
inductive Key where
  | arrowRight : Key
  | arrowUp : Key
  | arrowLeft : Key
  | arrowDown : Key
  | home : Key
  | endKey : Key
  | other : Key
  deriving DecidableEq, Repr

/-- A keyboard event: the key and the state of the shift modifier. -/
structure KeyEvt where
  key : Key
  shiftKey : Bool
  deriving DecidableEq, Repr

/-- The method `handleKeyDown(e, handleType)`; the wrapper's listener passes no handle
type (`none`).  On a single slider `this.values + step` is an addition of numbers, the
stored value being a number there. -/
def handleKeyDown (s : State) (e : KeyEvt) (handleType : Option HandleType) : Outcome :=
  if s.config.disabled then Outcome.ok s
  else
    let step : JsNum := JsNum.fin (if e.shiftKey then s.config.step * 10 else s.config.step)
    match e.key with
    | Key.arrowRight | Key.arrowUp =>
      match s.config.type, handleType with
      | SliderType.range, some HandleType.min =>
        let newValue := JsNum.mathMin (JsNum.add (s.values.idx 0) step) (s.values.idx 1)
        setValue s (JsVal.arr [newValue, s.values.idx 1]) (some HandleType.min) true
      | SliderType.range, some HandleType.max =>
        let newValue := JsNum.mathMin (JsNum.add (s.values.idx 1) step) (JsNum.fin s.config.max)
        setValue s (JsVal.arr [s.values.idx 0, newValue]) (some HandleType.max) true
      | SliderType.range, _ => Outcome.ok s
      | SliderType.single, _ =>
        let newValue := JsNum.mathMin (JsNum.add s.values.toNumber step) (JsNum.fin s.config.max)
        setValue s (JsVal.num newValue) none true
    | Key.arrowLeft | Key.arrowDown =>
      match s.config.type, handleType with
      | SliderType.range, some HandleType.min =>
        let newValue := JsNum.mathMax (JsNum.sub (s.values.idx 0) step) (JsNum.fin s.config.min)
        setValue s (JsVal.arr [newValue, s.values.idx 1]) (some HandleType.min) true
      | SliderType.range, some HandleType.max =>
        let newValue := JsNum.mathMax (JsNum.sub (s.values.idx 1) step) (s.values.idx 0)
        setValue s (JsVal.arr [s.values.idx 0, newValue]) (some HandleType.max) true
      | SliderType.range, _ => Outcome.ok s
      | SliderType.single, _ =>
        let newValue := JsNum.mathMax (JsNum.sub s.values.toNumber step) (JsNum.fin s.config.min)
        setValue s (JsVal.num newValue) none true
    | Key.home =>
      match s.config.type, handleType with
      | SliderType.range, some HandleType.min =>
        setValue s (JsVal.arr [JsNum.fin s.config.min, s.values.idx 1]) (some HandleType.min)
          true
      | SliderType.range, some HandleType.max =>
        setValue s (JsVal.arr [s.values.idx 0, JsNum.fin s.config.min]) (some HandleType.max)
          true
      | _, _ => setValue s (JsVal.num (JsNum.fin s.config.min)) none true
    | Key.endKey =>
      match s.config.type, handleType with
      | SliderType.range, some HandleType.min =>
        setValue s (JsVal.arr [JsNum.fin s.config.max, s.values.idx 1]) (some HandleType.min)
          true
      | SliderType.range, some HandleType.max =>
        setValue s (JsVal.arr [s.values.idx 0, JsNum.fin s.config.max]) (some HandleType.max)
          true
      | _, _ => setValue s (JsVal.num (JsNum.fin s.config.max)) none true
    | Key.other => Outcome.ok s

/-- The assignment `e.target.value = x` in an input listener: the target is the field the
listener is bound to, named by its handle type. -/
def setField (v : View) (handleType : HandleType) (x : JsNum) : View :=
  match handleType with
  | HandleType.min => { v with minInput := x }
  | HandleType.max => { v with maxInput := x }
  | HandleType.single => { v with valueInput := x }

/-- The content of the input field bound with a handle type. -/
def fieldOf (v : View) : HandleType → JsNum
  | HandleType.min => v.minInput
  | HandleType.max => v.maxInput
  | HandleType.single => v.valueInput

/-- The method `handleInputChange(e, handleType)`, given `parseFloat(e.target.value)`:
`nan` when the text does not parse. -/
def handleInputChange (s : State) (parsed : JsNum) (handleType : HandleType) : Outcome :=
  match parsed with
  | JsNum.nan => Outcome.ok s
  | JsNum.fin v =>
    match handleType with
    | HandleType.min =>
      let newMin :=
        JsNum.mathMax (JsNum.fin s.config.min) (JsNum.mathMin (JsNum.fin v) (s.values.idx 1))
      setValue s (JsVal.arr [newMin, s.values.idx 1]) (some HandleType.min) true
    | HandleType.max =>
      let newMax :=
        JsNum.mathMin (JsNum.fin s.config.max) (JsNum.mathMax (JsNum.fin v) (s.values.idx 0))
      setValue s (JsVal.arr [s.values.idx 0, newMax]) (some HandleType.max) true
    | HandleType.single =>
      let clampedValue :=
        JsNum.mathMax (JsNum.fin s.config.min) (JsNum.mathMin (JsNum.fin s.config.max) (JsNum.fin v))
      setValue s (JsVal.num clampedValue) none true

/-- The method `handleInputBlur(e, handleType)`, given `parseFloat(e.target.value)`. -/
def handleInputBlur (s : State) (parsed : JsNum) (handleType : HandleType) : Outcome :=
  match parsed with
  | JsNum.nan =>
    match handleType with
    | HandleType.min =>
      Outcome.ok { s with view := setField s.view HandleType.min (s.values.idx 0) }
    | HandleType.max =>
      Outcome.ok { s with view := setField s.view HandleType.max (s.values.idx 1) }
    | HandleType.single =>
      Outcome.ok { s with view := setField s.view HandleType.single s.values.toNumber }
  | JsNum.fin v =>
    match handleType with
    | HandleType.min =>
      let newMin :=
        JsNum.mathMax (JsNum.fin s.config.min) (JsNum.mathMin (JsNum.fin v) (s.values.idx 1))
      setValue { s with view := setField s.view HandleType.min newMin }
        (JsVal.arr [newMin, s.values.idx 1]) (some HandleType.min) true
    | HandleType.max =>
      let newMax :=
        JsNum.mathMin (JsNum.fin s.config.max) (JsNum.mathMax (JsNum.fin v) (s.values.idx 0))
      setValue { s with view := setField s.view HandleType.max newMax }
        (JsVal.arr [s.values.idx 0, newMax]) (some HandleType.max) true
    | HandleType.single =>
      let clampedValue :=
        JsNum.mathMax (JsNum.fin s.config.min) (JsNum.mathMin (JsNum.fin s.config.max) (JsNum.fin v))
      setValue { s with view := setField s.view HandleType.single clampedValue }
        (JsVal.num clampedValue) none true

/-- A range slider with `min = 0`, `max = 100`, `step = 1`, value `[20, 80]` and an
`onChange` callback. -/
def clickRange : State :=
  construct
    { Options.defaults with
      type := some SliderType.range
      value := some (JsVal.arr [JsNum.fin 20, JsNum.fin 80])
      onChange := true }

/-- A range slider with `min = 0`, `max = 100`, value `[20, 80]`, continuous updates and an
`onChange` callback, whose `min` handle has been grabbed. -/
def grabbedRange : State :=
  (startDrag
    (construct
      { Options.defaults with
        type := some SliderType.range
        value := some (JsVal.arr [JsNum.fin 20, JsNum.fin 80])
        continuousUpdates := some true
        onChange := true })
    (mouseAt 20) HandleType.min).state

/-- A single slider with `min = 0`, `max = 100`, `step = 10`, whose handle has been
grabbed. -/
def draggingStep10 : State :=
  (startDrag (construct { Options.defaults with step := some 10 }) (mouseAt 5)
    HandleType.single).state

/-- A track that starts `20` pixels from the left edge of the viewport and is `100` wide. -/
def insetRect : Rect :=
  { left := 20, width := 100 }

/-- A touch event with one touch point at the given `clientX`. -/
def touchAt (x : ℚ) : PointerEvt :=
  { clientX := none, touches := some [x] }

/-- The step of a key press: `step * 10` with the shift modifier, `step` without. -/
def keyStep (c : Config) (e : KeyEvt) : ℚ :=
  if e.shiftKey then c.step * 10 else c.step

/-- A default single slider with `step = 5`, initial value `95` and an `onChange`
callback. -/
def sampleStep5 : State :=
  construct
    { Options.defaults with
      step := some 5
      value := some (JsVal.num (JsNum.fin 95))
      onChange := true }

/-- The method `setDisabled(disabled)`: it assigns `config.disabled`; the class and the
`tabindex` and `disabled` attributes it also sets are not part of the modelled view. -/
def setDisabled (s : State) (disabled : Bool) : State :=
  { s with config := { s.config with disabled := disabled } }

/-- A keydown dispatched to a focused handle: the handle's listener runs
`handleKeyDown(e, handleType)`, then the event bubbles to the wrapper, whose listener runs
`handleKeyDown(e)`; a listener that throws does not stop the dispatch. -/
def keydownOnHandle (s : State) (e : KeyEvt) (handleType : HandleType) : State :=
  (handleKeyDown (handleKeyDown s e (some handleType)).state e none).state

/-- The calls that can reach a slider after construction: the listeners of `bindEvents`
and the public methods. -/
inductive Event where
  | startDrag (e : PointerEvt) (handleType : HandleType) : Event
  | handleDrag (e : PointerEvt) (rect : Rect) (now : ℚ) : Event
  | endDrag : Event
  | handleTrackClick (e : PointerEvt) (rect : Rect) : Event
  | handleKeyDown (e : KeyEvt) (handleType : Option HandleType) : Event
  | handleInputChange (parsed : JsNum) (handleType : HandleType) : Event
  | handleInputBlur (parsed : JsNum) (handleType : HandleType) : Event
  | setValue (value : JsVal) (source : Option HandleType) (triggerCallback : Bool) : Event
  | setDisabled (disabled : Bool) : Event
  deriving DecidableEq, Repr

/-- The state one call leaves behind, whether it returned or threw. -/
def step (s : State) : Event → State
  | Event.startDrag e h => (startDrag s e h).state
  | Event.handleDrag e rect now => (handleDrag s e rect now).state
  | Event.endDrag => endDrag s
  | Event.handleTrackClick e rect => (handleTrackClick s e rect).state
  | Event.handleKeyDown e h => (handleKeyDown s e h).state
  | Event.handleInputChange parsed h => (handleInputChange s parsed h).state
  | Event.handleInputBlur parsed h => (handleInputBlur s parsed h).state
  | Event.setValue v src t => (setValue s v src t).state
  | Event.setDisabled d => setDisabled s d

/-- The state after a sequence of calls. -/
def run (s : State) : List Event → State
  | [] => s
  | ev :: evs => run (step s ev) evs

/-- A default single slider (`min = 0`, `max = 100`, `step = 1`) with input field, initial
value `50` and both callbacks registered. -/
def sampleInputs : State :=
  construct
    { Options.defaults with
      value := some (JsVal.num (JsNum.fin 50))
      showInputs := some true
      onChange := true
      onInputChange := true }

/-- A range slider with `min = 0`, `max = 100`, value `[20, 80]`, input fields and both
callbacks registered. -/
def sampleRangeInputs : State :=
  construct
    { Options.defaults with
      type := some SliderType.range
      value := some (JsVal.arr [JsNum.fin 20, JsNum.fin 80])
      showInputs := some true
      onChange := true
      onInputChange := true }

end NumericSlider

/-! # SplitPanel: `src/components/split-panel/split-panel.js` -/

namespace SplitPanel

/-- The fields of `this.config` read by `setSplit`; the callback is recorded by whether it
is registered. -/
structure Config where
  vertical : Bool
  initialSplit : ℚ
  minLeft : ℚ
  minRight : ℚ
  disabled : Bool
  onChange : Bool
  deriving DecidableEq, Repr

/-- What `setSplit` writes to the document: `flex-basis` and `min-width` of both panels,
in pixels, and `aria-valuenow` of the divider. -/
structure Layout where
  leftFlexBasis : NumericSlider.JsNum
  leftMinWidth : NumericSlider.JsNum
  rightFlexBasis : NumericSlider.JsNum
  rightMinWidth : NumericSlider.JsNum
  ariaValueNow : NumericSlider.JsNum
  deriving DecidableEq, Repr

/-- The instance fields of a `SplitPanel`, the layout it wrote and the log of the
arguments `onChange` was invoked with. -/
structure State where
  config : Config
  isDragging : Bool
  startPosition : ℚ
  startSplit : ℚ
  currentSplit : NumericSlider.JsNum
  layout : Layout
  calls : List NumericSlider.JsNum
  deriving DecidableEq, Repr

/-- The result of `container.getBoundingClientRect()`. -/
structure ContainerRect where
  width : ℚ
  height : ℚ
  deriving DecidableEq, Repr

/-- The method `setSplit(percent, skipCallback = false)`, with the container rectangle it
obtains. -/
def setSplit (s : State) (percent : NumericSlider.JsNum) (skipCallback : Bool)
    (rect : ContainerRect) : State :=
  let percent :=
    NumericSlider.JsNum.mathMax (NumericSlider.JsNum.fin s.config.minLeft)
      (NumericSlider.JsNum.mathMin (NumericSlider.JsNum.fin (100 - s.config.minRight)) percent)
  let containerSize := if s.config.vertical then rect.height else rect.width
  let dividerSize : ℚ := 4
  let minLeftPx := containerSize * s.config.minLeft / 100
  let minRightPx := containerSize * s.config.minRight / 100
  let leftSizePx :=
    NumericSlider.JsNum.div
      (NumericSlider.JsNum.mul (NumericSlider.JsNum.fin containerSize) percent)
      (NumericSlider.JsNum.fin 100)
  let rightSizePx :=
    NumericSlider.JsNum.sub
      (NumericSlider.JsNum.sub (NumericSlider.JsNum.fin containerSize) leftSizePx)
      (NumericSlider.JsNum.fin dividerSize)
  let s1 : State :=
    { s with
      currentSplit := percent
      layout :=
        { leftFlexBasis := leftSizePx
          leftMinWidth := NumericSlider.JsNum.fin minLeftPx
          rightFlexBasis := rightSizePx
          rightMinWidth := NumericSlider.JsNum.fin minRightPx
          ariaValueNow := NumericSlider.JsNum.mathRound percent } }
  if !skipCallback && s1.config.onChange then { s1 with calls := s1.calls ++ [percent] }
  else s1

/-- A panel with the default configuration (`minLeft = 10`, `minRight = 10`) and an
`onChange` callback, before its first `setSplit`. -/
def samplePanel : State :=
  { config :=
      { vertical := false, initialSplit := 50, minLeft := 10, minRight := 10,
        disabled := false, onChange := true }
    isDragging := false
    startPosition := 0
    startSplit := 0
    currentSplit := NumericSlider.JsNum.fin 50
    layout :=
      { leftFlexBasis := NumericSlider.JsNum.nan, leftMinWidth := NumericSlider.JsNum.nan,
        rightFlexBasis := NumericSlider.JsNum.nan, rightMinWidth := NumericSlider.JsNum.nan,
        ariaValueNow := NumericSlider.JsNum.nan }
    calls := [] }

end SplitPanel

/-! # Modal: `src/components/modal/modal.js` -/

namespace Modal

/-- The fields of `this.config` read by `open` and `close`; callbacks are recorded by
whether they are registered. -/
structure Config where
  showCloseButton : Bool
  hasTitle : Bool
  onOpen : Bool
  onClose : Bool
  deriving DecidableEq, Repr

/-- One invocation of a caller-supplied callback. -/
inductive Call where
  | onOpen : Call
  | onClose : Call
  deriving DecidableEq, Repr

/-- What `open` can give the focus to. -/
inductive Focus where
  | closeButton : Focus
  | title : Focus
  | element (id : Nat) : Focus
  deriving DecidableEq, Repr

/-- The instance fields of a `Modal`, what it wrote to the document (the `open` class of
the overlay, the `overflow` and `padding-right` of the body, the focus it last set) and
the log of callback invocations. -/
structure State where
  config : Config
  isOpen : Bool
  previousActiveElement : Option Nat
  bodyScrollLocked : Bool
  overlayOpen : Bool
  bodyOverflowHidden : Bool
  bodyPaddingRight : Option ℚ
  focused : Option Focus
  calls : List Call
  deriving DecidableEq, Repr

/-- What `open` reads from the document: the focused element and the width of the
scrollbar. -/
structure Env where
  activeElement : Option Nat
  scrollbarWidth : ℚ
  deriving DecidableEq, Repr

/-- The constructor: closed, nothing locked, nothing written. -/
def construct (c : Config) : State :=
  { config := c, isOpen := false, previousActiveElement := none, bodyScrollLocked := false,
    overlayOpen := false, bodyOverflowHidden := false, bodyPaddingRight := none,
    focused := none, calls := [] }

/-- The method `lockBodyScroll()`. -/
def lockBodyScroll (s : State) (env : Env) : State :=
  if s.bodyScrollLocked then s
  else
    { s with
      bodyOverflowHidden := true
      bodyPaddingRight :=
        if env.scrollbarWidth > 0 then some env.scrollbarWidth else s.bodyPaddingRight
      bodyScrollLocked := true }

/-- The method `unlockBodyScroll()`. -/
def unlockBodyScroll (s : State) : State :=
  if !s.bodyScrollLocked then s
  else { s with bodyOverflowHidden := false, bodyPaddingRight := none, bodyScrollLocked := false }

/-- The method `open()`. -/
def openModal (s : State) (env : Env) : State :=
  if s.isOpen then s
  else
    let s1 :=
      { s with isOpen := true, previousActiveElement := env.activeElement, overlayOpen := true }
    let s2 := lockBodyScroll s1 env
    let s3 :=
      if s2.config.showCloseButton then { s2 with focused := some Focus.closeButton }
      else if s2.config.hasTitle then { s2 with focused := some Focus.title }
      else s2
    if s3.config.onOpen then { s3 with calls := s3.calls ++ [Call.onOpen] } else s3

/-- The method `close()`. -/
def close (s : State) : State :=
  if !s.isOpen then s
  else
    let s1 := { s with isOpen := false, overlayOpen := false }
    let s2 := unlockBodyScroll s1
    let s3 :=
      match s2.previousActiveElement with
      | some id => { s2 with focused := some (Focus.element id) }
      | none => s2
    if s3.config.onClose then { s3 with calls := s3.calls ++ [Call.onClose] } else s3

/-- A call of `open()` or of `close()`. -/
inductive Action where
  | openModal (env : Env) : Action
  | close : Action
  deriving DecidableEq, Repr

/-- The state after a sequence of `open()` and `close()` calls. -/
def run (s : State) : List Action → State
  | [] => s
  | Action.openModal env :: as => run (openModal s env) as
  | Action.close :: as => run (close s) as

/-- The number of invocations of one callback in a log. -/
def count (c : Call) (log : List Call) : Nat :=
  log.count c

/-- A modal with a close button and no callbacks. -/
def plainConfig : Config :=
  { showCloseButton := true, hasTitle := false, onOpen := false, onClose := false }

/-- A modal with a close button, a title and both callbacks. -/
def callbackConfig : Config :=
  { showCloseButton := true, hasTitle := true, onOpen := true, onClose := true }

/-- A document in which element `1` has the focus and the scrollbar is `15` wide. -/
def sampleEnv : Env :=
  { activeElement := some 1, scrollbarWidth := 15 }

end Modal

/-! # Test server: `src/test-server.js`

Paths follow the POSIX flavour of Node's `path` module.  An absolute normalised path is
the list of its segments; `path.join` and `path.relative` are modelled on such lists. -/

namespace TestServer

/-- The segments of a string between its `/` characters; `cur` holds the segment being
read, reversed. -/
def splitSegments : List Char → List Char → List String
  | [], cur => [String.mk cur.reverse]
  | c :: cs, cur =>
    if c = '/' then String.mk cur.reverse :: splitSegments cs [] else splitSegments cs (c :: cur)

/-- One segment applied to a normalised path: empty and `.` segments are dropped, `..`
removes the last segment (none at the root), any other segment is appended. -/
def stepSegment (acc : List String) (seg : String) : List String :=
  if seg = "" ∨ seg = "." then acc
  else if seg = ".." then acc.dropLast
  else acc ++ [seg]

/-- The call `path.join(base, rel)` for an absolute normalised `base`. -/
def join (base : List String) (rel : String) : List String :=
  (splitSegments rel.toList []).foldl stepSegment base

/-- The segments two paths do not share at their start. -/
def stripCommon : List String → List String → List String × List String
  | p :: ps, c :: cs => if p = c then stripCommon ps cs else (p :: ps, c :: cs)
  | ps, cs => (ps, cs)

/-- The call `path.relative(from, to)` for absolute normalised paths, as the list of the
segments of its result: one `..` for every segment left of `from`, then what is left of
`to`.  The empty list is the empty string. -/
def relative (src dst : List String) : List String :=
  List.replicate (stripCommon src dst).1.length ".." ++ (stripCommon src dst).2

/-- The test `relative.startsWith('..')` on the segments of `relative`: the string begins
with two dots exactly when its first segment does. -/
def startsWithDotDot : List String → Bool
  | [] => false
  | seg :: _ => seg.toList.take 2 == ['.', '.']

/-- The test `path.isAbsolute(relative)`: the string begins with `/`. -/
def isAbsolute : List String → Bool
  | [] => false
  | seg :: _ => seg.toList.head? == some '/'

/-- The function `isPathInside(child, parent)`. -/
def isPathInside (child parent : List String) : Bool :=
  let rel := relative parent child
  !rel.isEmpty && !startsWithDotDot rel && !isAbsolute rel

/-- The file system as the handler sees it: `fs.existsSync`, and `fs.stat` answering with
an error (`none`) or with whether the path is a directory. -/
structure FileSystem where
  existsSync : List String → Bool
  stat : List String → Option Bool

/-- One access the handler makes to the file system. -/
inductive Access where
  | existsSync (p : List String) : Access
  | stat (p : List String) : Access
  | createReadStream (p : List String) : Access
  deriving DecidableEq, Repr

/-- The response of the handler: `403 Forbidden`, `404 Not Found`, or the file sent by
`sendFile`. -/
inductive Response where
  | forbidden : Response
  | notFound : Response
  | sendFile (p : List String) : Response
  deriving DecidableEq, Repr

/-- The response to a request and the file-system accesses made for it, in order. -/
structure Handled where
  response : Response
  accesses : List Access
  deriving DecidableEq, Repr

/-- The constant `PUBLIC_DIR`, `path.join(__dirname, '..')`, for `__dirname = dir`. -/
def PUBLIC_DIR (dir : List String) : List String :=
  join dir ".."

/-- The path `relativePath` of the handler for a decoded `pathname`: `/` stands for
`/test.html`, and one leading slash is removed. -/
def relativePath (pathname : String) : String :=
  let pathname := if pathname = "/" then "/test.html" else pathname
  if pathname.toList.head? = some '/' then String.mk (pathname.toList.drop 1) else pathname

/-- The path `fsPath` the handler resolves: the join with `DESIGN_SYSTEM_DIR` if that
exists, the join with `PUBLIC_DIR` otherwise. -/
def resolvePath (fs : FileSystem) (dir : List String) (pathname : String) : List String :=
  if !fs.existsSync (join dir (relativePath pathname)) then
    join (PUBLIC_DIR dir) (relativePath pathname)
  else join dir (relativePath pathname)

/-- The request handler, for `DESIGN_SYSTEM_DIR = dir` and the pathname obtained by
`decodeURIComponent`. -/
def handleRequest (fs : FileSystem) (dir : List String) (pathname : String) : Handled :=
  let fsPath := resolvePath fs dir pathname
  let probe := [Access.existsSync (join dir (relativePath pathname))]
  if !isPathInside fsPath dir && !isPathInside fsPath (PUBLIC_DIR dir) then
    { response := Response.forbidden, accesses := probe }
  else
    match fs.stat fsPath with
    | none => { response := Response.notFound, accesses := probe ++ [Access.stat fsPath] }
    | some true =>
      let indexPath := join fsPath "index.html"
      if fs.existsSync indexPath then
        { response := Response.sendFile indexPath
          accesses :=
            probe ++ [Access.stat fsPath, Access.existsSync indexPath,
              Access.createReadStream indexPath] }
      else
        { response := Response.forbidden
          accesses := probe ++ [Access.stat fsPath, Access.existsSync indexPath] }
    | some false =>
      { response := Response.sendFile fsPath
        accesses := probe ++ [Access.stat fsPath, Access.createReadStream fsPath] }

/-- A path is a strict descendant of a directory: the directory followed by at least one
more segment. -/
def strictlyInside (p dir : List String) : Prop :=
  ∃ rest : List String, rest ≠ [] ∧ p = dir ++ rest

/-- A file system in which nothing exists. -/
def emptyFs : FileSystem :=
  { existsSync := fun _ => false, stat := fun _ => none }

end TestServer

namespace NumericSlider

/-! ## Basic facts about the embedding -/

@[simp] theorem JsNum.add_fin (a b : ℚ) : JsNum.add (JsNum.fin a) (JsNum.fin b) = JsNum.fin (a + b) := rfl

@[simp] theorem JsNum.sub_fin (a b : ℚ) : JsNum.sub (JsNum.fin a) (JsNum.fin b) = JsNum.fin (a - b) := rfl

@[simp] theorem JsNum.mul_fin (a b : ℚ) : JsNum.mul (JsNum.fin a) (JsNum.fin b) = JsNum.fin (a * b) := rfl

theorem JsNum.div_fin (a b : ℚ) (hb : b ≠ 0) :
    JsNum.div (JsNum.fin a) (JsNum.fin b) = JsNum.fin (a / b) := by
  simp [JsNum.div, hb]

@[simp] theorem JsNum.mathMax_fin (a b : ℚ) :
    JsNum.mathMax (JsNum.fin a) (JsNum.fin b) = JsNum.fin (max a b) := rfl

@[simp] theorem JsNum.mathMin_fin (a b : ℚ) :
    JsNum.mathMin (JsNum.fin a) (JsNum.fin b) = JsNum.fin (min a b) := rfl

@[simp] theorem JsNum.mathRound_fin (a : ℚ) :
    JsNum.mathRound (JsNum.fin a) = JsNum.fin ((⌊a + 1 / 2⌋ : ℤ) : ℚ) := rfl

@[simp] theorem JsNum.gt_fin (a b : ℚ) : JsNum.gt (JsNum.fin a) (JsNum.fin b) = decide (b < a) := rfl

@[simp] theorem updateVisuals_values (s : State) : (updateVisuals s).values = s.values := by
  unfold updateVisuals; split <;> rfl

@[simp] theorem updateVisuals_config (s : State) : (updateVisuals s).config = s.config := by
  unfold updateVisuals; split <;> rfl

@[simp] theorem updateVisuals_calls (s : State) : (updateVisuals s).calls = s.calls := by
  unfold updateVisuals; split <;> rfl

@[simp] theorem updateVisuals_isDragging (s : State) :
    (updateVisuals s).isDragging = s.isDragging := by
  unfold updateVisuals; split <;> rfl

@[simp] theorem updateVisuals_activeHandle (s : State) :
    (updateVisuals s).activeHandle = s.activeHandle := by
  unfold updateVisuals; split <;> rfl

@[simp] theorem updateVisuals_lastCallbackTime (s : State) :
    (updateVisuals s).lastCallbackTime = s.lastCallbackTime := by
  unfold updateVisuals; split <;> rfl

@[simp] theorem fireCallbacks_values (s : State) (src : Option HandleType) (t : Bool) :
    (fireCallbacks s src t).values = s.values := by
  simp only [fireCallbacks]; split_ifs <;> rfl

@[simp] theorem fireCallbacks_config (s : State) (src : Option HandleType) (t : Bool) :
    (fireCallbacks s src t).config = s.config := by
  simp only [fireCallbacks]; split_ifs <;> rfl

@[simp] theorem fireCallbacks_isDragging (s : State) (src : Option HandleType) (t : Bool) :
    (fireCallbacks s src t).isDragging = s.isDragging := by
  simp only [fireCallbacks]; split_ifs <;> rfl

@[simp] theorem fireCallbacks_activeHandle (s : State) (src : Option HandleType) (t : Bool) :
    (fireCallbacks s src t).activeHandle = s.activeHandle := by
  simp only [fireCallbacks]; split_ifs <;> rfl

@[simp] theorem fireCallbacks_lastCallbackTime (s : State) (src : Option HandleType) (t : Bool) :
    (fireCallbacks s src t).lastCallbackTime = s.lastCallbackTime := by
  simp only [fireCallbacks]; split_ifs <;> rfl

theorem fireCallbacks_calls (s : State) (src : Option HandleType) (t : Bool) :
    (fireCallbacks s src t).calls =
      s.calls ++ (if t && s.config.onChange then [Call.onChange s.values src] else []) ++
        (if t && s.config.onInputChange && src.isSome then [Call.onInputChange s.values src]
         else []) := by
  unfold fireCallbacks
  cases t <;> cases h1 : s.config.onChange <;> cases h2 : s.config.onInputChange <;>
    cases src <;> simp [h1, h2]

@[simp] theorem fireCallbacks_false (s : State) (src : Option HandleType) :
    fireCallbacks s src false = s := by
  simp [fireCallbacks]

/-- What `setValue` does on a single slider, for any argument. -/
theorem setValue_single (s : State) (value : JsVal) (src : Option HandleType) (t : Bool)
    (h : s.config.type = SliderType.single) :
    setValue s value src t =
      Outcome.ok (fireCallbacks (updateVisuals
        { s with
          values :=
            JsVal.num
              (JsNum.mathMax (JsNum.fin s.config.min)
                (JsNum.mathMin (JsNum.fin s.config.max) value.toNumber)) }) src t) := by
  unfold setValue; rw [h]

/-- What `setValue` does on a range slider given an array of two elements. -/
theorem setValue_range_pair (s : State) (a b : JsNum) (src : Option HandleType) (t : Bool)
    (h : s.config.type = SliderType.range) :
    setValue s (JsVal.arr [a, b]) src t =
      Outcome.ok (fireCallbacks (updateVisuals
        { s with values := rangeValues s.config a b }) src t) := by
  unfold setValue; rw [h]; simp [JsVal.isArray, JsVal.length, JsVal.idx]

/-! ## setValue -/

theorem sampleSingle_config :
    sampleSingle.config =
      { type := SliderType.single, min := 0, max := 100, step := 1, showInputs := false,
        continuousUpdates := false, throttleMs := 16, onChange := true,
        onInputChange := false, disabled := false } := by
  simp [sampleSingle, construct, Options.defaults]

theorem sampleRange_config :
    sampleRange.config =
      { type := SliderType.range, min := 0, max := 100, step := 1, showInputs := false,
        continuousUpdates := false, throttleMs := 16, onChange := true,
        onInputChange := false, disabled := false } := by
  simp [sampleRange, construct, Options.defaults]

/-- C1: on a single slider with `min < max`, `setValue(v)` returns and stores
`max(min, min(max, v))`, which `getValue()` reports: `v` itself inside the bounds, `min`
below them and `max` above them. -/
theorem setValue_single_clamps (s : State) (v : ℚ) (source : Option HandleType)
    (notify : Bool) (hsingle : s.config.type = SliderType.single)
    (hlt : s.config.min < s.config.max) :
    ∃ s1, setValue s (JsVal.num (JsNum.fin v)) source notify = Outcome.ok s1 ∧
      s1.values = JsVal.num (JsNum.fin (max s.config.min (min s.config.max v))) ∧
      getValue s1 = s1.values ∧
      (s.config.min ≤ v → v ≤ s.config.max → getValue s1 = JsVal.num (JsNum.fin v)) ∧
      (v < s.config.min → getValue s1 = JsVal.num (JsNum.fin s.config.min)) ∧
      (s.config.max < v → getValue s1 = JsVal.num (JsNum.fin s.config.max)) := by
  refine ⟨_, setValue_single s _ source notify hsingle, ?_, rfl, ?_, ?_, ?_⟩
  · simp [JsVal.toNumber]
  · intro h1 h2
    simp [getValue, JsVal.toNumber, min_eq_right h2, max_eq_right h1]
  · intro h1
    have h2 : v ≤ s.config.max := by linarith
    simp [getValue, JsVal.toNumber, min_eq_right h2, max_eq_left h1.le]
  · intro h1
    simp [getValue, JsVal.toNumber, min_eq_left h1.le, max_eq_right hlt.le]

/-- Witness for C1 on the default single slider: `setValue(150)` stores `100`. -/
theorem setValue_single_clamps_witness :
    sampleSingle.config.type = SliderType.single ∧
      sampleSingle.config.min < sampleSingle.config.max ∧
      (setValue sampleSingle (JsVal.num (JsNum.fin 150)) none true).state.values =
        JsVal.num (JsNum.fin 100) := by
  have hc := sampleSingle_config
  have h1 : sampleSingle.config.type = SliderType.single := by rw [hc]
  have h2 : sampleSingle.config.min < sampleSingle.config.max := by rw [hc]; norm_num
  obtain ⟨s1, hs, _, _, _, _, h⟩ := setValue_single_clamps sampleSingle 150 none true h1 h2
  refine ⟨h1, h2, ?_⟩
  have h3 := h (by rw [hc]; norm_num)
  rw [hs]
  simpa [Outcome.state, getValue, hc] using h3

/-- The pair stored in range mode for finite inputs, when `min ≤ max`: no swap is needed. -/
theorem rangeValues_fin (c : Config) (a b : ℚ) (hle : c.min ≤ c.max) :
    rangeValues c (JsNum.fin a) (JsNum.fin b) =
      JsVal.arr [JsNum.fin (max c.min (min (min a b) c.max)),
        JsNum.fin (min c.max (max (max a b) c.min))] := by
  have h : ¬ (min c.max (max (max a b) c.min) < max c.min (min (min a b) c.max)) := by
    rw [not_lt]
    apply max_le
    · exact le_min hle (le_max_right _ _)
    · apply le_min (min_le_right _ _)
      exact le_trans (min_le_left _ _) (le_trans (min_le_left _ _)
        (le_trans (le_max_left a b) (le_max_left _ _)))
  simp [rangeValues, h]

/-- C2: on a range slider with `min ≤ max`, `setValue([a, b])` returns and stores a pair
`(lo, hi)` with `min ≤ lo ≤ hi ≤ max`, whatever the order and position of `a` and `b`. -/
theorem setValue_range_ordered (s : State) (a b : ℚ) (source : Option HandleType)
    (notify : Bool) (hrange : s.config.type = SliderType.range)
    (hle : s.config.min ≤ s.config.max) :
    ∃ s1 lo hi,
      setValue s (JsVal.arr [JsNum.fin a, JsNum.fin b]) source notify = Outcome.ok s1 ∧
      s1.values = JsVal.arr [JsNum.fin lo, JsNum.fin hi] ∧
      s.config.min ≤ lo ∧ lo ≤ hi ∧ hi ≤ s.config.max := by
  refine ⟨_, max s.config.min (min (min a b) s.config.max),
    min s.config.max (max (max a b) s.config.min),
    setValue_range_pair s _ _ source notify hrange, ?_, le_max_left _ _, ?_, min_le_left _ _⟩
  · simp [rangeValues_fin _ _ _ hle]
  · apply max_le
    · exact le_min hle (le_max_right _ _)
    · apply le_min (min_le_right _ _)
      exact le_trans (min_le_left _ _) (le_trans (min_le_left _ _)
        (le_trans (le_max_left a b) (le_max_left _ _)))

/-- Witness for C2 on the default range slider: the reversed, out-of-bounds pair
`[150, -20]` is stored as `[0, 100]`. -/
theorem setValue_range_ordered_witness :
    sampleRange.config.type = SliderType.range ∧
      sampleRange.config.min ≤ sampleRange.config.max ∧
      ∃ s1 lo hi,
        setValue sampleRange (JsVal.arr [JsNum.fin 150, JsNum.fin (-20)]) none true =
          Outcome.ok s1 ∧
        s1.values = JsVal.arr [JsNum.fin lo, JsNum.fin hi] ∧
        sampleRange.config.min ≤ lo ∧ lo ≤ hi ∧ hi ≤ sampleRange.config.max := by
  have hc := sampleRange_config
  have h1 : sampleRange.config.type = SliderType.range := by rw [hc]
  have h2 : sampleRange.config.min ≤ sampleRange.config.max := by rw [hc]; norm_num
  exact ⟨h1, h2, setValue_range_ordered sampleRange 150 (-20) none true h1 h2⟩

/-- C3: on a range slider with `min ≤ max`, the pair stored by `setValue([a, b])` is the
pair of the reference procedure (clamp each element, then swap if out of order), which is
`(clamp(min(a, b)), clamp(max(a, b)))`. -/
theorem setValue_range_refines_spec (s : State) (a b : ℚ) (source : Option HandleType)
    (notify : Bool) (hrange : s.config.type = SliderType.range)
    (hle : s.config.min ≤ s.config.max) :
    ∃ s1,
      setValue s (JsVal.arr [JsNum.fin a, JsNum.fin b]) source notify = Outcome.ok s1 ∧
      s1.values =
        JsVal.arr [JsNum.fin (setValueRangeSpec s.config a b).1,
          JsNum.fin (setValueRangeSpec s.config a b).2] ∧
      setValueRangeSpec s.config a b =
        (clampSpec s.config (min a b), clampSpec s.config (max a b)) := by
  have hspec : setValueRangeSpec s.config a b =
      (clampSpec s.config (min a b), clampSpec s.config (max a b)) := by
    unfold setValueRangeSpec clampSpec
    rcases le_total a b with hab | hab
    · have h : ¬ (max s.config.min (min s.config.max a) > max s.config.min (min s.config.max b)) := by
        rw [gt_iff_lt, not_lt]
        exact max_le_max le_rfl (min_le_min le_rfl hab)
      simp only [h, if_false, min_eq_left hab, max_eq_right hab]
    · by_cases h : max s.config.min (min s.config.max a) > max s.config.min (min s.config.max b)
      · simp only [h, if_true, min_eq_right hab, max_eq_left hab]
      · have h2 : max s.config.min (min s.config.max a) = max s.config.min (min s.config.max b) :=
          le_antisymm (not_lt.mp h) (max_le_max le_rfl (min_le_min le_rfl hab))
        rw [if_neg h, min_eq_right hab, max_eq_left hab, h2]
  refine ⟨_, setValue_range_pair s _ _ source notify hrange, ?_, hspec⟩
  rw [hspec]
  simp only [fireCallbacks_values, updateVisuals_values, rangeValues_fin _ _ _ hle, clampSpec]
  have e1 : max s.config.min (min (min a b) s.config.max) =
      max s.config.min (min s.config.max (min a b)) := by rw [min_comm]
  have e2 : min s.config.max (max (max a b) s.config.min) =
      max s.config.min (min s.config.max (max a b)) := by
    rw [max_comm (max a b) s.config.min, max_min_distrib_left, max_eq_right hle]
  rw [e1, e2]

/-- Witness for C3 on the default range slider, at the reversed pair `[70, 30]`. -/
theorem setValue_range_refines_spec_witness :
    sampleRange.config.type = SliderType.range ∧
      sampleRange.config.min ≤ sampleRange.config.max ∧
      ∃ s1,
        setValue sampleRange (JsVal.arr [JsNum.fin 70, JsNum.fin 30]) none true =
          Outcome.ok s1 ∧
        s1.values =
          JsVal.arr [JsNum.fin (setValueRangeSpec sampleRange.config 70 30).1,
            JsNum.fin (setValueRangeSpec sampleRange.config 70 30).2] ∧
        setValueRangeSpec sampleRange.config 70 30 =
          (clampSpec sampleRange.config (min 70 30), clampSpec sampleRange.config (max 70 30)) := by
  have hc := sampleRange_config
  have h1 : sampleRange.config.type = SliderType.range := by rw [hc]
  have h2 : sampleRange.config.min ≤ sampleRange.config.max := by rw [hc]; norm_num
  exact ⟨h1, h2, setValue_range_refines_spec sampleRange 70 30 none true h1 h2⟩

/-- C4: `setValue` throws exactly when the slider is a range slider and the argument is
not an array of two elements.  Being out of range never makes it throw: every number on a
single slider and every pair on any slider is accepted.  When it throws, the state (stored
value and callback log included) is the one it was called in. -/
theorem setValue_throws_iff (s : State) (value : JsVal) (source : Option HandleType)
    (notify : Bool) :
    ((setValue s value source notify).isOk = false ↔
        (s.config.type = SliderType.range ∧ ¬ ∃ a b, value = JsVal.arr [a, b])) ∧
      (∀ e s1, setValue s value source notify = Outcome.threw e s1 →
        e = Err.rangeValue ∧ s1 = s) ∧
      (∀ v : JsNum, s.config.type = SliderType.single →
        (setValue s (JsVal.num v) source notify).isOk = true) ∧
      (∀ a b : JsNum, (setValue s (JsVal.arr [a, b]) source notify).isOk = true) := by
  refine ⟨?_, ?_, ?_, ?_⟩
  · cases ht : s.config.type with
    | single => simp [setValue_single _ _ _ _ ht, Outcome.isOk]
    | range =>
      cases value with
      | num x => simp [setValue, ht, JsVal.isArray, Outcome.isOk]
      | arr xs =>
        match xs with
        | [] => simp [setValue, ht, JsVal.isArray, JsVal.length, Outcome.isOk]
        | [_] => simp [setValue, ht, JsVal.isArray, JsVal.length, Outcome.isOk]
        | [a, b] => simp [setValue_range_pair _ _ _ _ _ ht, Outcome.isOk]
        | _ :: _ :: _ :: _ => simp [setValue, ht, JsVal.isArray, JsVal.length, Outcome.isOk]
  · intro e s1 h
    cases ht : s.config.type with
    | single => rw [setValue_single _ _ _ _ ht] at h; cases h
    | range =>
      unfold setValue at h
      rw [ht] at h
      simp only at h
      split_ifs at h
      · cases h; exact ⟨rfl, rfl⟩
  · intro v ht
    simp [setValue_single _ _ _ _ ht, Outcome.isOk]
  · intro a b
    cases ht : s.config.type with
    | single => simp [setValue_single _ _ _ _ ht, Outcome.isOk]
    | range => simp [setValue_range_pair _ _ _ _ _ ht, Outcome.isOk]

/-- C5: when `setValue` returns on a slider with an `onChange` callback, then with
`notify` true the log grows by exactly one `onChange` invocation, carrying the newly stored
value and the given source (followed by the `onInputChange` invocation when that callback
is registered and a source is given); with `notify` false the log is unchanged; and the
value stored is the same with and without notification. -/
theorem setValue_notifies (s s1 : State) (value : JsVal) (source : Option HandleType)
    (notify : Bool) (hcb : s.config.onChange = true)
    (hok : setValue s value source notify = Outcome.ok s1) :
    (notify = true →
        s1.calls = s.calls ++ [Call.onChange s1.values source] ++
          (if s.config.onInputChange && source.isSome then
            [Call.onInputChange s1.values source] else []) ∧
        onChangeCalls (s1.calls.drop s.calls.length) = [Call.onChange s1.values source]) ∧
      (notify = false → s1.calls = s.calls) ∧
      s1.values = (setValue s value source (!notify)).state.values := by
  have key : ∀ s0 : State, s1 = fireCallbacks (updateVisuals s0) source notify →
      s0.config = s.config → s0.calls = s.calls →
      (notify = true →
        s1.calls = s.calls ++ [Call.onChange s1.values source] ++
          (if s.config.onInputChange && source.isSome then
            [Call.onInputChange s1.values source] else []) ∧
        onChangeCalls (s1.calls.drop s.calls.length) = [Call.onChange s1.values source]) ∧
      (notify = false → s1.calls = s.calls) := by
    intro s0 hs1 hcfg hcalls
    subst hs1
    refine ⟨?_, ?_⟩
    · intro hn
      subst hn
      have hlog := fireCallbacks_calls (updateVisuals s0) source true
      simp only [updateVisuals_config, updateVisuals_calls, updateVisuals_values, hcfg, hcalls,
        hcb, Bool.true_and, if_true] at hlog
      refine ⟨by simpa using hlog, ?_⟩
      rw [hlog, List.append_assoc, List.drop_left]
      cases s.config.onInputChange <;> cases source <;>
        simp [onChangeCalls, Call.isOnChange]
    · intro hn
      subst hn
      simp [hcalls]
  cases ht : s.config.type with
  | single =>
    rw [setValue_single _ _ _ _ ht] at hok
    rw [setValue_single _ _ _ _ ht]
    injection hok with hok
    obtain ⟨h1, h2⟩ := key _ hok.symm rfl rfl
    refine ⟨h1, h2, ?_⟩
    rw [← hok]
    simp [Outcome.state]
  | range =>
    unfold setValue at hok ⊢
    rw [ht] at hok ⊢
    simp only at hok ⊢
    split_ifs at hok with hbad
    injection hok with hok
    obtain ⟨h1, h2⟩ := key _ hok.symm rfl rfl
    refine ⟨h1, h2, ?_⟩
    rw [← hok, if_neg hbad]
    simp [Outcome.state]

/-- Witness for C5 on the default range slider, which has an `onChange` callback:
`setValue([70, 30], 'max', true)` returns. -/
theorem setValue_notifies_witness :
    sampleRange.config.onChange = true ∧
      ∃ s1, setValue sampleRange (JsVal.arr [JsNum.fin 70, JsNum.fin 30])
          (some HandleType.max) true = Outcome.ok s1 ∧
        s1.calls = sampleRange.calls ++ [Call.onChange s1.values (some HandleType.max)] ++
          (if sampleRange.config.onInputChange && (some HandleType.max).isSome then
            [Call.onInputChange s1.values (some HandleType.max)] else []) ∧
        s1.values = JsVal.arr [JsNum.fin 30, JsNum.fin 70] := by
  have hc := sampleRange_config
  have h1 : sampleRange.config.type = SliderType.range := by rw [hc]
  have h2 : sampleRange.config.onChange = true := by rw [hc]
  have hle : sampleRange.config.min ≤ sampleRange.config.max := by rw [hc]; norm_num
  have hok := setValue_range_pair sampleRange (JsNum.fin 70) (JsNum.fin 30)
    (some HandleType.max) true h1
  refine ⟨h2, _, hok, ((setValue_notifies sampleRange _ _ _ true h2 hok).1 rfl).1, ?_⟩
  have hv := rangeValues_fin sampleRange.config 70 30 hle
  simp only [fireCallbacks_values, updateVisuals_values]
  rw [hv, hc]
  norm_num

/-! ## snapToStep -/

/-- The value `snapToStep` computes for a finite raw value when `step ≠ 0`. -/
theorem snapToStep_fin (c : Config) (r : ℚ) (hstep : c.step ≠ 0) :
    snapToStep c (JsNum.fin r) =
      JsNum.fin (((⌊(r - c.min) / c.step + 1 / 2⌋ : ℤ) : ℚ) * c.step + c.min) := by
  simp [snapToStep, JsNum.div_fin _ _ hstep]

/-- C6: for every finite raw value `r` and `step > 0`, `snapToStep(r)` is a number `x`
with `x - min` an integer multiple of `step`. -/
theorem snapToStep_congruent (c : Config) (r : ℚ) (hstep : 0 < c.step) :
    ∃ (x : ℚ) (k : ℤ), snapToStep c (JsNum.fin r) = JsNum.fin x ∧ x - c.min = k * c.step := by
  refine ⟨_, ⌊(r - c.min) / c.step + 1 / 2⌋, snapToStep_fin c r hstep.ne', ?_⟩
  ring

/-- Witness for C6 on the default configuration (`min = 0`, `step = 1`) at `r = 7/2`. -/
theorem snapToStep_congruent_witness :
    0 < sampleSingle.config.step ∧
      ∃ (x : ℚ) (k : ℤ), snapToStep sampleSingle.config (JsNum.fin (7 / 2)) = JsNum.fin x ∧
        x - sampleSingle.config.min = k * sampleSingle.config.step := by
  have h : 0 < sampleSingle.config.step := by rw [sampleSingle_config]; norm_num
  exact ⟨h, snapToStep_congruent sampleSingle.config (7 / 2) h⟩

/-- C7: for every finite raw value `r` and `step > 0`, `snapToStep(r)` is a grid point
`min + k * step` at distance at most `step / 2` from `r`, and no grid point is closer. -/
theorem snapToStep_nearest (c : Config) (r : ℚ) (hstep : 0 < c.step) :
    ∃ x : ℚ, snapToStep c (JsNum.fin r) = JsNum.fin x ∧
      (∃ k : ℤ, x = c.min + k * c.step) ∧
      |x - r| ≤ c.step / 2 ∧
      ∀ j : ℤ, |x - r| ≤ |c.min + j * c.step - r| := by
  set q : ℚ := (r - c.min) / c.step with hq
  set k : ℤ := ⌊q + 1 / 2⌋ with hk
  have hr : r = q * c.step + c.min := by
    rw [hq]; field_simp
  have hk1 : (k : ℚ) ≤ q + 1 / 2 := Int.floor_le _
  have hk2 : q + 1 / 2 < k + 1 := Int.lt_floor_add_one _
  have habs : |(k : ℚ) - q| ≤ 1 / 2 := abs_le.mpr ⟨by linarith, by linarith⟩
  have hdist : ∀ j : ℤ, |c.min + j * c.step - r| = |(j : ℚ) - q| * c.step := by
    intro j
    have : c.min + j * c.step - r = ((j : ℚ) - q) * c.step := by rw [hr]; ring
    rw [this, abs_mul, abs_of_pos hstep]
  have hx : (k : ℚ) * c.step + c.min - r = c.min + k * c.step - r := by ring
  refine ⟨(k : ℚ) * c.step + c.min, snapToStep_fin c r hstep.ne', ⟨k, by ring⟩, ?_, ?_⟩
  · rw [hx, hdist k]
    calc |(k : ℚ) - q| * c.step ≤ 1 / 2 * c.step :=
          mul_le_mul_of_nonneg_right habs hstep.le
      _ = c.step / 2 := by ring
  · intro j
    rw [hx, hdist k, hdist j]
    apply mul_le_mul_of_nonneg_right _ hstep.le
    rcases lt_trichotomy j k with hjk | hjk | hjk
    · have h1 : (j : ℚ) + 1 ≤ k := by exact_mod_cast hjk
      have h2 : (1 : ℚ) / 2 ≤ -((j : ℚ) - q) := by linarith
      exact le_trans habs (le_trans h2 (neg_le_abs _))
    · rw [hjk]
    · have h1 : (k : ℚ) + 1 ≤ j := by exact_mod_cast hjk
      have h2 : (1 : ℚ) / 2 ≤ (j : ℚ) - q := by linarith
      exact le_trans habs (le_trans h2 (le_abs_self _))

/-- Witness for C7 on the default configuration at the half-way point `r = 7/2`. -/
theorem snapToStep_nearest_witness :
    0 < sampleSingle.config.step ∧
      ∃ x : ℚ, snapToStep sampleSingle.config (JsNum.fin (7 / 2)) = JsNum.fin x ∧
        (∃ k : ℤ, x = sampleSingle.config.min + k * sampleSingle.config.step) ∧
        |x - 7 / 2| ≤ sampleSingle.config.step / 2 ∧
        ∀ j : ℤ, |x - 7 / 2| ≤
          |sampleSingle.config.min + j * sampleSingle.config.step - 7 / 2| := by
  have h : 0 < sampleSingle.config.step := by rw [sampleSingle_config]; norm_num
  exact ⟨h, snapToStep_nearest sampleSingle.config (7 / 2) h⟩

/-! ## handleDrag -/

/-- What `handleDrag` does while a drag is active and the pointer coordinate is read. -/
theorem handleDrag_dragging (s : State) (e : PointerEvt) (rect : Rect) (now : ℚ)
    (h : HandleType) (x : Option ℚ) (hdrag : s.isDragging = true)
    (hact : s.activeHandle = some h) (hx : pointerX e = Except.ok x) :
    handleDrag s e rect now =
      (let shouldTrigger :=
        s.config.continuousUpdates && decide (now - s.lastCallbackTime ≥ s.config.throttleMs)
      let s1 := if shouldTrigger then { s with lastCallbackTime := now } else s
      match h with
      | HandleType.min =>
        setValue s1
          (JsVal.arr [JsNum.mathMax (JsNum.fin s.config.min)
            (JsNum.mathMin (snappedAt s.config x rect) (s.values.idx 1)), s.values.idx 1])
          (some HandleType.min) shouldTrigger
      | HandleType.max =>
        setValue s1
          (JsVal.arr [s.values.idx 0, JsNum.mathMin (JsNum.fin s.config.max)
            (JsNum.mathMax (snappedAt s.config x rect) (s.values.idx 0))])
          (some HandleType.max) shouldTrigger
      | HandleType.single =>
        setValue s1 (JsVal.num (snappedAt s.config x rect)) (some HandleType.single)
          shouldTrigger) := by
  unfold handleDrag
  simp only [hdrag, hact, hx, snappedAt]
  cases h <;> simp

/-- The snapped pointer value is a grid point when the coordinate is a number, the track
has a width and `step` is not zero. -/
theorem snappedAt_fin (c : Config) (x : ℚ) (rect : Rect) (hw : rect.width ≠ 0)
    (hstep : c.step ≠ 0) :
    ∃ k : ℤ, snappedAt c (some x) rect = JsNum.fin (k * c.step + c.min) := by
  unfold snappedAt
  simp only [JsNum.ofOption, JsNum.sub_fin, JsNum.div_fin _ _ hw, JsNum.mathMin_fin,
    JsNum.mathMax_fin, JsNum.mul_fin, JsNum.add_fin, snapToStep_fin _ _ hstep]
  exact ⟨_, rfl⟩

theorem setValue_single_values (s : State) (value : JsVal) (src : Option HandleType)
    (t : Bool) (h : s.config.type = SliderType.single) :
    ∃ s1, setValue s value src t = Outcome.ok s1 ∧
      s1.values = JsVal.num (JsNum.mathMax (JsNum.fin s.config.min)
        (JsNum.mathMin (JsNum.fin s.config.max) value.toNumber)) :=
  ⟨_, setValue_single s value src t h, by simp⟩

theorem setValue_range_values (s : State) (a b : JsNum) (src : Option HandleType)
    (t : Bool) (h : s.config.type = SliderType.range) :
    ∃ s1, setValue s (JsVal.arr [a, b]) src t = Outcome.ok s1 ∧
      s1.values = rangeValues s.config a b :=
  ⟨_, setValue_range_pair s a b src t h, by simp⟩

theorem throttled_config (s : State) (trig : Bool) (now : ℚ) :
    (if trig then { s with lastCallbackTime := now } else s).config = s.config := by
  cases trig <;> rfl

theorem clamp_picks (a b g : ℚ) :
    max a (min b g) = a ∨ max a (min b g) = b ∨ max a (min b g) = g := by
  simp only [max_def, min_def]
  split_ifs <;> simp

theorem dragMin_picks (a b g h : ℚ) :
    max a (min (min (max a (min g h)) h) b) = a ∨ max a (min (min (max a (min g h)) h) b) = b ∨
      max a (min (min (max a (min g h)) h) b) = g ∨
      max a (min (min (max a (min g h)) h) b) = h := by
  simp only [max_def, min_def]
  split_ifs <;> simp

theorem dragMax_picks (a b g l : ℚ) :
    min b (max (max l (min b (max g l))) a) = a ∨ min b (max (max l (min b (max g l))) a) = b ∨
      min b (max (max l (min b (max g l))) a) = g ∨
      min b (max (max l (min b (max g l))) a) = l := by
  simp only [max_def, min_def]
  split_ifs <;> simp

theorem onGrid_min (c : Config) : onGrid c (JsNum.fin c.min) :=
  ⟨c.min, 0, rfl, by simp⟩

theorem onGrid_point (c : Config) (k : ℤ) : onGrid c (JsNum.fin (k * c.step + c.min)) :=
  ⟨_, k, rfl, by ring⟩

/-- C8, as the code has it: for `min < max`, `step > 0`, a track of positive width and a
pointer coordinate that is read as a number, a pointer-move during a drag of a handle the
slider has (stored values finite) returns, and the dragged handle's stored value is then
on the grid, or equal to `max`, or, on a range slider, equal to the value the opposite
handle had before the move. -/
theorem handleDrag_dragged_value (s : State) (e : PointerEvt) (rect : Rect) (now x : ℚ)
    (h : HandleType) (hlt : s.config.min < s.config.max) (hstep : 0 < s.config.step)
    (hw : 0 < rect.width) (hdrag : s.isDragging = true) (hact : s.activeHandle = some h)
    (hbound : handleBound s.config.type h = true)
    (hfin : finiteValues s.config.type s.values = true)
    (hx : pointerX e = Except.ok (some x)) :
    ∃ s1 d, handleDrag s e rect now = Outcome.ok s1 ∧ handleValue s1 h = JsNum.fin d ∧
      (onGrid s.config (JsNum.fin d) ∨ d = s.config.max ∨
        (h = HandleType.min ∧ JsNum.fin d = s.values.idx 1) ∨
        (h = HandleType.max ∧ JsNum.fin d = s.values.idx 0)) := by
  obtain ⟨k, hk⟩ := snappedAt_fin s.config x rect hw.ne' hstep.ne'
  cases ht : s.config.type with
  | single =>
    rw [ht] at hbound hfin
    cases h <;> simp [handleBound] at hbound
    rw [handleDrag_dragging s e rect now _ (some x) hdrag hact hx]
    simp only
    generalize (s.config.continuousUpdates &&
      decide (now - s.lastCallbackTime ≥ s.config.throttleMs)) = trig
    have hcfg := throttled_config s trig now
    obtain ⟨s1, hs1, hv⟩ := setValue_single_values
      (if trig then { s with lastCallbackTime := now } else s)
      (JsVal.num (snappedAt s.config (some x) rect)) (some HandleType.single) trig
      (by rw [hcfg, ht])
    refine ⟨s1, max s.config.min (min s.config.max (k * s.config.step + s.config.min)), hs1,
      ?_, ?_⟩
    · simp [handleValue, hv, hcfg, hk, JsVal.toNumber]
    · rcases clamp_picks s.config.min s.config.max (k * s.config.step + s.config.min)
        with h1 | h1 | h1
      · rw [h1]; exact Or.inl (onGrid_min _)
      · exact Or.inr (Or.inl h1)
      · rw [h1]; exact Or.inl (onGrid_point _ k)
  | range =>
    rw [ht] at hbound hfin
    obtain ⟨lo, hi, hvals⟩ : ∃ lo hi, s.values = JsVal.arr [JsNum.fin lo, JsNum.fin hi] := by
      cases hv : s.values with
      | num v => rw [hv] at hfin; simp [finiteValues] at hfin
      | arr xs =>
        rw [hv] at hfin
        match xs, hfin with
        | [JsNum.fin lo, JsNum.fin hi], _ => exact ⟨lo, hi, rfl⟩
    cases h with
    | single => simp [handleBound] at hbound
    | min =>
      rw [handleDrag_dragging s e rect now _ (some x) hdrag hact hx]
      simp only
      generalize (s.config.continuousUpdates &&
        decide (now - s.lastCallbackTime ≥ s.config.throttleMs)) = trig
      have hcfg := throttled_config s trig now
      obtain ⟨s1, hs1, hv⟩ := setValue_range_values
        (if trig then { s with lastCallbackTime := now } else s)
        (JsNum.mathMax (JsNum.fin s.config.min)
          (JsNum.mathMin (snappedAt s.config (some x) rect) (s.values.idx 1)))
        (s.values.idx 1) (some HandleType.min) trig (by rw [hcfg, ht])
      rw [hcfg, hk, hvals] at hv
      simp only [JsVal.idx, List.getD_cons_succ, List.getD_cons_zero, JsNum.mathMin_fin,
        JsNum.mathMax_fin, rangeValues_fin _ _ _ hlt.le] at hv
      refine ⟨s1, max s.config.min (min (min (max s.config.min
        (min (k * s.config.step + s.config.min) hi)) hi) s.config.max), hs1, ?_, ?_⟩
      · simp only [handleValue, hv, JsVal.idx, List.getD_cons_zero]
      · simp only [hvals, JsVal.idx, List.getD_cons_succ, List.getD_cons_zero]
        rcases dragMin_picks s.config.min s.config.max (k * s.config.step + s.config.min) hi
          with h1 | h1 | h1 | h1
        · rw [h1]; exact Or.inl (onGrid_min _)
        · exact Or.inr (Or.inl h1)
        · rw [h1]; exact Or.inl (onGrid_point _ k)
        · rw [h1]; exact Or.inr (Or.inr (Or.inl ⟨trivial, rfl⟩))
    | max =>
      rw [handleDrag_dragging s e rect now _ (some x) hdrag hact hx]
      simp only
      generalize (s.config.continuousUpdates &&
        decide (now - s.lastCallbackTime ≥ s.config.throttleMs)) = trig
      have hcfg := throttled_config s trig now
      obtain ⟨s1, hs1, hv⟩ := setValue_range_values
        (if trig then { s with lastCallbackTime := now } else s)
        (s.values.idx 0)
        (JsNum.mathMin (JsNum.fin s.config.max)
          (JsNum.mathMax (snappedAt s.config (some x) rect) (s.values.idx 0)))
        (some HandleType.max) trig (by rw [hcfg, ht])
      rw [hcfg, hk, hvals] at hv
      simp only [JsVal.idx, List.getD_cons_succ, List.getD_cons_zero, JsNum.mathMin_fin,
        JsNum.mathMax_fin, rangeValues_fin _ _ _ hlt.le] at hv
      refine ⟨s1, min s.config.max (max (max lo (min s.config.max
        (max (k * s.config.step + s.config.min) lo))) s.config.min), hs1, ?_, ?_⟩
      · simp only [handleValue, hv, JsVal.idx, List.getD_cons_succ, List.getD_cons_zero]
      · simp only [hvals, JsVal.idx, List.getD_cons_succ, List.getD_cons_zero]
        rcases dragMax_picks s.config.min s.config.max (k * s.config.step + s.config.min) lo
          with h1 | h1 | h1 | h1
        · rw [h1]; exact Or.inl (onGrid_min _)
        · exact Or.inr (Or.inl h1)
        · rw [h1]; exact Or.inl (onGrid_point _ k)
        · rw [h1]; exact Or.inr (Or.inr (Or.inr ⟨trivial, rfl⟩))

theorem draggingSingle_config :
    draggingSingle.config =
      { type := SliderType.single, min := 0, max := 10, step := 4, showInputs := false,
        continuousUpdates := false, throttleMs := 16, onChange := false,
        onInputChange := false, disabled := false } := by
  simp [draggingSingle, startDrag, construct, Options.defaults, mouseAt, pointerX,
    Outcome.state]

theorem draggingRange_config :
    draggingRange.config =
      { type := SliderType.range, min := 0, max := 100, step := 10, showInputs := false,
        continuousUpdates := false, throttleMs := 16, onChange := false,
        onInputChange := false, disabled := false } := by
  simp [draggingRange, startDrag, construct, Options.defaults, mouseAt, pointerX,
    Outcome.state]

theorem draggingSingle_moved :
    (handleDrag draggingSingle (mouseAt 100) sampleRect 0).state.values =
      JsVal.num (JsNum.fin 10) := by
  simp [handleDrag, draggingSingle, startDrag, construct, Options.defaults, mouseAt, pointerX,
    sampleRect, snapToStep, setValue, Outcome.state, JsNum.div, JsNum.ofOption,
    JsVal.toNumber]
  norm_num

theorem draggingRange_moved :
    (handleDrag draggingRange (mouseAt 90) sampleRect 0).state.values =
      JsVal.arr [JsNum.fin 75, JsNum.fin 75] := by
  simp [handleDrag, draggingRange, startDrag, construct, Options.defaults, mouseAt, pointerX,
    sampleRect, snapToStep, setValue, Outcome.state, JsNum.div, JsNum.ofOption,
    JsVal.idx, rangeValues, JsVal.isArray, JsVal.length]
  norm_num

/-- C8 fails as stated.  On a single slider with `min = 0`, `max = 10`, `step = 4`, a move
to the right end of the track snaps to `12` and is clamped to `10`, which is off the grid
`0, 4, 8, ...`.  On a range slider with `step = 10` and value `[20, 75]`, dragging the
`min` handle to `90` stops it at the opposite handle's `75`, which is off the grid. -/
theorem handleDrag_off_grid :
    (draggingSingle.config.min < draggingSingle.config.max ∧
        0 < draggingSingle.config.step ∧ draggingSingle.isDragging = true ∧
        draggingSingle.activeHandle = some HandleType.single ∧
        ¬ onGrid draggingSingle.config
          (handleValue (handleDrag draggingSingle (mouseAt 100) sampleRect 0).state
            HandleType.single)) ∧
      (draggingRange.config.min < draggingRange.config.max ∧
        0 < draggingRange.config.step ∧ draggingRange.isDragging = true ∧
        draggingRange.activeHandle = some HandleType.min ∧
        ¬ onGrid draggingRange.config
          (handleValue (handleDrag draggingRange (mouseAt 90) sampleRect 0).state
            HandleType.min)) := by
  refine ⟨⟨?_, ?_, ?_, ?_, ?_⟩, ⟨?_, ?_, ?_, ?_, ?_⟩⟩
  · rw [draggingSingle_config]; norm_num
  · rw [draggingSingle_config]; norm_num
  · simp [draggingSingle, startDrag, construct, Options.defaults, mouseAt, pointerX,
      Outcome.state]
  · simp [draggingSingle, startDrag, construct, Options.defaults, mouseAt, pointerX,
      Outcome.state]
  · rw [handleValue, draggingSingle_moved, draggingSingle_config]
    rintro ⟨q, k, hq, hk⟩
    simp only [JsVal.toNumber, JsNum.fin.injEq] at hq
    subst hq
    simp only at hk
    have h : (10 : ℤ) = k * 4 := by
      have : ((10 : ℤ) : ℚ) = ((k * 4 : ℤ) : ℚ) := by push_cast; linarith
      exact_mod_cast this
    omega
  · rw [draggingRange_config]; norm_num
  · rw [draggingRange_config]; norm_num
  · simp [draggingRange, startDrag, construct, Options.defaults, mouseAt, pointerX,
      Outcome.state]
  · simp [draggingRange, startDrag, construct, Options.defaults, mouseAt, pointerX,
      Outcome.state]
  · rw [handleValue, draggingRange_moved, draggingRange_config]
    rintro ⟨q, k, hq, hk⟩
    simp only [JsVal.idx, List.getD_cons_zero, JsNum.fin.injEq] at hq
    subst hq
    simp only at hk
    have h : (75 : ℤ) = k * 10 := by
      have : ((75 : ℤ) : ℚ) = ((k * 10 : ℤ) : ℚ) := by push_cast; linarith
      exact_mod_cast this
    omega

/-- Witness for the amended C8 at a move to the right end of the track, `min = 0`,
`max = 10`, `step = 4`: the move returns and the stored value is on the grid or equal to
`max`. -/
theorem handleDrag_dragged_value_witness :
    draggingSingle.config.min < draggingSingle.config.max ∧
      0 < draggingSingle.config.step ∧ 0 < sampleRect.width ∧
      draggingSingle.isDragging = true ∧
      draggingSingle.activeHandle = some HandleType.single ∧
      handleBound draggingSingle.config.type HandleType.single = true ∧
      finiteValues draggingSingle.config.type draggingSingle.values = true ∧
      pointerX (mouseAt 100) = Except.ok (some 100) ∧
      ∃ s1 d, handleDrag draggingSingle (mouseAt 100) sampleRect 0 = Outcome.ok s1 ∧
        handleValue s1 HandleType.single = JsNum.fin d ∧
        (onGrid draggingSingle.config (JsNum.fin d) ∨ d = draggingSingle.config.max ∨
          (HandleType.single = HandleType.min ∧ JsNum.fin d = draggingSingle.values.idx 1) ∨
          (HandleType.single = HandleType.max ∧
            JsNum.fin d = draggingSingle.values.idx 0)) := by
  have h1 : draggingSingle.config.min < draggingSingle.config.max := by
    rw [draggingSingle_config]; norm_num
  have h2 : 0 < draggingSingle.config.step := by rw [draggingSingle_config]; norm_num
  have h3 : 0 < sampleRect.width := by norm_num [sampleRect]
  have h4 : draggingSingle.isDragging = true := by
    simp [draggingSingle, startDrag, construct, Options.defaults, mouseAt, pointerX,
      Outcome.state]
  have h5 : draggingSingle.activeHandle = some HandleType.single := by
    simp [draggingSingle, startDrag, construct, Options.defaults, mouseAt, pointerX,
      Outcome.state]
  have h6 : handleBound draggingSingle.config.type HandleType.single = true := by
    rw [draggingSingle_config]; rfl
  have h7 : finiteValues draggingSingle.config.type draggingSingle.values = true := by
    simp [draggingSingle, startDrag, construct, Options.defaults, mouseAt, pointerX,
      Outcome.state, finiteValues]
  have h8 : pointerX (mouseAt 100) = Except.ok (some 100) := by
    simp [pointerX, mouseAt]
  exact ⟨h1, h2, h3, h4, h5, h6, h7, h8,
    handleDrag_dragged_value draggingSingle (mouseAt 100) sampleRect 0 100 HandleType.single
      h1 h2 h3 h4 h5 h6 h7 h8⟩

/-- A mouse move whose `clientX` is `0` is read as `undefined` (`0` is falsy and a mouse
event has no touch list), so the move stores `NaN`: on the range slider both stored values
are lost, the opposite handle's included. -/
theorem handleDrag_clientX_zero :
    pointerX (mouseAt 0) = Except.ok none ∧
      (handleDrag draggingSingle (mouseAt 0) sampleRect 0).state.values =
        JsVal.num JsNum.nan ∧
      (handleDrag draggingRange (mouseAt 0) sampleRect 0).state.values =
        JsVal.arr [JsNum.nan, JsNum.nan] := by
  refine ⟨by simp [pointerX, mouseAt, touchX], ?_, ?_⟩
  · simp [handleDrag, draggingSingle, startDrag, construct, Options.defaults, mouseAt,
      pointerX, sampleRect, snapToStep, setValue, Outcome.state, JsNum.div, JsNum.ofOption,
      touchX, JsVal.toNumber, JsNum.sub, JsNum.mathMin, JsNum.mathMax, JsNum.add, JsNum.mul,
      JsNum.mathRound]
  · simp [handleDrag, draggingRange, startDrag, construct, Options.defaults, mouseAt,
      pointerX, sampleRect, snapToStep, setValue, Outcome.state, JsNum.div, JsNum.ofOption,
      touchX, JsVal.idx, rangeValues, JsVal.isArray, JsVal.length, JsNum.sub,
      JsNum.mathMin, JsNum.mathMax, JsNum.add, JsNum.mul, JsNum.mathRound, JsNum.gt]

/-! ## Drag sessions -/

theorem onChangeCalls_append (l1 l2 : List Call) :
    onChangeCalls (l1 ++ l2) = onChangeCalls l1 ++ onChangeCalls l2 := by
  simp [onChangeCalls]

/-- What `setValue` leaves untouched, and how many `onChange` invocations it can add. -/
theorem setValue_frame (s : State) (value : JsVal) (src : Option HandleType) (t : Bool) :
    (setValue s value src t).state.config = s.config ∧
      (setValue s value src t).state.isDragging = s.isDragging ∧
      (setValue s value src t).state.activeHandle = s.activeHandle ∧
      (setValue s value src t).state.lastCallbackTime = s.lastCallbackTime ∧
      (t = false → (setValue s value src t).state.calls = s.calls) ∧
      (onChangeCount (setValue s value src t).state = onChangeCount s ∨
        onChangeCount (setValue s value src t).state = onChangeCount s + 1) := by
  have key : ∀ s0 : State, s0.config = s.config → s0.isDragging = s.isDragging →
      s0.activeHandle = s.activeHandle → s0.lastCallbackTime = s.lastCallbackTime →
      s0.calls = s.calls →
      (fireCallbacks (updateVisuals s0) src t).config = s.config ∧
      (fireCallbacks (updateVisuals s0) src t).isDragging = s.isDragging ∧
      (fireCallbacks (updateVisuals s0) src t).activeHandle = s.activeHandle ∧
      (fireCallbacks (updateVisuals s0) src t).lastCallbackTime = s.lastCallbackTime ∧
      (t = false → (fireCallbacks (updateVisuals s0) src t).calls = s.calls) ∧
      (onChangeCount (fireCallbacks (updateVisuals s0) src t) = onChangeCount s ∨
        onChangeCount (fireCallbacks (updateVisuals s0) src t) = onChangeCount s + 1) := by
    intro s0 h1 h2 h3 h4 h5
    refine ⟨by simp [h1], by simp [h2], by simp [h3], by simp [h4], ?_, ?_⟩
    · intro ht; subst ht; simp [h5]
    · simp only [onChangeCount, fireCallbacks_calls, updateVisuals_calls, updateVisuals_config,
        updateVisuals_values, onChangeCalls_append, List.length_append, h5]
      cases t <;> cases (s0.config.onChange) <;> cases (s0.config.onInputChange) <;>
        cases src <;> simp [onChangeCalls, Call.isOnChange]
  cases ht : s.config.type with
  | single =>
    rw [setValue_single _ _ _ _ ht]
    exact key _ rfl rfl rfl rfl rfl
  | range =>
    unfold setValue
    rw [ht]
    simp only
    split_ifs
    · simp [Outcome.state]
    · exact key _ rfl rfl rfl rfl rfl

/-- One pointer-move: configuration and drag flags are kept; either the clock mark and
the log are untouched, or continuous updates are on, at least `throttleMs` have passed
since the mark, the mark becomes `now` and at most one `onChange` is added. -/
theorem handleDrag_step (s : State) (e : PointerEvt) (rect : Rect) (now : ℚ) :
    (handleDrag s e rect now).state.config = s.config ∧
      (handleDrag s e rect now).state.isDragging = s.isDragging ∧
      (handleDrag s e rect now).state.activeHandle = s.activeHandle ∧
      (((handleDrag s e rect now).state.lastCallbackTime = s.lastCallbackTime ∧
          (handleDrag s e rect now).state.calls = s.calls) ∨
        (s.config.continuousUpdates = true ∧
          s.config.throttleMs ≤ now - s.lastCallbackTime ∧
          (handleDrag s e rect now).state.lastCallbackTime = now ∧
          (onChangeCount (handleDrag s e rect now).state = onChangeCount s ∨
            onChangeCount (handleDrag s e rect now).state = onChangeCount s + 1))) := by
  have key : ∀ (trig : Bool) (v : JsVal) (src : Option HandleType),
      (trig = true → s.config.continuousUpdates = true ∧
        s.config.throttleMs ≤ now - s.lastCallbackTime) →
      (setValue (if trig = true then { s with lastCallbackTime := now } else s)
        v src trig).state.config = s.config ∧
      (setValue (if trig = true then { s with lastCallbackTime := now } else s)
        v src trig).state.isDragging = s.isDragging ∧
      (setValue (if trig = true then { s with lastCallbackTime := now } else s)
        v src trig).state.activeHandle = s.activeHandle ∧
      (((setValue (if trig = true then { s with lastCallbackTime := now } else s)
          v src trig).state.lastCallbackTime = s.lastCallbackTime ∧
        (setValue (if trig = true then { s with lastCallbackTime := now } else s)
          v src trig).state.calls = s.calls) ∨
      (s.config.continuousUpdates = true ∧
        s.config.throttleMs ≤ now - s.lastCallbackTime ∧
        (setValue (if trig = true then { s with lastCallbackTime := now } else s)
          v src trig).state.lastCallbackTime = now ∧
        (onChangeCount (setValue (if trig = true then { s with lastCallbackTime := now }
            else s) v src trig).state = onChangeCount s ∨
          onChangeCount (setValue (if trig = true then { s with lastCallbackTime := now }
            else s) v src trig).state = onChangeCount s + 1))) := by
    intro trig v src htrig
    cases trig with
    | false =>
      obtain ⟨h1, h2, h3, h4, h5, _⟩ := setValue_frame s v src false
      simp only [Bool.false_eq_true, if_false]
      exact ⟨h1, h2, h3, Or.inl ⟨h4, h5 rfl⟩⟩
    | true =>
      obtain ⟨h1, h2, h3, h4, _, h6⟩ :=
        setValue_frame { s with lastCallbackTime := now } v src true
      simp only [if_true]
      exact ⟨h1, h2, h3, Or.inr ⟨(htrig rfl).1, (htrig rfl).2, h4, h6⟩⟩
  have htrig : (s.config.continuousUpdates &&
      decide (now - s.lastCallbackTime ≥ s.config.throttleMs)) = true →
      s.config.continuousUpdates = true ∧ s.config.throttleMs ≤ now - s.lastCallbackTime := by
    intro h
    simpa using h
  unfold handleDrag
  split_ifs with hguard
  · exact ⟨rfl, rfl, rfl, Or.inl ⟨rfl, rfl⟩⟩
  · cases hx : pointerX e with
    | error err => exact ⟨rfl, rfl, rfl, Or.inl ⟨rfl, rfl⟩⟩
    | ok x =>
      simp only
      split
      · exact key _ _ _ htrig
      · exact key _ _ _ htrig
      · exact key _ _ _ htrig

/-- Pointer-down on an enabled slider: the drag flags are set, whether or not the handler
then throws, and nothing else the drag reads is changed. -/
theorem startDrag_state (s : State) (e : PointerEvt) (h : HandleType)
    (hen : s.config.disabled = false) :
    (startDrag s e h).state.isDragging = true ∧
      (startDrag s e h).state.activeHandle = some h ∧
      (startDrag s e h).state.config = s.config ∧
      (startDrag s e h).state.calls = s.calls ∧
      (startDrag s e h).state.values = s.values ∧
      (startDrag s e h).state.lastCallbackTime = s.lastCallbackTime := by
  unfold startDrag
  rw [hen]
  simp only [Bool.false_eq_true, if_false]
  cases pointerX e with
  | error err => exact ⟨rfl, rfl, rfl, rfl, rfl, rfl⟩
  | ok x =>
    cases h <;> simp only <;> split_ifs <;> exact ⟨rfl, rfl, rfl, rfl, rfl, rfl⟩

/-- Pointer-up during a drag with an `onChange` callback: one invocation, with the stored
value and the handle that was active; the stored value is kept and the flags are cleared. -/
theorem endDrag_dragging (s : State) (hdrag : s.isDragging = true)
    (hcb : s.config.onChange = true) :
    (endDrag s).calls =
        s.calls ++ [Call.onChange s.values (some (s.activeHandle.getD HandleType.single))] ∧
      (endDrag s).values = s.values ∧ (endDrag s).isDragging = false ∧
      (endDrag s).activeHandle = none := by
  unfold endDrag
  simp [hdrag, hcb]

theorem dragMoves_frame (ms : List Move) (s : State) :
    (dragMoves s ms).config = s.config ∧ (dragMoves s ms).isDragging = s.isDragging ∧
      (dragMoves s ms).activeHandle = s.activeHandle := by
  induction ms generalizing s with
  | nil => exact ⟨rfl, rfl, rfl⟩
  | cons m ms ih =>
    obtain ⟨h1, h2, h3, _⟩ := handleDrag_step s m.e m.rect m.now
    obtain ⟨i1, i2, i3⟩ := ih (handleDrag s m.e m.rect m.now).state
    exact ⟨i1.trans h1, i2.trans h2, i3.trans h3⟩

theorem dragMoves_calls_of_not_continuous (ms : List Move) (s : State)
    (hcu : s.config.continuousUpdates = false) : (dragMoves s ms).calls = s.calls := by
  induction ms generalizing s with
  | nil => rfl
  | cons m ms ih =>
    obtain ⟨h1, _, _, h4⟩ := handleDrag_step s m.e m.rect m.now
    rcases h4 with ⟨_, hc⟩ | ⟨hc, _⟩
    · exact (ih _ (by rw [h1]; exact hcu)).trans hc
    · rw [hcu] at hc; cases hc

theorem onChangeCount_eq_of_calls (s1 s2 : State) (h : s1.calls = s2.calls) :
    onChangeCount s1 = onChangeCount s2 := by
  simp [onChangeCount, h]

/-- In a non-decreasing run of moves, no move reads the clock later than the last one. -/
theorem now_le_lastNow (ms : List Move) (m : Move)
    (hs : (m :: ms).Pairwise (fun a b => a.now ≤ b.now)) :
    m.now ≤ lastNow m ms ∧ ∀ x ∈ ms, x.now ≤ lastNow m ms := by
  induction ms generalizing m with
  | nil => exact ⟨le_rfl, by simp⟩
  | cons m1 ms ih =>
    obtain ⟨i1, i2⟩ := ih m1 (List.Pairwise.of_cons hs)
    have h01 : m.now ≤ m1.now := List.rel_of_pairwise_cons hs (List.mem_cons_self _ _)
    refine ⟨le_trans h01 i1, ?_⟩
    intro x hx
    rcases List.mem_cons.mp hx with rfl | hx
    · exact i1
    · exact i2 x hx

theorem duration_tail_le (ms : List Move) (m : Move)
    (hs : (m :: ms).Pairwise (fun a b => a.now ≤ b.now)) :
    duration ms ≤ duration (m :: ms) := by
  cases ms with
  | nil => simp [duration, lastNow]
  | cons m1 ms =>
    have h01 : m.now ≤ m1.now := List.rel_of_pairwise_cons hs (List.mem_cons_self _ _)
    simp only [duration, lastNow]
    linarith

/-- The notifications made by a run of moves, weighed by the throttle interval, fit
between the clock mark the run starts with and any reading `tn` no move exceeds. -/
theorem dragMoves_count_le (ms : List Move) (s : State) (T tn : ℚ)
    (hT : s.config.throttleMs = T) (hT0 : 0 ≤ T) (htn : ∀ m ∈ ms, m.now ≤ tn) :
    ((onChangeCount (dragMoves s ms) : ℚ) - onChangeCount s) * T ≤
      max 0 (tn - s.lastCallbackTime) := by
  induction ms generalizing s with
  | nil => simp [dragMoves]
  | cons m ms ih =>
    obtain ⟨h1, _, _, h4⟩ := handleDrag_step s m.e m.rect m.now
    have ih1 := ih (handleDrag s m.e m.rect m.now).state (by rw [h1]; exact hT)
      (fun x hx => htn x (List.mem_cons_of_mem _ hx))
    simp only [dragMoves]
    rcases h4 with ⟨hl, hc⟩ | ⟨_, hgap, hl, hcount⟩
    · rw [hl, onChangeCount_eq_of_calls _ _ hc] at ih1
      exact ih1
    · rw [hl] at ih1
      have hm : m.now ≤ tn := htn m (List.mem_cons_self _ _)
      rw [max_eq_right (by linarith)] at ih1
      rw [hT] at hgap
      have hstep : ((onChangeCount (handleDrag s m.e m.rect m.now).state : ℚ) -
          onChangeCount s) * T ≤ T := by
        rcases hcount with hc | hc
        · rw [hc]; simpa using hT0
        · rw [hc]; push_cast; linarith
      refine le_trans ?_ (le_max_right _ _)
      nlinarith [ih1, hstep]

/-- With non-decreasing clock readings, a run of moves adds at most
`⌊duration / T⌋ + 1` notifications. -/
theorem dragMoves_count_bound (ms : List Move) (s : State) (T : ℚ)
    (hT : s.config.throttleMs = T) (hT0 : 0 < T)
    (hs : ms.Pairwise (fun a b => a.now ≤ b.now)) :
    (onChangeCount (dragMoves s ms) : ℤ) - onChangeCount s ≤ ⌊duration ms / T⌋ + 1 := by
  induction ms generalizing s with
  | nil => simp [dragMoves, duration]
  | cons m ms ih =>
    obtain ⟨h1, _, _, h4⟩ := handleDrag_step s m.e m.rect m.now
    obtain ⟨hlast0, hlast⟩ := now_le_lastNow ms m hs
    simp only [dragMoves]
    rcases h4 with ⟨_, hc⟩ | ⟨_, _, hl, hcount⟩
    · have ih1 := ih (handleDrag s m.e m.rect m.now).state (by rw [h1]; exact hT)
        (List.Pairwise.of_cons hs)
      rw [onChangeCount_eq_of_calls _ _ hc] at ih1
      have hmono : ⌊duration ms / T⌋ ≤ ⌊duration (m :: ms) / T⌋ :=
        Int.floor_mono (div_le_div_of_nonneg_right (duration_tail_le ms m hs) hT0.le)
      linarith
    · have hcl := dragMoves_count_le ms (handleDrag s m.e m.rect m.now).state T
        (lastNow m ms) (by rw [h1]; exact hT) hT0.le hlast
      rw [hl, max_eq_right (by linarith)] at hcl
      have hfl : ((onChangeCount (dragMoves (handleDrag s m.e m.rect m.now).state ms) : ℤ) -
          (onChangeCount (handleDrag s m.e m.rect m.now).state : ℤ)) ≤
          ⌊duration (m :: ms) / T⌋ := by
        rw [Int.le_floor, le_div_iff₀ hT0]
        push_cast
        simpa [duration] using hcl
      rcases hcount with hc | hc
      · rw [hc] at hfl; linarith
      · rw [hc] at hfl; push_cast at hfl; linarith

/-- The moves that notify: each is at least `T` after the clock mark the run starts with,
any two of them are at least `T` apart, and they account for every `onChange` added. -/
theorem notifyTimes_spaced (ms : List Move) (s : State) (T : ℚ)
    (hT : s.config.throttleMs = T) (hT0 : 0 ≤ T) :
    (notifyTimes s ms).Pairwise (fun a b => a + T ≤ b) ∧
      (∀ t ∈ notifyTimes s ms, s.lastCallbackTime + T ≤ t) ∧
      onChangeCount (dragMoves s ms) = onChangeCount s + (notifyTimes s ms).length := by
  induction ms generalizing s with
  | nil => simp [notifyTimes, dragMoves]
  | cons m ms ih =>
    obtain ⟨h1, _, _, h4⟩ := handleDrag_step s m.e m.rect m.now
    obtain ⟨i1, i2, i3⟩ := ih (handleDrag s m.e m.rect m.now).state (by rw [h1]; exact hT)
    simp only [notifyTimes, dragMoves]
    rcases h4 with ⟨hl, hc⟩ | ⟨_, hgap, hl, hcount⟩
    · have hcnt := onChangeCount_eq_of_calls _ _ hc
      rw [if_neg (by rw [hcnt]; exact lt_irrefl _)]
      rw [hl] at i2
      rw [hcnt] at i3
      exact ⟨i1, i2, i3⟩
    · rw [hl] at i2
      rw [hT] at hgap
      rcases hcount with hc | hc
      · rw [if_neg (by rw [hc]; exact lt_irrefl _)]
        rw [hc] at i3
        exact ⟨i1, fun t ht => by have := i2 t ht; linarith, i3⟩
      · rw [if_pos (by rw [hc]; exact Nat.lt_succ_self _)]
        rw [hc] at i3
        refine ⟨List.pairwise_cons.mpr ⟨i2, i1⟩, ?_, ?_⟩
        · intro t ht
          rcases List.mem_cons.mp ht with rfl | ht
          · linarith
          · have := i2 t ht; linarith
        · rw [i3, List.length_cons]; ring

/-- C10: on an enabled slider with `throttleMs = T > 0` and an `onChange` callback (with
`continuousUpdates = true`, and just as well without), a full drag whose moves carry
non-decreasing clock readings invokes `onChange` during the moves at most
`⌊duration / T⌋ + 1` times, at moves that are pairwise at least `T` apart, and pointer-up
adds exactly one further invocation, with the value stored after the last move. -/
theorem fullDrag_throttled (s : State) (down : PointerEvt) (h : HandleType) (ms : List Move)
    (hen : s.config.disabled = false) (hT : 0 < s.config.throttleMs)
    (hcb : s.config.onChange = true) (hs : ms.Pairwise (fun a b => a.now ≤ b.now)) :
    (onChangeCount (dragMoves (startDrag s down h).state ms) : ℤ) - onChangeCount s ≤
        ⌊duration ms / s.config.throttleMs⌋ + 1 ∧
      onChangeCount (dragMoves (startDrag s down h).state ms) =
        onChangeCount s + (notifyTimes (startDrag s down h).state ms).length ∧
      (notifyTimes (startDrag s down h).state ms).Pairwise
        (fun a b => a + s.config.throttleMs ≤ b) ∧
      (fullDrag s down h ms).calls =
        (dragMoves (startDrag s down h).state ms).calls ++
          [Call.onChange (dragMoves (startDrag s down h).state ms).values (some h)] ∧
      onChangeCount (fullDrag s down h ms) =
        onChangeCount (dragMoves (startDrag s down h).state ms) + 1 := by
  obtain ⟨h1, h2, h3, h4, _, _⟩ := startDrag_state s down h hen
  obtain ⟨f1, f2, f3⟩ := dragMoves_frame ms (startDrag s down h).state
  have hT1 : (startDrag s down h).state.config.throttleMs = s.config.throttleMs := by rw [h3]
  have hcnt := onChangeCount_eq_of_calls _ _ h4
  have b1 := dragMoves_count_bound ms (startDrag s down h).state _ hT1 hT hs
  obtain ⟨n1, _, n3⟩ := notifyTimes_spaced ms (startDrag s down h).state _ hT1 hT.le
  obtain ⟨e1, _, _, _⟩ := endDrag_dragging (dragMoves (startDrag s down h).state ms)
    (f2.trans h1) (by rw [f1, h3]; exact hcb)
  rw [f3, h2] at e1
  have e1f : (fullDrag s down h ms).calls =
      (dragMoves (startDrag s down h).state ms).calls ++
        [Call.onChange (dragMoves (startDrag s down h).state ms).values (some h)] := by
    simpa [fullDrag] using e1
  rw [hcnt] at b1 n3
  refine ⟨b1, n3, n1, e1f, ?_⟩
  simp [onChangeCount, e1f, onChangeCalls_append, onChangeCalls, Call.isOnChange]

/-- Witness for C10: the continuous default slider (`T = 16`) dragged through moves at
clock readings `20`, `30` and `52`. -/
theorem fullDrag_throttled_witness :
    sampleContinuous.config.disabled = false ∧
      sampleContinuous.config.continuousUpdates = true ∧
      0 < sampleContinuous.config.throttleMs ∧ sampleContinuous.config.onChange = true ∧
      [moveAt 30 20, moveAt 50 30, moveAt 70 52].Pairwise (fun a b => a.now ≤ b.now) ∧
      (onChangeCount (dragMoves (startDrag sampleContinuous (mouseAt 5) HandleType.single).state
          [moveAt 30 20, moveAt 50 30, moveAt 70 52]) : ℤ) - onChangeCount sampleContinuous ≤
        ⌊duration [moveAt 30 20, moveAt 50 30, moveAt 70 52] /
          sampleContinuous.config.throttleMs⌋ + 1 := by
  have hc : sampleContinuous.config =
      { type := SliderType.single, min := 0, max := 100, step := 1, showInputs := false,
        continuousUpdates := true, throttleMs := 16, onChange := true,
        onInputChange := false, disabled := false } := by
    simp [sampleContinuous, construct, Options.defaults]
  have h1 : sampleContinuous.config.disabled = false := by rw [hc]
  have h2 : sampleContinuous.config.continuousUpdates = true := by rw [hc]
  have h3 : 0 < sampleContinuous.config.throttleMs := by rw [hc]; norm_num
  have h4 : sampleContinuous.config.onChange = true := by rw [hc]
  have h5 : [moveAt 30 20, moveAt 50 30, moveAt 70 52].Pairwise
      (fun a b => a.now ≤ b.now) := by
    simp [moveAt]; norm_num
  exact ⟨h1, h2, h3, h4, h5,
    (fullDrag_throttled sampleContinuous (mouseAt 5) HandleType.single
      [moveAt 30 20, moveAt 50 30, moveAt 70 52] h1 h3 h4 h5).1⟩

/-! ## Release of a drag -/

/-- C11: `endDrag` in a dragging state with active handle `h` keeps the stored value and,
when `onChange` is registered, appends exactly one invocation `onChange(values, h)` to the
log (none otherwise), whatever the throttling fields hold; in an idle state it changes
nothing at all. -/
theorem endDrag_fires_once (s : State) (h : HandleType) (hdrag : s.isDragging = true)
    (hact : s.activeHandle = some h) :
    (endDrag s).values = s.values ∧
      (endDrag s).calls =
        s.calls ++ (if s.config.onChange then [Call.onChange s.values (some h)] else []) ∧
      (s.config.onChange = true →
        onChangeCalls ((endDrag s).calls.drop s.calls.length) =
          [Call.onChange s.values (some h)]) ∧
      (∀ s0 : State, s0.isDragging = false → endDrag s0 = s0) := by
  refine ⟨?_, ?_, ?_, ?_⟩
  · unfold endDrag
    simp only [hdrag, if_true]
    split_ifs <;> rfl
  · unfold endDrag
    cases hcb : s.config.onChange <;> simp [hdrag, hact, hcb]
  · intro hcb
    have hc : (endDrag s).calls = s.calls ++ [Call.onChange s.values (some h)] := by
      unfold endDrag
      simp [hdrag, hact, hcb]
    rw [hc, List.drop_left]
    simp [onChangeCalls, Call.isOnChange]
  · intro s0 h0
    unfold endDrag
    simp [h0]

theorem grabbedRange_facts :
    grabbedRange.isDragging = true ∧ grabbedRange.activeHandle = some HandleType.min ∧
      grabbedRange.config.onChange = true ∧ grabbedRange.config.continuousUpdates = true ∧
      grabbedRange.values = JsVal.arr [JsNum.fin 20, JsNum.fin 80] ∧
      grabbedRange.calls = [] := by
  refine ⟨?_, ?_, ?_, ?_, ?_, ?_⟩
  · simp [grabbedRange, startDrag, construct, Options.defaults, mouseAt, pointerX,
      Outcome.state]
  · simp [grabbedRange, startDrag, construct, Options.defaults, mouseAt, pointerX,
      Outcome.state]
  · simp [grabbedRange, startDrag, construct, Options.defaults, mouseAt, pointerX,
      Outcome.state]
  · simp [grabbedRange, startDrag, construct, Options.defaults, mouseAt, pointerX,
      Outcome.state]
  · simp [grabbedRange, startDrag, construct, Options.defaults, mouseAt, pointerX,
      Outcome.state, JsVal.idx]
    norm_num
  · simp [grabbedRange, startDrag, construct, Options.defaults, mouseAt, pointerX,
      Outcome.state]

/-- Witness for C11: a range slider storing `(20, 80)` with an `onChange` callback and
continuous updates, whose `min` handle has been grabbed.  Pointer-up keeps `(20, 80)` and
makes the one invocation `onChange([20, 80], 'min')`. -/
theorem endDrag_fires_once_witness :
    grabbedRange.isDragging = true ∧ grabbedRange.activeHandle = some HandleType.min ∧
      grabbedRange.config.onChange = true ∧
      (endDrag grabbedRange).values = JsVal.arr [JsNum.fin 20, JsNum.fin 80] ∧
      (endDrag grabbedRange).calls =
        [Call.onChange (JsVal.arr [JsNum.fin 20, JsNum.fin 80]) (some HandleType.min)] ∧
      onChangeCalls ((endDrag grabbedRange).calls.drop grabbedRange.calls.length) =
        [Call.onChange (JsVal.arr [JsNum.fin 20, JsNum.fin 80]) (some HandleType.min)] := by
  obtain ⟨h1, h2, h3, _, h5, h6⟩ := grabbedRange_facts
  have h := endDrag_fires_once grabbedRange HandleType.min h1 h2
  refine ⟨h1, h2, h3, h.1.trans h5, ?_, ?_⟩
  · rw [h.2.1, h3, h5, h6]
    simp
  · rw [h.2.2.1 h3, h5]

@[simp] theorem updateVisuals_startX (s : State) : (updateVisuals s).startX = s.startX := by
  unfold updateVisuals; split <;> rfl

@[simp] theorem updateVisuals_startValue (s : State) :
    (updateVisuals s).startValue = s.startValue := by
  unfold updateVisuals; split <;> rfl

@[simp] theorem fireCallbacks_startX (s : State) (src : Option HandleType) (t : Bool) :
    (fireCallbacks s src t).startX = s.startX := by
  simp only [fireCallbacks]; split_ifs <;> rfl

@[simp] theorem fireCallbacks_startValue (s : State) (src : Option HandleType) (t : Bool) :
    (fireCallbacks s src t).startValue = s.startValue := by
  simp only [fireCallbacks]; split_ifs <;> rfl

/-- The method `setValue` never touches the coordinate and value captured at pointer-down. -/
theorem setValue_start_frame (s : State) (value : JsVal) (src : Option HandleType)
    (t : Bool) :
    (setValue s value src t).state.startX = s.startX ∧
      (setValue s value src t).state.startValue = s.startValue := by
  cases ht : s.config.type with
  | single =>
    rw [setValue_single _ _ _ _ ht]
    simp [Outcome.state]
  | range =>
    unfold setValue
    rw [ht]
    simp only
    split_ifs <;> simp [Outcome.state]

theorem handleDrag_start_frame (s : State) (e : PointerEvt) (rect : Rect) (now : ℚ) :
    (handleDrag s e rect now).state.startX = s.startX ∧
      (handleDrag s e rect now).state.startValue = s.startValue := by
  have key : ∀ (trig : Bool) (v : JsVal) (src : Option HandleType),
      (setValue (if trig = true then { s with lastCallbackTime := now } else s)
          v src trig).state.startX = s.startX ∧
        (setValue (if trig = true then { s with lastCallbackTime := now } else s)
          v src trig).state.startValue = s.startValue := by
    intro trig v src
    obtain ⟨h1, h2⟩ := setValue_start_frame
      (if trig = true then { s with lastCallbackTime := now } else s) v src trig
    cases trig
    · exact ⟨h1, h2⟩
    · exact ⟨h1, h2⟩
  unfold handleDrag
  split_ifs
  · exact ⟨rfl, rfl⟩
  · cases pointerX e with
    | error err => exact ⟨rfl, rfl⟩
    | ok x =>
      simp only
      split
      · exact key _ _ _
      · exact key _ _ _
      · exact key _ _ _

theorem dragMoves_start_frame (ms : List Move) (s : State) :
    (dragMoves s ms).startX = s.startX ∧ (dragMoves s ms).startValue = s.startValue := by
  induction ms generalizing s with
  | nil => exact ⟨rfl, rfl⟩
  | cons m ms ih =>
    obtain ⟨h1, h2⟩ := handleDrag_start_frame s m.e m.rect m.now
    obtain ⟨i1, i2⟩ := ih (handleDrag s m.e m.rect m.now).state
    exact ⟨i1.trans h1, i2.trans h2⟩

theorem endDrag_start_frame (s : State) :
    (endDrag s).startX = s.startX ∧ (endDrag s).startValue = s.startValue := by
  simp only [endDrag]
  split_ifs <;> exact ⟨rfl, rfl⟩

/-- What pointer-down captures on an enabled slider when the pointer coordinate is read:
the coordinate, and the grabbed handle's value (the whole stored value for `'single'`). -/
theorem startDrag_captures (s : State) (e : PointerEvt) (h : HandleType) (x : Option ℚ)
    (hen : s.config.disabled = false) (hx : pointerX e = Except.ok x) :
    (startDrag s e h).state.startX = x ∧
      (startDrag s e h).state.startValue =
        some (match h with
          | HandleType.min => JsVal.num (s.values.idx 0)
          | HandleType.max => JsVal.num (s.values.idx 1)
          | HandleType.single => s.values) := by
  unfold startDrag
  rw [hen, hx]
  simp only [Bool.false_eq_true, if_false]
  cases h <;> simp only <;> split_ifs <;> exact ⟨rfl, rfl⟩

/-- C12 fails as stated: after a full drag of the default single slider grabbed at
`clientX = 5`, `startX` is still `5`, not `0`, and `startValue` is still the value `0`
captured at pointer-down, not `null`. -/
theorem fullDrag_keeps_start :
    sampleSingle.config.disabled = false ∧
      (fullDrag sampleSingle (mouseAt 5) HandleType.single [moveAt 30 10]).startX = some 5 ∧
      (fullDrag sampleSingle (mouseAt 5) HandleType.single [moveAt 30 10]).startValue =
        some (JsVal.num (JsNum.fin 0)) ∧
      ¬ ((fullDrag sampleSingle (mouseAt 5) HandleType.single [moveAt 30 10]).startX = some 0 ∧
        (fullDrag sampleSingle (mouseAt 5) HandleType.single [moveAt 30 10]).startValue =
          none) := by
  have hen : sampleSingle.config.disabled = false := by rw [sampleSingle_config]
  have hx : pointerX (mouseAt 5) = Except.ok (some 5) := by simp [pointerX, mouseAt]
  obtain ⟨c1, c2⟩ := startDrag_captures sampleSingle (mouseAt 5) HandleType.single _ hen hx
  obtain ⟨d1, d2⟩ := dragMoves_start_frame [moveAt 30 10]
    (startDrag sampleSingle (mouseAt 5) HandleType.single).state
  obtain ⟨e1, e2⟩ := endDrag_start_frame
    (dragMoves (startDrag sampleSingle (mouseAt 5) HandleType.single).state [moveAt 30 10])
  have hv : sampleSingle.values = JsVal.num (JsNum.fin 0) := by
    simp [sampleSingle, construct, Options.defaults]
  have hX : (fullDrag sampleSingle (mouseAt 5) HandleType.single [moveAt 30 10]).startX =
      some 5 := by
    unfold fullDrag; rw [e1, d1, c1]
  have hV : (fullDrag sampleSingle (mouseAt 5) HandleType.single [moveAt 30 10]).startValue =
      some (JsVal.num (JsNum.fin 0)) := by
    unfold fullDrag; rw [e2, d2, c2, hv]
  refine ⟨hen, hX, hV, ?_⟩
  rintro ⟨h1, _⟩
  rw [hX] at h1
  norm_num at h1

/-- C12, as the code has it: after a full drag on an enabled slider whose pointer-down
coordinate is read, the dragging flag is `false` and the active handle `null`, while
`startX` and `startValue` keep what pointer-down captured: the pointer coordinate and the
grabbed handle's value. -/
theorem fullDrag_clears_flags (s : State) (down : PointerEvt) (h : HandleType)
    (ms : List Move) (x : Option ℚ) (hen : s.config.disabled = false)
    (hx : pointerX down = Except.ok x) :
    (fullDrag s down h ms).isDragging = false ∧ (fullDrag s down h ms).activeHandle = none ∧
      (fullDrag s down h ms).startX = x ∧
      (fullDrag s down h ms).startValue =
        some (match h with
          | HandleType.min => JsVal.num (s.values.idx 0)
          | HandleType.max => JsVal.num (s.values.idx 1)
          | HandleType.single => s.values) := by
  obtain ⟨c1, c2⟩ := startDrag_captures s down h x hen hx
  obtain ⟨d1, d2⟩ := dragMoves_start_frame ms (startDrag s down h).state
  obtain ⟨e1, e2⟩ := endDrag_start_frame (dragMoves (startDrag s down h).state ms)
  obtain ⟨g1, _, _, _, _, _⟩ := startDrag_state s down h hen
  obtain ⟨f1, f2, f3⟩ := dragMoves_frame ms (startDrag s down h).state
  have hflags : (fullDrag s down h ms).isDragging = false ∧
      (fullDrag s down h ms).activeHandle = none := by
    simp only [fullDrag, endDrag, f2.trans g1, if_true]
    split_ifs <;> exact ⟨rfl, rfl⟩
  refine ⟨hflags.1, hflags.2, ?_, ?_⟩
  · unfold fullDrag; rw [e1, d1, c1]
  · unfold fullDrag; rw [e2, d2, c2]

/-- Witness for the amended C12 on the default single slider. -/
theorem fullDrag_clears_flags_witness :
    sampleSingle.config.disabled = false ∧ pointerX (mouseAt 5) = Except.ok (some 5) ∧
      (fullDrag sampleSingle (mouseAt 5) HandleType.single [moveAt 30 10]).isDragging = false ∧
      (fullDrag sampleSingle (mouseAt 5) HandleType.single [moveAt 30 10]).activeHandle =
        none ∧
      (fullDrag sampleSingle (mouseAt 5) HandleType.single [moveAt 30 10]).startX = some 5 := by
  have hen : sampleSingle.config.disabled = false := by rw [sampleSingle_config]
  have hx : pointerX (mouseAt 5) = Except.ok (some 5) := by simp [pointerX, mouseAt]
  have h := fullDrag_clears_flags sampleSingle (mouseAt 5) HandleType.single [moveAt 30 10]
    (some 5) hen hx
  exact ⟨hen, hx, h.1, h.2.1, h.2.2.1⟩

/-! ## Track click -/

@[simp] theorem JsNum.lt_fin (a b : ℚ) : JsNum.lt (JsNum.fin a) (JsNum.fin b) = decide (a < b) := rfl

@[simp] theorem JsNum.mathAbs_fin (a : ℚ) : JsNum.mathAbs (JsNum.fin a) = JsNum.fin |a| := rfl

/-- What `handleTrackClick` does on a range slider storing a finite pair, when the pointer
coordinate is read and the snapped value is the number `sv`. -/
theorem handleTrackClick_range (s : State) (e : PointerEvt) (rect : Rect) (x : Option ℚ)
    (lo hi sv : ℚ) (hrange : s.config.type = SliderType.range)
    (hvals : s.values = JsVal.arr [JsNum.fin lo, JsNum.fin hi])
    (hx : pointerX e = Except.ok x) (hsv : snappedAt s.config x rect = JsNum.fin sv) :
    handleTrackClick s e rect =
      if |sv - lo| < |sv - hi| then
        setValue s (JsVal.arr [JsNum.fin sv, JsNum.fin hi]) (some HandleType.min) true
      else
        setValue s (JsVal.arr [JsNum.fin lo, JsNum.fin sv]) (some HandleType.max) true := by
  unfold handleTrackClick
  unfold snappedAt at hsv
  simp only [hx, hrange, hsv, hvals, JsVal.idx, List.getD_cons_zero, List.getD_cons_succ,
    JsNum.sub_fin, JsNum.mathAbs_fin, JsNum.lt_fin, decide_eq_true_eq]

theorem clickRange_config :
    clickRange.config =
      { type := SliderType.range, min := 0, max := 100, step := 1, showInputs := false,
        continuousUpdates := false, throttleMs := 16, onChange := true,
        onInputChange := false, disabled := false } := by
  simp [clickRange, construct, Options.defaults]

theorem clickRange_values :
    clickRange.values = JsVal.arr [JsNum.fin 20, JsNum.fin 80] := by
  simp [clickRange, construct, Options.defaults, JsVal.idx]
  norm_num

theorem clickRange_calls : clickRange.calls = [] := by
  simp [clickRange, construct, Options.defaults]

/-- On the sample track (left `0`, width `100`) with `min = 0`, `max = 100`, `step = 1`,
a pointer at an integer coordinate `n` between `0` and `100` snaps to `n`. -/
theorem snappedAt_sample (n : ℤ) (h0 : 0 ≤ n) (h1 : n ≤ 100) :
    snappedAt clickRange.config (some (n : ℚ)) sampleRect = JsNum.fin (n : ℚ) := by
  have h0q : (0 : ℚ) ≤ (n : ℚ) / 100 := by positivity
  have h1q : (n : ℚ) / 100 ≤ 1 := by
    rw [div_le_one (by norm_num)]; exact_mod_cast h1
  have hfl : ⌊(n : ℚ) + 1 / 2⌋ = n := by
    rw [Int.floor_eq_iff]
    constructor <;> linarith
  rw [clickRange_config]
  simp only [snappedAt, snapToStep, sampleRect, JsNum.ofOption, JsNum.sub_fin,
    JsNum.div_fin _ _ (by norm_num : (100 : ℚ) ≠ 0), JsNum.div_fin _ _ (by norm_num : (1 : ℚ) ≠ 0),
    JsNum.mathMin_fin, JsNum.mathMax_fin, JsNum.mul_fin, JsNum.add_fin, JsNum.mathRound_fin,
    sub_zero, min_eq_right h1q, max_eq_right h0q]
  have e1 : (0 + (n : ℚ) / 100 * 100) / 1 = (n : ℚ) := by ring
  rw [e1, hfl]
  simp

theorem snappedAt_sample_50 :
    snappedAt clickRange.config (some 50) sampleRect = JsNum.fin 50 := by
  simpa using snappedAt_sample 50 (by norm_num) (by norm_num)

theorem snappedAt_sample_70 :
    snappedAt clickRange.config (some 70) sampleRect = JsNum.fin 70 := by
  simpa using snappedAt_sample 70 (by norm_num) (by norm_num)

theorem pointerX_mouseAt (x : ℚ) (hx : x ≠ 0) : pointerX (mouseAt x) = Except.ok (some x) := by
  simp [pointerX, mouseAt, hx]

/-- C13 fails as stated: on the range slider storing `(20, 80)`, a click snapped to `50`
is equidistant from both handles, and the code assigns it to the `max` handle: it calls
`setValue([20, 50], 'max')`, stores `(20, 50)` and notifies with source `'max'`, not
`setValue([50, 80], 'min')`. -/
theorem handleTrackClick_tie_goes_to_max :
    snappedAt clickRange.config (some 50) sampleRect = JsNum.fin 50 ∧
      |(50 : ℚ) - 20| = |(50 : ℚ) - 80| ∧
      handleTrackClick clickRange (mouseAt 50) sampleRect =
        setValue clickRange (JsVal.arr [JsNum.fin 20, JsNum.fin 50]) (some HandleType.max)
          true ∧
      (handleTrackClick clickRange (mouseAt 50) sampleRect).state.values =
        JsVal.arr [JsNum.fin 20, JsNum.fin 50] ∧
      (handleTrackClick clickRange (mouseAt 50) sampleRect).state.calls =
        [Call.onChange (JsVal.arr [JsNum.fin 20, JsNum.fin 50]) (some HandleType.max)] ∧
      handleTrackClick clickRange (mouseAt 50) sampleRect ≠
        setValue clickRange (JsVal.arr [JsNum.fin 50, JsNum.fin 80]) (some HandleType.min)
          true := by
  have hc := clickRange_config
  have hrange : clickRange.config.type = SliderType.range := by rw [hc]
  have hle : clickRange.config.min ≤ clickRange.config.max := by rw [hc]; norm_num
  have htie : |(50 : ℚ) - 20| = |(50 : ℚ) - 80| := by norm_num [abs_of_neg]
  have hclick : handleTrackClick clickRange (mouseAt 50) sampleRect =
      setValue clickRange (JsVal.arr [JsNum.fin 20, JsNum.fin 50]) (some HandleType.max)
        true := by
    rw [handleTrackClick_range clickRange (mouseAt 50) sampleRect (some 50) 20 80 50 hrange
      clickRange_values (pointerX_mouseAt 50 (by norm_num)) snappedAt_sample_50]
    rw [if_neg (by rw [htie]; exact lt_irrefl _)]
  have hv1 : (setValue clickRange (JsVal.arr [JsNum.fin 20, JsNum.fin 50])
      (some HandleType.max) true).state.values = JsVal.arr [JsNum.fin 20, JsNum.fin 50] := by
    rw [setValue_range_pair _ _ _ _ _ hrange]
    simp only [Outcome.state, fireCallbacks_values, updateVisuals_values,
      rangeValues_fin _ _ _ hle]
    rw [hc]; norm_num
  have hv2 : (setValue clickRange (JsVal.arr [JsNum.fin 50, JsNum.fin 80])
      (some HandleType.min) true).state.values = JsVal.arr [JsNum.fin 50, JsNum.fin 80] := by
    rw [setValue_range_pair _ _ _ _ _ hrange]
    simp only [Outcome.state, fireCallbacks_values, updateVisuals_values,
      rangeValues_fin _ _ _ hle]
    rw [hc]; norm_num
  refine ⟨snappedAt_sample_50, htie, hclick, by rw [hclick, hv1], ?_, ?_⟩
  · rw [hclick, setValue_range_pair _ _ _ _ _ hrange]
    simp only [Outcome.state, fireCallbacks_calls, updateVisuals_calls, updateVisuals_config,
      updateVisuals_values, rangeValues_fin _ _ _ hle, clickRange_calls]
    rw [hc]; norm_num
  · intro h
    have h2 := congrArg (fun o => o.state.values) h
    simp only [hclick, hv1, hv2] at h2
    norm_num at h2

/-- C13, as the code has it: on a range slider storing `(lo, hi)`, a click whose snapped
value `sv` is equidistant from `lo` and `hi` is assigned to the `max` handle: the call is
`setValue([lo, sv], 'max')` with notification. -/
theorem handleTrackClick_tie (s : State) (e : PointerEvt) (rect : Rect) (x : Option ℚ)
    (lo hi sv : ℚ) (hrange : s.config.type = SliderType.range)
    (hvals : s.values = JsVal.arr [JsNum.fin lo, JsNum.fin hi])
    (hx : pointerX e = Except.ok x) (hsv : snappedAt s.config x rect = JsNum.fin sv)
    (htie : |sv - lo| = |sv - hi|) :
    handleTrackClick s e rect =
      setValue s (JsVal.arr [JsNum.fin lo, JsNum.fin sv]) (some HandleType.max) true := by
  rw [handleTrackClick_range s e rect x lo hi sv hrange hvals hx hsv]
  rw [if_neg (by rw [htie]; exact lt_irrefl _)]

/-- Witness for the amended C13: stored `(20, 80)`, a click snapped to `50`. -/
theorem handleTrackClick_tie_witness :
    clickRange.config.type = SliderType.range ∧
      clickRange.values = JsVal.arr [JsNum.fin 20, JsNum.fin 80] ∧
      pointerX (mouseAt 50) = Except.ok (some 50) ∧
      snappedAt clickRange.config (some 50) sampleRect = JsNum.fin 50 ∧
      |(50 : ℚ) - 20| = |(50 : ℚ) - 80| ∧
      handleTrackClick clickRange (mouseAt 50) sampleRect =
        setValue clickRange (JsVal.arr [JsNum.fin 20, JsNum.fin 50]) (some HandleType.max)
          true := by
  have hrange : clickRange.config.type = SliderType.range := by rw [clickRange_config]
  have hx := pointerX_mouseAt 50 (by norm_num)
  have htie : |(50 : ℚ) - 20| = |(50 : ℚ) - 80| := by norm_num [abs_of_neg]
  exact ⟨hrange, clickRange_values, hx, snappedAt_sample_50, htie,
    handleTrackClick_tie clickRange (mouseAt 50) sampleRect (some 50) 20 80 50 hrange
      clickRange_values hx snappedAt_sample_50 htie⟩

theorem closer_to_hi_ge_lo (lo hi sv : ℚ) (hle : lo ≤ hi) (h : |sv - hi| < |sv - lo|) :
    lo ≤ sv := by
  by_contra hlt
  push_neg at hlt
  rw [abs_of_neg (by linarith : sv - lo < 0), abs_of_neg (by linarith : sv - hi < 0)] at h
  linarith

theorem closer_to_lo_le_hi (lo hi sv : ℚ) (hle : lo ≤ hi) (h : |sv - lo| < |sv - hi|) :
    sv ≤ hi := by
  by_contra hlt
  push_neg at hlt
  rw [abs_of_pos (by linarith : 0 < sv - lo), abs_of_pos (by linarith : 0 < sv - hi)] at h
  linarith

/-- C14: on a range slider storing `(lo, hi)` with `min ≤ lo ≤ hi ≤ max`, a click whose
snapped value `sv` lies in `[min, max]` returns; if `sv` is strictly closer to `hi` the
stored pair becomes `(lo, sv)` and the callbacks are given source `'max'`; if it is strictly
closer to `lo` the pair becomes `(sv, hi)` with source `'min'`. -/
theorem handleTrackClick_closer (s : State) (e : PointerEvt) (rect : Rect) (x : Option ℚ)
    (lo hi sv : ℚ) (hrange : s.config.type = SliderType.range)
    (hvals : s.values = JsVal.arr [JsNum.fin lo, JsNum.fin hi])
    (hlo : s.config.min ≤ lo) (hlohi : lo ≤ hi) (hhi : hi ≤ s.config.max)
    (hx : pointerX e = Except.ok x) (hsv : snappedAt s.config x rect = JsNum.fin sv)
    (hs0 : s.config.min ≤ sv) (hs1 : sv ≤ s.config.max) :
    (|sv - hi| < |sv - lo| →
        ∃ s1, handleTrackClick s e rect = Outcome.ok s1 ∧
          s1.values = JsVal.arr [JsNum.fin lo, JsNum.fin sv] ∧
          s1.calls = s.calls ++
            (if s.config.onChange then
              [Call.onChange (JsVal.arr [JsNum.fin lo, JsNum.fin sv]) (some HandleType.max)]
             else []) ++
            (if s.config.onInputChange then
              [Call.onInputChange (JsVal.arr [JsNum.fin lo, JsNum.fin sv])
                (some HandleType.max)]
             else [])) ∧
      (|sv - lo| < |sv - hi| →
        ∃ s1, handleTrackClick s e rect = Outcome.ok s1 ∧
          s1.values = JsVal.arr [JsNum.fin sv, JsNum.fin hi] ∧
          s1.calls = s.calls ++
            (if s.config.onChange then
              [Call.onChange (JsVal.arr [JsNum.fin sv, JsNum.fin hi]) (some HandleType.min)]
             else []) ++
            (if s.config.onInputChange then
              [Call.onInputChange (JsVal.arr [JsNum.fin sv, JsNum.fin hi])
                (some HandleType.min)]
             else [])) := by
  have hle : s.config.min ≤ s.config.max := le_trans hlo (le_trans hlohi hhi)
  have hclick := handleTrackClick_range s e rect x lo hi sv hrange hvals hx hsv
  constructor
  · intro hc
    have hge := closer_to_hi_ge_lo lo hi sv hlohi hc
    rw [if_neg (not_lt.mpr hc.le)] at hclick
    have hv : rangeValues s.config (JsNum.fin lo) (JsNum.fin sv) =
        JsVal.arr [JsNum.fin lo, JsNum.fin sv] := by
      rw [rangeValues_fin _ _ _ hle, min_eq_left hge, max_eq_right hge,
        min_eq_left (le_trans hlohi hhi), max_eq_right hlo, max_eq_left hs0,
        min_eq_right hs1]
    refine ⟨_, hclick.trans (setValue_range_pair s _ _ _ true hrange), ?_, ?_⟩
    · simp [hv]
    · simp [fireCallbacks_calls, hv]
  · intro hc
    have hge := closer_to_lo_le_hi lo hi sv hlohi hc
    rw [if_pos hc] at hclick
    have hv : rangeValues s.config (JsNum.fin sv) (JsNum.fin hi) =
        JsVal.arr [JsNum.fin sv, JsNum.fin hi] := by
      rw [rangeValues_fin _ _ _ hle, min_eq_left hge, max_eq_right hge,
        min_eq_left hs1, max_eq_right hs0, max_eq_left (le_trans hlo hlohi),
        min_eq_right hhi]
    refine ⟨_, hclick.trans (setValue_range_pair s _ _ _ true hrange), ?_, ?_⟩
    · simp [hv]
    · simp [fireCallbacks_calls, hv]

/-- Witness for C14: `min = 0`, `max = 100`, stored `(20, 80)`, a click snapped to `70`
gives `(20, 70)` and notifies `onChange` with source `'max'`. -/
theorem handleTrackClick_closer_witness :
    clickRange.config.type = SliderType.range ∧
      clickRange.values = JsVal.arr [JsNum.fin 20, JsNum.fin 80] ∧
      snappedAt clickRange.config (some 70) sampleRect = JsNum.fin 70 ∧
      |(70 : ℚ) - 80| < |(70 : ℚ) - 20| ∧
      ∃ s1, handleTrackClick clickRange (mouseAt 70) sampleRect = Outcome.ok s1 ∧
        s1.values = JsVal.arr [JsNum.fin 20, JsNum.fin 70] ∧
        s1.calls =
          [Call.onChange (JsVal.arr [JsNum.fin 20, JsNum.fin 70]) (some HandleType.max)] := by
  have hc := clickRange_config
  have hrange : clickRange.config.type = SliderType.range := by rw [hc]
  have hx := pointerX_mouseAt 70 (by norm_num)
  have hcl : |(70 : ℚ) - 80| < |(70 : ℚ) - 20| := by norm_num [abs_of_neg]
  obtain ⟨s1, h1, h2, h3⟩ := (handleTrackClick_closer clickRange (mouseAt 70) sampleRect
    (some 70) 20 80 70 hrange clickRange_values (by rw [hc]; norm_num) (by norm_num)
    (by rw [hc]; norm_num) hx snappedAt_sample_70 (by rw [hc]; norm_num)
    (by rw [hc]; norm_num)).1 hcl
  refine ⟨hrange, clickRange_values, snappedAt_sample_70, hcl, s1, h1, h2, ?_⟩
  rw [h3, clickRange_calls, hc]
  simp

/-! ## Drag move on a single slider -/

/-- A pointer-move during a drag of the single handle, over a track with a width, returns
and stores the snapped pointer value clamped into `[min, max]`, for whatever the pointer
coordinate was read as. -/
theorem handleDrag_single_value (s : State) (e : PointerEvt) (rect : Rect) (now : ℚ)
    (x : Option ℚ) (hsingle : s.config.type = SliderType.single)
    (hdrag : s.isDragging = true) (hact : s.activeHandle = some HandleType.single)
    (hx : pointerX e = Except.ok x) (_hw : rect.width ≠ 0) :
    ∃ s1, handleDrag s e rect now = Outcome.ok s1 ∧
      s1.values =
        JsVal.num (JsNum.mathMax (JsNum.fin s.config.min)
          (JsNum.mathMin (JsNum.fin s.config.max) (snappedAt s.config x rect))) := by
  rw [handleDrag_dragging s e rect now _ x hdrag hact hx]
  simp only
  generalize (s.config.continuousUpdates &&
    decide (now - s.lastCallbackTime ≥ s.config.throttleMs)) = trig
  have hcfg := throttled_config s trig now
  obtain ⟨s1, hs1, hv⟩ := setValue_single_values
    (if trig then { s with lastCallbackTime := now } else s)
    (JsVal.num (snappedAt s.config x rect)) (some HandleType.single) trig
    (by rw [hcfg, hsingle])
  exact ⟨s1, hs1, by rw [hv, hcfg]; rfl⟩

theorem draggingStep10_config :
    draggingStep10.config =
      { type := SliderType.single, min := 0, max := 100, step := 10, showInputs := false,
        continuousUpdates := false, throttleMs := 16, onChange := false,
        onInputChange := false, disabled := false } := by
  simp [draggingStep10, startDrag, construct, Options.defaults, mouseAt, pointerX,
    Outcome.state]

theorem draggingStep10_flags :
    draggingStep10.isDragging = true ∧
      draggingStep10.activeHandle = some HandleType.single := by
  simp [draggingStep10, startDrag, construct, Options.defaults, mouseAt, pointerX,
    Outcome.state]

/-- The example of the specification: `min = 0`, `max = 100`, `step = 10`, a pointer at
fraction `0.24` of the track stores `20`. -/
theorem handleDrag_single_example :
    (handleDrag draggingStep10 (mouseAt 24) sampleRect 0).state.values =
      JsVal.num (JsNum.fin 20) := by
  obtain ⟨s1, h1, h2⟩ := handleDrag_single_value draggingStep10 (mouseAt 24) sampleRect 0
    (some 24) (by rw [draggingStep10_config]) draggingStep10_flags.1 draggingStep10_flags.2
    (pointerX_mouseAt 24 (by norm_num)) (by norm_num [sampleRect])
  rw [h1, Outcome.state, h2, draggingStep10_config]
  have hfl : ⌊(29 : ℚ) / 10⌋ = 2 := by
    rw [Int.floor_eq_iff]; constructor <;> norm_num
  simp [snappedAt, snapToStep, sampleRect, JsNum.ofOption, JsNum.div]
  norm_num [hfl]

/-- C15 fails on the code at a mouse move with `clientX = 0`.  With `min = 0`, `max = 100`,
`step = 10` and a track starting at `20`, the pointer fraction is `(0 - 20) / 100`, for
which the claimed value is `0`; but `e.clientX || ...` reads the coordinate `0` as
`undefined`, and the move stores `NaN`.  A touch at the same coordinate stores `0`. -/
theorem handleDrag_single_clientX_zero :
    draggingStep10.config.min < draggingStep10.config.max ∧
      0 < draggingStep10.config.step ∧
      JsNum.mathMax (JsNum.fin draggingStep10.config.min)
          (JsNum.mathMin (JsNum.fin draggingStep10.config.max)
            (snappedAt draggingStep10.config (some 0) insetRect)) = JsNum.fin 0 ∧
      (handleDrag draggingStep10 (mouseAt 0) insetRect 0).state.values =
        JsVal.num JsNum.nan ∧
      (handleDrag draggingStep10 (touchAt 0) insetRect 0).state.values =
        JsVal.num (JsNum.fin 0) := by
  have hc := draggingStep10_config
  have hsnap : snappedAt draggingStep10.config (some 0) insetRect = JsNum.fin 0 := by
    rw [hc]
    simp [snappedAt, snapToStep, insetRect, JsNum.ofOption, JsNum.div]
    norm_num
  have hm : pointerX (mouseAt 0) = Except.ok none := by simp [pointerX, mouseAt, touchX]
  have ht : pointerX (touchAt 0) = Except.ok (some 0) := by simp [pointerX, touchAt, touchX]
  obtain ⟨s1, h1, h2⟩ := handleDrag_single_value draggingStep10 (mouseAt 0) insetRect 0
    none (by rw [hc]) draggingStep10_flags.1 draggingStep10_flags.2 hm
    (by norm_num [insetRect])
  obtain ⟨s2, h3, h4⟩ := handleDrag_single_value draggingStep10 (touchAt 0) insetRect 0
    (some 0) (by rw [hc]) draggingStep10_flags.1 draggingStep10_flags.2 ht
    (by norm_num [insetRect])
  refine ⟨by rw [hc]; norm_num, by rw [hc]; norm_num, ?_, ?_, ?_⟩
  · rw [hsnap, hc]; norm_num
  · rw [h1, Outcome.state, h2]
    simp [snappedAt, snapToStep, JsNum.ofOption, JsNum.sub, JsNum.div, JsNum.mathMin,
      JsNum.mathMax, JsNum.mul, JsNum.add, JsNum.mathRound]
  · rw [h3, Outcome.state, h4, hsnap, hc]; norm_num

/-! ## Keyboard -/

/-- What `handleKeyDown` does on an enabled single slider, whatever handle type it is
given: one `setValue` with the stepped or bound value, or nothing for another key. -/
theorem handleKeyDown_single_eq (s : State) (e : KeyEvt) (h : Option HandleType)
    (hsingle : s.config.type = SliderType.single) (hen : s.config.disabled = false) :
    handleKeyDown s e h =
      match e.key with
      | Key.arrowRight | Key.arrowUp =>
        setValue s (JsVal.num (JsNum.mathMin
          (JsNum.add s.values.toNumber (JsNum.fin (keyStep s.config e)))
          (JsNum.fin s.config.max))) none true
      | Key.arrowLeft | Key.arrowDown =>
        setValue s (JsVal.num (JsNum.mathMax
          (JsNum.sub s.values.toNumber (JsNum.fin (keyStep s.config e)))
          (JsNum.fin s.config.min))) none true
      | Key.home => setValue s (JsVal.num (JsNum.fin s.config.min)) none true
      | Key.endKey => setValue s (JsVal.num (JsNum.fin s.config.max)) none true
      | Key.other => Outcome.ok s := by
  unfold handleKeyDown
  simp only [hen, Bool.false_eq_true, if_false, keyStep]
  cases e.key <;> simp only [hsingle]

/-- C16: on an enabled single slider storing `v` with `min ≤ v ≤ max` and `step > 0`,
`handleKeyDown` returns; ArrowRight and ArrowUp store `min(v + s, max)`, ArrowLeft and
ArrowDown store `max(v - s, min)`, where `s` is `step`, or `10 * step` with shift; Home
stores `min`, End stores `max`, any other key leaves `v`; the result stays in
`[min, max]`. -/
theorem handleKeyDown_single (s : State) (e : KeyEvt) (h : Option HandleType) (v : ℚ)
    (hsingle : s.config.type = SliderType.single) (hen : s.config.disabled = false)
    (hvals : s.values = JsVal.num (JsNum.fin v)) (hmin : s.config.min ≤ v)
    (hmax : v ≤ s.config.max) (hstep : 0 < s.config.step) :
    ∃ s1 w, handleKeyDown s e h = Outcome.ok s1 ∧ s1.values = JsVal.num (JsNum.fin w) ∧
      s.config.min ≤ w ∧ w ≤ s.config.max ∧
      (e.key = Key.arrowRight ∨ e.key = Key.arrowUp →
        w = min (v + (if e.shiftKey then 10 * s.config.step else s.config.step))
          s.config.max) ∧
      (e.key = Key.arrowLeft ∨ e.key = Key.arrowDown →
        w = max (v - (if e.shiftKey then 10 * s.config.step else s.config.step))
          s.config.min) ∧
      (e.key = Key.home → w = s.config.min) ∧ (e.key = Key.endKey → w = s.config.max) ∧
      (e.key = Key.other → w = v) := by
  have hle : s.config.min ≤ s.config.max := le_trans hmin hmax
  have hks : keyStep s.config e =
      (if e.shiftKey then 10 * s.config.step else s.config.step) := by
    unfold keyStep; split_ifs <;> ring
  have hpos : 0 < keyStep s.config e := by
    unfold keyStep; split_ifs <;> linarith
  have heq := handleKeyDown_single_eq s e h hsingle hen
  rw [hvals] at heq
  simp only [JsVal.toNumber, JsNum.add_fin, JsNum.sub_fin, JsNum.mathMin_fin,
    JsNum.mathMax_fin] at heq
  rw [← hks]
  cases hk : e.key <;> rw [hk] at heq <;> simp only at heq
  · obtain ⟨s1, h1, h2⟩ := setValue_single_values s
      (JsVal.num (JsNum.fin (min (v + keyStep s.config e) s.config.max))) none true hsingle
    have hw : max s.config.min (min s.config.max (min (v + keyStep s.config e) s.config.max)) =
        min (v + keyStep s.config e) s.config.max := by
      rw [min_eq_right (min_le_right _ _), max_eq_right (le_min (by linarith) hle)]
    refine ⟨s1, min (v + keyStep s.config e) s.config.max, heq.trans h1,
      by rw [h2]; simp only [JsVal.toNumber, JsNum.mathMin_fin, JsNum.mathMax_fin, hw],
      le_min (by linarith) hle, min_le_right _ _, ?_⟩
    simp
  · obtain ⟨s1, h1, h2⟩ := setValue_single_values s
      (JsVal.num (JsNum.fin (min (v + keyStep s.config e) s.config.max))) none true hsingle
    have hw : max s.config.min (min s.config.max (min (v + keyStep s.config e) s.config.max)) =
        min (v + keyStep s.config e) s.config.max := by
      rw [min_eq_right (min_le_right _ _), max_eq_right (le_min (by linarith) hle)]
    refine ⟨s1, min (v + keyStep s.config e) s.config.max, heq.trans h1,
      by rw [h2]; simp only [JsVal.toNumber, JsNum.mathMin_fin, JsNum.mathMax_fin, hw],
      le_min (by linarith) hle, min_le_right _ _, ?_⟩
    simp
  · obtain ⟨s1, h1, h2⟩ := setValue_single_values s
      (JsVal.num (JsNum.fin (max (v - keyStep s.config e) s.config.min))) none true hsingle
    have hw : max s.config.min (min s.config.max (max (v - keyStep s.config e) s.config.min)) =
        max (v - keyStep s.config e) s.config.min := by
      rw [min_eq_right (max_le (by linarith) hle), max_eq_right (le_max_right _ _)]
    refine ⟨s1, max (v - keyStep s.config e) s.config.min, heq.trans h1,
      by rw [h2]; simp only [JsVal.toNumber, JsNum.mathMin_fin, JsNum.mathMax_fin, hw],
      le_max_right _ _, max_le (by linarith) hle, ?_⟩
    simp
  · obtain ⟨s1, h1, h2⟩ := setValue_single_values s
      (JsVal.num (JsNum.fin (max (v - keyStep s.config e) s.config.min))) none true hsingle
    have hw : max s.config.min (min s.config.max (max (v - keyStep s.config e) s.config.min)) =
        max (v - keyStep s.config e) s.config.min := by
      rw [min_eq_right (max_le (by linarith) hle), max_eq_right (le_max_right _ _)]
    refine ⟨s1, max (v - keyStep s.config e) s.config.min, heq.trans h1,
      by rw [h2]; simp only [JsVal.toNumber, JsNum.mathMin_fin, JsNum.mathMax_fin, hw],
      le_max_right _ _, max_le (by linarith) hle, ?_⟩
    simp
  · obtain ⟨s1, h1, h2⟩ := setValue_single_values s (JsVal.num (JsNum.fin s.config.min))
      none true hsingle
    refine ⟨s1, s.config.min, heq.trans h1,
      by rw [h2]; simp [JsVal.toNumber, min_eq_right hle], le_rfl, hle, ?_⟩
    simp
  · obtain ⟨s1, h1, h2⟩ := setValue_single_values s (JsVal.num (JsNum.fin s.config.max))
      none true hsingle
    refine ⟨s1, s.config.max, heq.trans h1,
      by rw [h2]; simp [JsVal.toNumber, max_eq_right hle], hle, le_rfl, ?_⟩
    simp
  · exact ⟨s, v, heq, hvals, hmin, hmax, by simp⟩

theorem sampleStep5_config :
    sampleStep5.config =
      { type := SliderType.single, min := 0, max := 100, step := 5, showInputs := false,
        continuousUpdates := false, throttleMs := 16, onChange := true,
        onInputChange := false, disabled := false } := by
  simp [sampleStep5, construct, Options.defaults]

theorem sampleStep5_values : sampleStep5.values = JsVal.num (JsNum.fin 95) := by
  simp [sampleStep5, construct, Options.defaults, JsVal.toNumber]
  norm_num

/-- Witness for C16: `step = 5`, value `95`, `max = 100`; ArrowRight stores `100`. -/
theorem handleKeyDown_single_witness :
    sampleStep5.config.type = SliderType.single ∧ sampleStep5.config.disabled = false ∧
      sampleStep5.values = JsVal.num (JsNum.fin 95) ∧ sampleStep5.config.min ≤ 95 ∧
      (95 : ℚ) ≤ sampleStep5.config.max ∧ 0 < sampleStep5.config.step ∧
      (handleKeyDown sampleStep5 { key := Key.arrowRight, shiftKey := false }
        (some HandleType.single)).state.values = JsVal.num (JsNum.fin 100) := by
  have hc := sampleStep5_config
  have h1 : sampleStep5.config.type = SliderType.single := by rw [hc]
  have h2 : sampleStep5.config.disabled = false := by rw [hc]
  have h3 : sampleStep5.config.min ≤ 95 := by rw [hc]; norm_num
  have h4 : (95 : ℚ) ≤ sampleStep5.config.max := by rw [hc]; norm_num
  have h5 : 0 < sampleStep5.config.step := by rw [hc]; norm_num
  obtain ⟨s1, w, e1, e2, _, _, e5, _⟩ := handleKeyDown_single sampleStep5
    { key := Key.arrowRight, shiftKey := false } (some HandleType.single) 95 h1 h2
    sampleStep5_values h3 h4 h5
  refine ⟨h1, h2, sampleStep5_values, h3, h4, h5, ?_⟩
  have hw := e5 (Or.inl rfl)
  rw [hc] at hw
  rw [e1, Outcome.state, e2, hw]
  norm_num

/-- The pair stored in range mode for an ordered pair inside the bounds is that pair. -/
theorem rangeValues_ordered (c : Config) (a b : ℚ) (h0 : c.min ≤ a) (hab : a ≤ b)
    (h1 : b ≤ c.max) :
    rangeValues c (JsNum.fin a) (JsNum.fin b) = JsVal.arr [JsNum.fin a, JsNum.fin b] := by
  rw [rangeValues_fin _ _ _ (le_trans h0 (le_trans hab h1)), min_eq_left hab,
    max_eq_right hab, min_eq_left (le_trans hab h1), max_eq_right h0,
    max_eq_left (le_trans h0 hab), min_eq_right h1]

/-- What `handleKeyDown` does for a key on the `min` handle of an enabled range slider
storing a finite pair. -/
theorem handleKeyDown_range_min_eq (s : State) (e : KeyEvt) (lo hi : ℚ)
    (hrange : s.config.type = SliderType.range) (hen : s.config.disabled = false)
    (hvals : s.values = JsVal.arr [JsNum.fin lo, JsNum.fin hi]) :
    handleKeyDown s e (some HandleType.min) =
      match e.key with
      | Key.arrowRight | Key.arrowUp =>
        setValue s (JsVal.arr [JsNum.fin (min (lo + keyStep s.config e) hi), JsNum.fin hi])
          (some HandleType.min) true
      | Key.arrowLeft | Key.arrowDown =>
        setValue s
          (JsVal.arr [JsNum.fin (max (lo - keyStep s.config e) s.config.min), JsNum.fin hi])
          (some HandleType.min) true
      | Key.home =>
        setValue s (JsVal.arr [JsNum.fin s.config.min, JsNum.fin hi]) (some HandleType.min)
          true
      | Key.endKey =>
        setValue s (JsVal.arr [JsNum.fin s.config.max, JsNum.fin hi]) (some HandleType.min)
          true
      | Key.other => Outcome.ok s := by
  unfold handleKeyDown
  simp only [hen, Bool.false_eq_true, if_false, keyStep]
  cases e.key <;>
    simp only [hrange, hvals, JsVal.idx, List.getD_cons_zero, List.getD_cons_succ,
      JsNum.add_fin, JsNum.sub_fin, JsNum.mathMin_fin, JsNum.mathMax_fin]

/-- What `handleKeyDown` does for a key on the `max` handle of an enabled range slider
storing a finite pair. -/
theorem handleKeyDown_range_max_eq (s : State) (e : KeyEvt) (lo hi : ℚ)
    (hrange : s.config.type = SliderType.range) (hen : s.config.disabled = false)
    (hvals : s.values = JsVal.arr [JsNum.fin lo, JsNum.fin hi]) :
    handleKeyDown s e (some HandleType.max) =
      match e.key with
      | Key.arrowRight | Key.arrowUp =>
        setValue s
          (JsVal.arr [JsNum.fin lo, JsNum.fin (min (hi + keyStep s.config e) s.config.max)])
          (some HandleType.max) true
      | Key.arrowLeft | Key.arrowDown =>
        setValue s (JsVal.arr [JsNum.fin lo, JsNum.fin (max (hi - keyStep s.config e) lo)])
          (some HandleType.max) true
      | Key.home =>
        setValue s (JsVal.arr [JsNum.fin lo, JsNum.fin s.config.min]) (some HandleType.max)
          true
      | Key.endKey =>
        setValue s (JsVal.arr [JsNum.fin lo, JsNum.fin s.config.max]) (some HandleType.max)
          true
      | Key.other => Outcome.ok s := by
  unfold handleKeyDown
  simp only [hen, Bool.false_eq_true, if_false, keyStep]
  cases e.key <;>
    simp only [hrange, hvals, JsVal.idx, List.getD_cons_zero, List.getD_cons_succ,
      JsNum.add_fin, JsNum.sub_fin, JsNum.mathMin_fin, JsNum.mathMax_fin]

/-- The arrow keys on a range handle clamp against the opposite handle: with
`min ≤ lo ≤ hi ≤ max` and `step > 0`, an arrow key on the `min` handle stores `(lo1, hi)`
with `min ≤ lo1 ≤ hi`, and one on the `max` handle stores `(lo, hi1)` with
`lo ≤ hi1 ≤ max`. -/
theorem handleKeyDown_range_arrows (s : State) (e : KeyEvt) (lo hi : ℚ)
    (hrange : s.config.type = SliderType.range) (hen : s.config.disabled = false)
    (hvals : s.values = JsVal.arr [JsNum.fin lo, JsNum.fin hi])
    (hlo : s.config.min ≤ lo) (hlohi : lo ≤ hi) (hhi : hi ≤ s.config.max)
    (hstep : 0 < s.config.step)
    (hkey : e.key = Key.arrowRight ∨ e.key = Key.arrowUp ∨ e.key = Key.arrowLeft ∨
      e.key = Key.arrowDown) :
    (∃ lo1, (handleKeyDown s e (some HandleType.min)).state.values =
        JsVal.arr [JsNum.fin lo1, JsNum.fin hi] ∧ s.config.min ≤ lo1 ∧ lo1 ≤ hi) ∧
      (∃ hi1, (handleKeyDown s e (some HandleType.max)).state.values =
        JsVal.arr [JsNum.fin lo, JsNum.fin hi1] ∧ lo ≤ hi1 ∧ hi1 ≤ s.config.max) := by
  have hpos : 0 < keyStep s.config e := by
    unfold keyStep; split_ifs <;> linarith
  have hmin := handleKeyDown_range_min_eq s e lo hi hrange hen hvals
  have hmax := handleKeyDown_range_max_eq s e lo hi hrange hen hvals
  have hset : ∀ (a b : ℚ) (src : Option HandleType), s.config.min ≤ a → a ≤ b →
      b ≤ s.config.max →
      (setValue s (JsVal.arr [JsNum.fin a, JsNum.fin b]) src true).state.values =
        JsVal.arr [JsNum.fin a, JsNum.fin b] := by
    intro a b src h0 hab h1
    rw [setValue_range_pair _ _ _ _ _ hrange]
    simp [Outcome.state, rangeValues_ordered _ _ _ h0 hab h1]
  have hup : s.config.min ≤ min (lo + keyStep s.config e) hi ∧
      min (lo + keyStep s.config e) hi ≤ hi ∧ lo ≤ min (hi + keyStep s.config e) s.config.max ∧
      min (hi + keyStep s.config e) s.config.max ≤ s.config.max :=
    ⟨le_min (by linarith) (le_trans hlo hlohi), min_le_right _ _,
      le_min (by linarith) (le_trans hlohi hhi), min_le_right _ _⟩
  have hdown : s.config.min ≤ max (lo - keyStep s.config e) s.config.min ∧
      max (lo - keyStep s.config e) s.config.min ≤ hi ∧
      lo ≤ max (hi - keyStep s.config e) lo ∧
      max (hi - keyStep s.config e) lo ≤ s.config.max :=
    ⟨le_max_right _ _, max_le (by linarith) (le_trans hlo hlohi), le_max_right _ _,
      max_le (by linarith) (le_trans hlohi hhi)⟩
  rcases hkey with hk | hk | hk | hk <;> rw [hk] at hmin hmax <;> simp only at hmin hmax
  · exact ⟨⟨_, by rw [hmin, hset _ _ _ hup.1 hup.2.1 hhi], hup.1, hup.2.1⟩,
      ⟨_, by rw [hmax, hset _ _ _ hlo hup.2.2.1 hup.2.2.2], hup.2.2.1, hup.2.2.2⟩⟩
  · exact ⟨⟨_, by rw [hmin, hset _ _ _ hup.1 hup.2.1 hhi], hup.1, hup.2.1⟩,
      ⟨_, by rw [hmax, hset _ _ _ hlo hup.2.2.1 hup.2.2.2], hup.2.2.1, hup.2.2.2⟩⟩
  · exact ⟨⟨_, by rw [hmin, hset _ _ _ hdown.1 hdown.2.1 hhi], hdown.1, hdown.2.1⟩,
      ⟨_, by rw [hmax, hset _ _ _ hlo hdown.2.2.1 hdown.2.2.2], hdown.2.2.1, hdown.2.2.2⟩⟩
  · exact ⟨⟨_, by rw [hmin, hset _ _ _ hdown.1 hdown.2.1 hhi], hdown.1, hdown.2.1⟩,
      ⟨_, by rw [hmax, hset _ _ _ hlo hdown.2.2.1 hdown.2.2.2], hdown.2.2.1, hdown.2.2.2⟩⟩

/-- C17 fails on the code for End on the `min` handle and Home on the `max` handle.  On
the range slider storing `(20, 80)` with `min = 0`, `max = 100`: End on the `min` handle
calls `setValue([100, 80], 'min')`, which reorders and stores `(80, 100)`, so the opposite
value moves from `80` to `100`; Home on the `max` handle calls `setValue([20, 0], 'max')`
and stores `(0, 20)`, so the opposite value moves from `20` to `0`. -/
theorem handleKeyDown_range_bound_keys_cross :
    clickRange.config.disabled = false ∧
      clickRange.values = JsVal.arr [JsNum.fin 20, JsNum.fin 80] ∧
      (handleKeyDown clickRange { key := Key.endKey, shiftKey := false }
        (some HandleType.min)).state.values = JsVal.arr [JsNum.fin 80, JsNum.fin 100] ∧
      (handleKeyDown clickRange { key := Key.home, shiftKey := false }
        (some HandleType.max)).state.values = JsVal.arr [JsNum.fin 0, JsNum.fin 20] := by
  have hc := clickRange_config
  have hrange : clickRange.config.type = SliderType.range := by rw [hc]
  have hen : clickRange.config.disabled = false := by rw [hc]
  have hle : clickRange.config.min ≤ clickRange.config.max := by rw [hc]; norm_num
  refine ⟨hen, clickRange_values, ?_, ?_⟩
  · rw [handleKeyDown_range_min_eq clickRange _ 20 80 hrange hen clickRange_values]
    simp only
    rw [setValue_range_pair _ _ _ _ _ hrange]
    simp only [Outcome.state, fireCallbacks_values, updateVisuals_values,
      rangeValues_fin _ _ _ hle]
    rw [hc]; norm_num
  · rw [handleKeyDown_range_max_eq clickRange _ 20 80 hrange hen clickRange_values]
    simp only
    rw [setValue_range_pair _ _ _ _ _ hrange]
    simp only [Outcome.state, fireCallbacks_values, updateVisuals_values,
      rangeValues_fin _ _ _ hle]
    rw [hc]; norm_num

/-- C18 fails on the code for the wrapper's keydown listener on a range slider: it calls
`handleKeyDown(e)` without a handle type, so Home and End fall through to
`setValue(config.min)` and `setValue(config.max)`, a number where the range slider requires
an array, and `setValue` throws. -/
theorem handleKeyDown_wrapper_throws :
    sampleRange.config.type = SliderType.range ∧ sampleRange.config.disabled = false ∧
      handleKeyDown sampleRange { key := Key.home, shiftKey := false } none =
        Outcome.threw Err.rangeValue sampleRange ∧
      handleKeyDown sampleRange { key := Key.endKey, shiftKey := false } none =
        Outcome.threw Err.rangeValue sampleRange := by
  have hc := sampleRange_config
  have hrange : sampleRange.config.type = SliderType.range := by rw [hc]
  have hen : sampleRange.config.disabled = false := by rw [hc]
  refine ⟨hrange, hen, ?_, ?_⟩
  · simp [handleKeyDown, hen, hrange, setValue, JsVal.isArray]
  · simp [handleKeyDown, hen, hrange, setValue, JsVal.isArray]

/-! ## Direct input -/

/-- C19: when the field text does not parse (`parseFloat` gives `NaN`), `handleInputChange`
returns the state unchanged, and `handleInputBlur` returns a state that differs only in
the content of that field, which is now the committed value of the field (`values[0]`,
`values[1]` or the single value): stored value and callback log are untouched. -/
theorem unparseable_input_rejected (s : State) (h : HandleType) :
    handleInputChange s JsNum.nan h = Outcome.ok s ∧
      handleInputBlur s JsNum.nan h =
        Outcome.ok { s with view := setField s.view h (handleValue s h) } ∧
      (handleInputBlur s JsNum.nan h).state.values = s.values ∧
      (handleInputBlur s JsNum.nan h).state.calls = s.calls ∧
      fieldOf (handleInputBlur s JsNum.nan h).state.view h = handleValue s h := by
  refine ⟨rfl, ?_, ?_, ?_, ?_⟩
  · cases h <;> rfl
  · cases h <;> rfl
  · cases h <;> rfl
  · cases h <;> rfl

/-- The clamp into `[min, max]` that `setValue` applies is idempotent. -/
theorem clamp_idem (a b v : ℚ) : max a (min b (max a (min b v))) = max a (min b v) := by
  simp only [max_def, min_def]
  split_ifs <;> first | rfl | linarith

/-- C20 fails as stated: on the range slider storing `(20, 80)`, typing `90` into the
`min` field stores `(80, 80)`, the entry being clamped to the opposite handle, whereas
`setValue([90, 80])` reorders and stores `(80, 90)`. -/
theorem handleInputChange_not_reordered :
    clickRange.values = JsVal.arr [JsNum.fin 20, JsNum.fin 80] ∧
      (handleInputChange clickRange (JsNum.fin 90) HandleType.min).state.values =
        JsVal.arr [JsNum.fin 80, JsNum.fin 80] ∧
      (setValue clickRange (JsVal.arr [JsNum.fin 90, JsNum.fin 80]) (some HandleType.min)
        true).state.values = JsVal.arr [JsNum.fin 80, JsNum.fin 90] ∧
      (handleInputChange clickRange (JsNum.fin 90) HandleType.min).state.values ≠
        (setValue clickRange (JsVal.arr [JsNum.fin 90, JsNum.fin 80]) (some HandleType.min)
          true).state.values := by
  have hc := clickRange_config
  have hrange : clickRange.config.type = SliderType.range := by rw [hc]
  have hle : clickRange.config.min ≤ clickRange.config.max := by rw [hc]; norm_num
  have h1 : (handleInputChange clickRange (JsNum.fin 90) HandleType.min).state.values =
      JsVal.arr [JsNum.fin 80, JsNum.fin 80] := by
    simp only [handleInputChange, clickRange_values, JsVal.idx, List.getD_cons_zero,
      List.getD_cons_succ, JsNum.mathMin_fin, JsNum.mathMax_fin]
    rw [setValue_range_pair _ _ _ _ _ hrange]
    simp only [Outcome.state, fireCallbacks_values, updateVisuals_values,
      rangeValues_fin _ _ _ hle]
    rw [hc]; norm_num
  have h2 : (setValue clickRange (JsVal.arr [JsNum.fin 90, JsNum.fin 80])
      (some HandleType.min) true).state.values = JsVal.arr [JsNum.fin 80, JsNum.fin 90] := by
    rw [setValue_range_pair _ _ _ _ _ hrange]
    simp only [Outcome.state, fireCallbacks_values, updateVisuals_values,
      rangeValues_fin _ _ _ hle]
    rw [hc]; norm_num
  refine ⟨clickRange_values, h1, h2, ?_⟩
  rw [h1, h2]
  intro h
  norm_num at h

/-- C20, as the code has it.  On a range slider storing `(lo, hi)` with
`min ≤ lo ≤ hi ≤ max`, a parsed entry `v` is clamped against the opposite handle before
`setValue`: the `min` field stores `(max(min, min(v, hi)), hi)` and the `max` field stores
`(lo, min(max, max(v, lo)))`, which is what `setValue([v, hi])` and `setValue([lo, v])`
store when `v` does not cross the opposite handle.  On a single slider the entry stores
what `setValue(v)` stores. -/
theorem handleInputChange_values (s : State) (v lo hi : ℚ)
    (hrange : s.config.type = SliderType.range)
    (hvals : s.values = JsVal.arr [JsNum.fin lo, JsNum.fin hi])
    (hlo : s.config.min ≤ lo) (hlohi : lo ≤ hi) (hhi : hi ≤ s.config.max) :
    (handleInputChange s (JsNum.fin v) HandleType.min).state.values =
        JsVal.arr [JsNum.fin (max s.config.min (min v hi)), JsNum.fin hi] ∧
      (v ≤ hi →
        (handleInputChange s (JsNum.fin v) HandleType.min).state.values =
          (setValue s (JsVal.arr [JsNum.fin v, JsNum.fin hi]) (some HandleType.min)
            true).state.values) ∧
      (handleInputChange s (JsNum.fin v) HandleType.max).state.values =
        JsVal.arr [JsNum.fin lo, JsNum.fin (min s.config.max (max v lo))] ∧
      (lo ≤ v →
        (handleInputChange s (JsNum.fin v) HandleType.max).state.values =
          (setValue s (JsVal.arr [JsNum.fin lo, JsNum.fin v]) (some HandleType.max)
            true).state.values) ∧
      (∀ (s0 : State) (w : ℚ), s0.config.type = SliderType.single →
        (handleInputChange s0 (JsNum.fin w) HandleType.single).state.values =
          (setValue s0 (JsVal.num (JsNum.fin w)) none true).state.values) := by
  have hle : s.config.min ≤ s.config.max := le_trans hlo (le_trans hlohi hhi)
  have hmin : (handleInputChange s (JsNum.fin v) HandleType.min).state.values =
      JsVal.arr [JsNum.fin (max s.config.min (min v hi)), JsNum.fin hi] := by
    simp only [handleInputChange, hvals, JsVal.idx, List.getD_cons_zero,
      List.getD_cons_succ, JsNum.mathMin_fin, JsNum.mathMax_fin]
    rw [setValue_range_pair _ _ _ _ _ hrange]
    simp only [Outcome.state, fireCallbacks_values, updateVisuals_values]
    exact rangeValues_ordered _ _ _ (le_max_left _ _)
      (max_le (le_trans hlo hlohi) (min_le_right _ _)) hhi
  have hmax : (handleInputChange s (JsNum.fin v) HandleType.max).state.values =
      JsVal.arr [JsNum.fin lo, JsNum.fin (min s.config.max (max v lo))] := by
    simp only [handleInputChange, hvals, JsVal.idx, List.getD_cons_zero,
      List.getD_cons_succ, JsNum.mathMin_fin, JsNum.mathMax_fin]
    rw [setValue_range_pair _ _ _ _ _ hrange]
    simp only [Outcome.state, fireCallbacks_values, updateVisuals_values]
    exact rangeValues_ordered _ _ _ hlo
      (le_min (le_trans hlohi hhi) (le_max_right _ _)) (min_le_left _ _)
  refine ⟨hmin, ?_, hmax, ?_, ?_⟩
  · intro hv
    rw [hmin, setValue_range_pair _ _ _ _ _ hrange]
    simp only [Outcome.state, fireCallbacks_values, updateVisuals_values,
      rangeValues_fin _ _ _ hle]
    rw [min_eq_left hv, max_eq_right hv, min_eq_left (le_trans hv hhi),
      max_eq_left (le_trans hlo hlohi), min_eq_right hhi]
  · intro hv
    rw [hmax, setValue_range_pair _ _ _ _ _ hrange]
    simp only [Outcome.state, fireCallbacks_values, updateVisuals_values,
      rangeValues_fin _ _ _ hle]
    rw [min_eq_left hv, max_eq_right hv, min_eq_left (le_trans hlohi hhi),
      max_eq_right hlo, max_eq_left hv, max_eq_left (le_trans hlo hv)]
  · intro s0 w hsingle
    simp only [handleInputChange, JsNum.mathMin_fin, JsNum.mathMax_fin]
    rw [setValue_single _ _ _ _ hsingle, setValue_single _ _ _ _ hsingle]
    simp only [Outcome.state, fireCallbacks_values, updateVisuals_values, JsVal.toNumber,
      JsNum.mathMin_fin, JsNum.mathMax_fin, clamp_idem]

/-- Witness for the amended C20 on the range slider storing `(20, 80)`: typing `90` into
the `min` field stores `(80, 80)`. -/
theorem handleInputChange_values_witness :
    clickRange.config.type = SliderType.range ∧
      clickRange.values = JsVal.arr [JsNum.fin 20, JsNum.fin 80] ∧
      clickRange.config.min ≤ 20 ∧ (20 : ℚ) ≤ 80 ∧ (80 : ℚ) ≤ clickRange.config.max ∧
      (handleInputChange clickRange (JsNum.fin 90) HandleType.min).state.values =
        JsVal.arr [JsNum.fin (max clickRange.config.min (min 90 80)), JsNum.fin 80] := by
  have hc := clickRange_config
  have hrange : clickRange.config.type = SliderType.range := by rw [hc]
  have h1 : clickRange.config.min ≤ 20 := by rw [hc]; norm_num
  have h2 : (80 : ℚ) ≤ clickRange.config.max := by rw [hc]; norm_num
  exact ⟨hrange, clickRange_values, h1, by norm_num, h2,
    (handleInputChange_values clickRange 90 20 80 hrange clickRange_values h1 (by norm_num)
      h2).1⟩

/-! ## Callbacks of direct input -/

/-- On a single slider a parsed entry reaches `setValue` without a source, so the log
grows by the `onChange` invocation only, whether or not `onInputChange` is registered. -/
theorem handleInputChange_single_calls (s : State) (v : ℚ)
    (hsingle : s.config.type = SliderType.single) :
    (handleInputChange s (JsNum.fin v) HandleType.single).state.calls =
      s.calls ++
        (if s.config.onChange then
          [Call.onChange (handleInputChange s (JsNum.fin v) HandleType.single).state.values
            none]
         else []) := by
  simp only [handleInputChange]
  rw [setValue_single _ _ _ _ hsingle]
  cases hcb : s.config.onChange <;> simp [Outcome.state, fireCallbacks_calls, hcb]

/-- On a range slider a parsed entry in the `min` or `max` field reaches `setValue` with
that field as source, so `onInputChange`, when registered, is invoked with the newly
stored value after `onChange`. -/
theorem handleInputChange_range_calls (s : State) (v : ℚ) (h : HandleType)
    (hrange : s.config.type = SliderType.range) (hh : h ≠ HandleType.single) :
    (handleInputChange s (JsNum.fin v) h).state.calls =
      s.calls ++
        (if s.config.onChange then
          [Call.onChange (handleInputChange s (JsNum.fin v) h).state.values (some h)]
         else []) ++
        (if s.config.onInputChange then
          [Call.onInputChange (handleInputChange s (JsNum.fin v) h).state.values (some h)]
         else []) := by
  cases h with
  | single => exact absurd rfl hh
  | min =>
    simp only [handleInputChange]
    rw [setValue_range_pair _ _ _ _ _ hrange]
    cases hcb : s.config.onChange <;> cases hic : s.config.onInputChange <;>
      simp [Outcome.state, fireCallbacks_calls, hcb, hic]
  | max =>
    simp only [handleInputChange]
    rw [setValue_range_pair _ _ _ _ _ hrange]
    cases hcb : s.config.onChange <;> cases hic : s.config.onInputChange <;>
      simp [Outcome.state, fireCallbacks_calls, hcb, hic]

theorem sampleInputs_config :
    sampleInputs.config =
      { type := SliderType.single, min := 0, max := 100, step := 1, showInputs := true,
        continuousUpdates := false, throttleMs := 16, onChange := true,
        onInputChange := true, disabled := false } := by
  simp [sampleInputs, construct, Options.defaults]

theorem sampleInputs_values : sampleInputs.values = JsVal.num (JsNum.fin 50) := by
  simp [sampleInputs, construct, Options.defaults, JsVal.toNumber]
  norm_num

theorem sampleInputs_calls : sampleInputs.calls = [] := by
  simp [sampleInputs, construct, Options.defaults]

/-- C21 fails on the code for the single field.  On a single slider with both callbacks
registered, typing `42` stores `42` and invokes `onChange(42, null)` only: `setValue` is
called without a source, and `onInputChange` is invoked only for a truthy source. -/
theorem handleInputChange_single_no_onInputChange :
    sampleInputs.config.type = SliderType.single ∧
      sampleInputs.config.onInputChange = true ∧
      (handleInputChange sampleInputs (JsNum.fin 42) HandleType.single).state.values =
        JsVal.num (JsNum.fin 42) ∧
      (handleInputChange sampleInputs (JsNum.fin 42) HandleType.single).state.calls =
        [Call.onChange (JsVal.num (JsNum.fin 42)) none] := by
  have hc := sampleInputs_config
  have hsingle : sampleInputs.config.type = SliderType.single := by rw [hc]
  have hv : (handleInputChange sampleInputs (JsNum.fin 42) HandleType.single).state.values =
      JsVal.num (JsNum.fin 42) := by
    simp only [handleInputChange]
    rw [setValue_single _ _ _ _ hsingle]
    simp only [Outcome.state, fireCallbacks_values, updateVisuals_values, JsVal.toNumber,
      JsNum.mathMin_fin, JsNum.mathMax_fin, hc]
    norm_num
  refine ⟨hsingle, by rw [hc], hv, ?_⟩
  rw [handleInputChange_single_calls _ _ hsingle, hv, sampleInputs_calls, hc]
  simp

/-! ## Construction -/

theorem construct_config (o : Options) :
    (construct o).config =
      { type := o.type.getD SliderType.single, min := o.min.getD 0, max := o.max.getD 100,
        step := o.step.getD 1, showInputs := o.showInputs.getD false,
        continuousUpdates := o.continuousUpdates.getD false,
        throttleMs := o.throttleMs.getD 16, onChange := o.onChange,
        onInputChange := o.onInputChange, disabled := o.disabled } := by
  simp [construct]

theorem construct_flags (o : Options) :
    (construct o).isDragging = false ∧ (construct o).activeHandle = none := by
  simp [construct]

/-- The value the constructor stores on a range slider for an initial pair of finite
numbers: `value[0]` is clamped from below only and `value[1]` from above only, then the
two are swapped if out of order. -/
theorem construct_range_values (o : Options) (a b : ℚ)
    (hrange : o.type = some SliderType.range)
    (hval : o.value = some (JsVal.arr [JsNum.fin a, JsNum.fin b])) :
    (construct o).values =
      if min (o.max.getD 100) b < max (o.min.getD 0) a then
        JsVal.arr [JsNum.fin (min (o.max.getD 100) b), JsNum.fin (max (o.min.getD 0) a)]
      else
        JsVal.arr [JsNum.fin (max (o.min.getD 0) a), JsNum.fin (min (o.max.getD 100) b)] := by
  simp only [construct, updateVisuals_values, hrange, hval, Option.getD_some, JsVal.idx,
    List.getD_cons_zero, List.getD_cons_succ, JsNum.mathMax_fin, JsNum.mathMin_fin,
    JsNum.gt_fin, decide_eq_true_eq]

/-- Where the constructor does establish the invariant: on a single slider with `min < max`
the stored value is in `[min, max]` (it is `min` without an initial value); on a range
slider it is `(min, max)` without an initial pair, and an initial pair `[a, b]` with
`a ≤ max` and `min ≤ b` is stored as a pair with `min ≤ lo ≤ hi ≤ max`. -/
theorem construct_invariant_cases (o : Options) (hlt : o.min.getD 0 < o.max.getD 100) :
    (o.type.getD SliderType.single = SliderType.single →
        (o.value = none → (construct o).values = JsVal.num (JsNum.fin (o.min.getD 0))) ∧
        (∀ v : ℚ, o.value = some (JsVal.num (JsNum.fin v)) →
          ∃ w, (construct o).values = JsVal.num (JsNum.fin w) ∧ o.min.getD 0 ≤ w ∧
            w ≤ o.max.getD 100)) ∧
      (o.type = some SliderType.range →
        (o.value = none →
          (construct o).values =
            JsVal.arr [JsNum.fin (o.min.getD 0), JsNum.fin (o.max.getD 100)]) ∧
        (∀ a b : ℚ, o.value = some (JsVal.arr [JsNum.fin a, JsNum.fin b]) →
          a ≤ o.max.getD 100 → o.min.getD 0 ≤ b →
          ∃ lo hi, (construct o).values = JsVal.arr [JsNum.fin lo, JsNum.fin hi] ∧
            o.min.getD 0 ≤ lo ∧ lo ≤ hi ∧ hi ≤ o.max.getD 100)) := by
  refine ⟨fun hsingle => ⟨?_, ?_⟩, fun hrange => ⟨?_, ?_⟩⟩
  · intro hval
    simp [construct, hsingle, hval]
  · intro v hval
    refine ⟨max (o.min.getD 0) (min (o.max.getD 100) v), ?_, le_max_left _ _,
      max_le hlt.le (min_le_left _ _)⟩
    simp [construct, hsingle, hval, JsVal.toNumber]
  · intro hval
    simp [construct, hrange, hval]
  · intro a b hval ha hb
    rw [construct_range_values o a b hrange hval]
    split_ifs with hswap
    · exact ⟨_, _, rfl, le_min hlt.le hb, hswap.le, max_le hlt.le ha⟩
    · exact ⟨_, _, rfl, le_max_left _ _, not_lt.mp hswap, min_le_left _ _⟩

/-- C22 fails on the code for initial pairs lying wholly outside the bounds.  With
`min = 0`, `max = 100`: the initial pair `[200, 300]` is stored as `(100, 200)`, whose `hi`
exceeds `max`, and `[-50, -20]` is stored as `(-20, 0)`, whose `lo` is below `min`;
`setValue` stores `(100, 100)` and `(0, 0)` for the same pairs. -/
theorem construct_range_out_of_bounds :
    (construct
        { Options.defaults with
          type := some SliderType.range
          value := some (JsVal.arr [JsNum.fin 200, JsNum.fin 300]) }).values =
        JsVal.arr [JsNum.fin 100, JsNum.fin 200] ∧
      (construct
        { Options.defaults with
          type := some SliderType.range
          value := some (JsVal.arr [JsNum.fin (-50), JsNum.fin (-20)]) }).values =
        JsVal.arr [JsNum.fin (-20), JsNum.fin 0] ∧
      (setValue sampleRange (JsVal.arr [JsNum.fin 200, JsNum.fin 300]) none true).state.values =
        JsVal.arr [JsNum.fin 100, JsNum.fin 100] ∧
      (setValue sampleRange (JsVal.arr [JsNum.fin (-50), JsNum.fin (-20)]) none
        true).state.values = JsVal.arr [JsNum.fin 0, JsNum.fin 0] := by
  have hc := sampleRange_config
  have hrange : sampleRange.config.type = SliderType.range := by rw [hc]
  have hle : sampleRange.config.min ≤ sampleRange.config.max := by rw [hc]; norm_num
  refine ⟨?_, ?_, ?_, ?_⟩
  · rw [construct_range_values _ 200 300 rfl rfl]
    norm_num [Options.defaults]
  · rw [construct_range_values _ (-50) (-20) rfl rfl]
    norm_num [Options.defaults]
  · rw [setValue_range_pair _ _ _ _ _ hrange]
    simp only [Outcome.state, fireCallbacks_values, updateVisuals_values,
      rangeValues_fin _ _ _ hle]
    rw [hc]; norm_num
  · rw [setValue_range_pair _ _ _ _ _ hrange]
    simp only [Outcome.state, fireCallbacks_values, updateVisuals_values,
      rangeValues_fin _ _ _ hle]
    rw [hc]; norm_num

/-! ## Disabled slider -/

/-- C23: on a disabled slider `startDrag` and `handleKeyDown` return the state they were
called in, callback log included; and `setDisabled` changes neither the stored value nor
the drag state nor the log. -/
theorem disabled_is_inert (s : State) (hdis : s.config.disabled = true) :
    (∀ (e : PointerEvt) (h : HandleType), startDrag s e h = Outcome.ok s) ∧
      (∀ (e : KeyEvt) (h : Option HandleType), handleKeyDown s e h = Outcome.ok s) ∧
      (∀ (s0 : State) (d : Bool),
        (setDisabled s0 d).values = s0.values ∧
          (setDisabled s0 d).isDragging = s0.isDragging ∧
          (setDisabled s0 d).activeHandle = s0.activeHandle ∧
          (setDisabled s0 d).startX = s0.startX ∧
          (setDisabled s0 d).startValue = s0.startValue ∧
          (setDisabled s0 d).calls = s0.calls ∧
          (setDisabled s0 d).config.disabled = d) := by
  refine ⟨?_, ?_, ?_⟩
  · intro e h
    simp [startDrag, hdis]
  · intro e h
    simp [handleKeyDown, hdis]
  · intro s0 d
    exact ⟨rfl, rfl, rfl, rfl, rfl, rfl, rfl⟩

/-- Witness for C23: the default single slider after `setDisabled(true)`. -/
theorem disabled_is_inert_witness :
    (setDisabled sampleSingle true).config.disabled = true ∧
      startDrag (setDisabled sampleSingle true) (mouseAt 5) HandleType.single =
        Outcome.ok (setDisabled sampleSingle true) ∧
      handleKeyDown (setDisabled sampleSingle true)
          { key := Key.arrowRight, shiftKey := false } (some HandleType.single) =
        Outcome.ok (setDisabled sampleSingle true) := by
  have h := disabled_is_inert (setDisabled sampleSingle true) rfl
  exact ⟨rfl, h.1 _ _, h.2.1 _ _⟩

/-! ## Rendered geometry -/

@[simp] theorem fireCallbacks_view (s : State) (src : Option HandleType) (t : Bool) :
    (fireCallbacks s src t).view = s.view := by
  simp only [fireCallbacks]; split_ifs <;> rfl

/-- The position, in percent, of a value between the bounds. -/
theorem percent_bounds (a b w : ℚ) (hlt : a < b) (h0 : a ≤ w) (h1 : w ≤ b) :
    0 ≤ (w - a) / (b - a) * 100 ∧ (w - a) / (b - a) * 100 ≤ 100 := by
  have hpos : 0 < b - a := by linarith
  constructor
  · exact mul_nonneg (div_nonneg (by linarith) hpos.le) (by norm_num)
  · have : (w - a) / (b - a) ≤ 1 := (div_le_one hpos).mpr (by linarith)
    linarith

theorem percent_mono (a b lo hi : ℚ) (hlt : a < b) (h : lo ≤ hi) :
    (lo - a) / (b - a) * 100 ≤ (hi - a) / (b - a) * 100 := by
  have hpos : 0 < b - a := by linarith
  have : (lo - a) / (b - a) ≤ (hi - a) / (b - a) :=
    div_le_div_of_nonneg_right (by linarith) hpos.le
  linarith

/-- C24: after `setValue` with `min < max`, the rendered geometry is computed from the
stored value and the bounds.  On a single slider storing `w`, the handle is at
`(w - min) / (max - min) * 100` percent, which lies in `[0, 100]`, and the filled track
starts at `0` with that width.  On a range slider storing `(lo, hi)`, the handles are at
the percentages of `lo` and `hi`, both in `[0, 100]`, and the filled track starts at the
first with width their difference, which is not negative. -/
theorem setValue_geometry (s : State) (source : Option HandleType) (notify : Bool)
    (hlt : s.config.min < s.config.max) :
    (s.config.type = SliderType.single → ∀ v : ℚ,
        ∃ s1 w, setValue s (JsVal.num (JsNum.fin v)) source notify = Outcome.ok s1 ∧
          s1.values = JsVal.num (JsNum.fin w) ∧
          s1.view.handleLeft =
            JsNum.fin ((w - s.config.min) / (s.config.max - s.config.min) * 100) ∧
          0 ≤ (w - s.config.min) / (s.config.max - s.config.min) * 100 ∧
          (w - s.config.min) / (s.config.max - s.config.min) * 100 ≤ 100 ∧
          s1.view.filledLeft = JsNum.fin 0 ∧ s1.view.filledWidth = s1.view.handleLeft) ∧
      (s.config.type = SliderType.range → ∀ a b : ℚ,
        ∃ s1 lo hi,
          setValue s (JsVal.arr [JsNum.fin a, JsNum.fin b]) source notify = Outcome.ok s1 ∧
          s1.values = JsVal.arr [JsNum.fin lo, JsNum.fin hi] ∧
          s1.view.minHandleLeft =
            JsNum.fin ((lo - s.config.min) / (s.config.max - s.config.min) * 100) ∧
          s1.view.maxHandleLeft =
            JsNum.fin ((hi - s.config.min) / (s.config.max - s.config.min) * 100) ∧
          0 ≤ (lo - s.config.min) / (s.config.max - s.config.min) * 100 ∧
          (hi - s.config.min) / (s.config.max - s.config.min) * 100 ≤ 100 ∧
          s1.view.filledLeft = s1.view.minHandleLeft ∧
          s1.view.filledWidth =
            JsNum.fin ((hi - s.config.min) / (s.config.max - s.config.min) * 100 -
              (lo - s.config.min) / (s.config.max - s.config.min) * 100) ∧
          0 ≤ (hi - s.config.min) / (s.config.max - s.config.min) * 100 -
              (lo - s.config.min) / (s.config.max - s.config.min) * 100) := by
  have hne : s.config.max - s.config.min ≠ 0 := by
    have : 0 < s.config.max - s.config.min := by linarith
    exact this.ne'
  constructor
  · intro hsingle v
    have hb := percent_bounds s.config.min s.config.max
      (max s.config.min (min s.config.max v)) hlt (le_max_left _ _)
      (max_le hlt.le (min_le_left _ _))
    refine ⟨_, max s.config.min (min s.config.max v),
      setValue_single s _ source notify hsingle, by simp [JsVal.toNumber], ?_, hb.1, hb.2,
      ?_, ?_⟩
    · simp [updateVisuals, hsingle, JsVal.toNumber, JsNum.div_fin _ _ hne]
    · simp [updateVisuals, hsingle]
    · simp [updateVisuals, hsingle]
  · intro hrange a b
    have hlo0 : s.config.min ≤ max s.config.min (min (min a b) s.config.max) :=
      le_max_left _ _
    have hhi1 : min s.config.max (max (max a b) s.config.min) ≤ s.config.max :=
      min_le_left _ _
    have hlohi : max s.config.min (min (min a b) s.config.max) ≤
        min s.config.max (max (max a b) s.config.min) := by
      apply max_le
      · exact le_min hlt.le (le_max_right _ _)
      · apply le_min (min_le_right _ _)
        exact le_trans (min_le_left _ _) (le_trans (min_le_left _ _)
          (le_trans (le_max_left a b) (le_max_left _ _)))
    have hb0 := percent_bounds s.config.min s.config.max _ hlt hlo0 (le_trans hlohi hhi1)
    have hb1 := percent_bounds s.config.min s.config.max _ hlt (le_trans hlo0 hlohi) hhi1
    have hm := percent_mono s.config.min s.config.max _ _ hlt hlohi
    refine ⟨_, max s.config.min (min (min a b) s.config.max),
      min s.config.max (max (max a b) s.config.min),
      setValue_range_pair s _ _ source notify hrange,
      by simp [rangeValues_fin _ _ _ hlt.le], ?_, ?_, hb0.1, hb1.2, ?_, ?_, by linarith⟩
    · simp [updateVisuals, hrange, rangeValues_fin _ _ _ hlt.le, JsVal.idx,
        JsNum.div_fin _ _ hne]
    · simp [updateVisuals, hrange, rangeValues_fin _ _ _ hlt.le, JsVal.idx,
        JsNum.div_fin _ _ hne]
    · simp [updateVisuals, hrange]
    · simp [updateVisuals, hrange, rangeValues_fin _ _ _ hlt.le, JsVal.idx,
        JsNum.div_fin _ _ hne]

/-- Witness for C24 on the range slider storing `(20, 80)` with `min = 0`, `max = 100`. -/
theorem setValue_geometry_witness :
    clickRange.config.min < clickRange.config.max ∧
      clickRange.config.type = SliderType.range ∧
      ∃ s1 lo hi,
        setValue clickRange (JsVal.arr [JsNum.fin 30, JsNum.fin 60]) none true =
          Outcome.ok s1 ∧
        s1.values = JsVal.arr [JsNum.fin lo, JsNum.fin hi] ∧
        s1.view.minHandleLeft =
          JsNum.fin ((lo - clickRange.config.min) /
            (clickRange.config.max - clickRange.config.min) * 100) ∧
        s1.view.filledLeft = s1.view.minHandleLeft := by
  have hc := clickRange_config
  have hlt : clickRange.config.min < clickRange.config.max := by rw [hc]; norm_num
  have hrange : clickRange.config.type = SliderType.range := by rw [hc]
  obtain ⟨s1, lo, hi, h1, h2, h3, _, _, _, h7, _⟩ :=
    (setValue_geometry clickRange none true hlt).2 hrange 30 60
  exact ⟨hlt, hrange, s1, lo, hi, h1, h2, h3, h7⟩

/-! ## One key press -/

/-- One run of `handleKeyDown` for ArrowRight without shift on an enabled single slider
storing `v`, with `min ≤ v` and `v + step ≤ max`: the value becomes `v + step`, the
configuration is kept and `onChange`, when registered, is invoked once with it. -/
theorem handleKeyDown_single_arrowRight (s : State) (h : Option HandleType) (v : ℚ)
    (hsingle : s.config.type = SliderType.single) (hen : s.config.disabled = false)
    (hvals : s.values = JsVal.num (JsNum.fin v)) (hmin : s.config.min ≤ v)
    (hstep : 0 < s.config.step) (hfit : v + s.config.step ≤ s.config.max) :
    (handleKeyDown s { key := Key.arrowRight, shiftKey := false } h).state.values =
        JsVal.num (JsNum.fin (v + s.config.step)) ∧
      (handleKeyDown s { key := Key.arrowRight, shiftKey := false } h).state.config =
        s.config ∧
      (handleKeyDown s { key := Key.arrowRight, shiftKey := false } h).state.calls =
        s.calls ++
          (if s.config.onChange then
            [Call.onChange (JsVal.num (JsNum.fin (v + s.config.step))) none] else []) := by
  have heq := handleKeyDown_single_eq s { key := Key.arrowRight, shiftKey := false } h
    hsingle hen
  simp only [keyStep, Bool.false_eq_true, if_false, hvals, JsVal.toNumber, JsNum.add_fin,
    JsNum.mathMin_fin, min_eq_left hfit] at heq
  rw [heq, setValue_single _ _ _ _ hsingle]
  have hw : max s.config.min (min s.config.max (v + s.config.step)) = v + s.config.step := by
    rw [min_eq_right hfit, max_eq_right (by linarith)]
  refine ⟨?_, ?_, ?_⟩
  · simp [Outcome.state, JsVal.toNumber, hw]
  · simp [Outcome.state]
  · cases hcb : s.config.onChange <;>
      simp [Outcome.state, fireCallbacks_calls, JsVal.toNumber, hw, hcb]

/-- A single ArrowRight press on the focused handle of an enabled single slider runs both
keydown listeners, so with `min ≤ v` and `v + 2 * step ≤ max` the value ends at
`v + 2 * step` and `onChange`, when registered, is invoked twice. -/
theorem keydownOnHandle_steps_twice (s : State) (v : ℚ)
    (hsingle : s.config.type = SliderType.single) (hen : s.config.disabled = false)
    (hvals : s.values = JsVal.num (JsNum.fin v)) (hmin : s.config.min ≤ v)
    (hstep : 0 < s.config.step) (hfit : v + 2 * s.config.step ≤ s.config.max) :
    (keydownOnHandle s { key := Key.arrowRight, shiftKey := false }
        HandleType.single).values = JsVal.num (JsNum.fin (v + 2 * s.config.step)) ∧
      (keydownOnHandle s { key := Key.arrowRight, shiftKey := false }
        HandleType.single).calls =
        s.calls ++
          (if s.config.onChange then
            [Call.onChange (JsVal.num (JsNum.fin (v + s.config.step))) none,
              Call.onChange (JsVal.num (JsNum.fin (v + 2 * s.config.step))) none]
           else []) := by
  obtain ⟨a1, a2, a3⟩ := handleKeyDown_single_arrowRight s (some HandleType.single) v
    hsingle hen hvals hmin hstep (by linarith)
  obtain ⟨b1, _, b3⟩ := handleKeyDown_single_arrowRight
    (handleKeyDown s { key := Key.arrowRight, shiftKey := false }
      (some HandleType.single)).state none (v + s.config.step)
    (by rw [a2]; exact hsingle) (by rw [a2]; exact hen) a1 (by rw [a2]; linarith)
    (by rw [a2]; exact hstep) (by rw [a2]; linarith)
  rw [a2, a3] at b3
  rw [a2] at b1
  have e2 : v + s.config.step + s.config.step = v + 2 * s.config.step := by ring
  rw [e2] at b1 b3
  refine ⟨b1, ?_⟩
  unfold keydownOnHandle
  rw [b3]
  cases s.config.onChange <;> simp

/-- C25 fails on the code: on the default single slider with value `50`, `step = 1` and
both callbacks registered, one ArrowRight press on the focused handle leaves the value at
`52`, not `51`, after two `onChange` invocations, with `51` and with `52`. -/
theorem keydownOnHandle_double_step :
    sampleInputs.config.type = SliderType.single ∧ sampleInputs.config.disabled = false ∧
      sampleInputs.values = JsVal.num (JsNum.fin 50) ∧
      (50 : ℚ) + 2 * sampleInputs.config.step ≤ sampleInputs.config.max ∧
      (keydownOnHandle sampleInputs { key := Key.arrowRight, shiftKey := false }
        HandleType.single).values = JsVal.num (JsNum.fin 52) ∧
      (keydownOnHandle sampleInputs { key := Key.arrowRight, shiftKey := false }
        HandleType.single).calls =
        [Call.onChange (JsVal.num (JsNum.fin 51)) none,
          Call.onChange (JsVal.num (JsNum.fin 52)) none] := by
  have hc := sampleInputs_config
  have hsingle : sampleInputs.config.type = SliderType.single := by rw [hc]
  have hen : sampleInputs.config.disabled = false := by rw [hc]
  have hfit : (50 : ℚ) + 2 * sampleInputs.config.step ≤ sampleInputs.config.max := by
    rw [hc]; norm_num
  obtain ⟨h1, h2⟩ := keydownOnHandle_steps_twice sampleInputs 50 hsingle hen
    sampleInputs_values (by rw [hc]; norm_num) (by rw [hc]; norm_num) hfit
  refine ⟨hsingle, hen, sampleInputs_values, hfit, ?_, ?_⟩
  · rw [h1, hc]; norm_num
  · rw [h2, sampleInputs_calls, hc]; norm_num

/-! ## Drag-state invariant -/

theorem setValue_flags (s : State) (value : JsVal) (src : Option HandleType) (t : Bool) :
    (setValue s value src t).state.isDragging = s.isDragging ∧
      (setValue s value src t).state.activeHandle = s.activeHandle :=
  ⟨(setValue_frame s value src t).2.1, (setValue_frame s value src t).2.2.1⟩

theorem handleTrackClick_flags (s : State) (e : PointerEvt) (rect : Rect) :
    (handleTrackClick s e rect).state.isDragging = s.isDragging ∧
      (handleTrackClick s e rect).state.activeHandle = s.activeHandle := by
  unfold handleTrackClick
  cases pointerX e with
  | error err => exact ⟨rfl, rfl⟩
  | ok x =>
    simp only
    split
    · split_ifs <;> exact setValue_flags _ _ _ _
    · exact setValue_flags _ _ _ _

theorem handleKeyDown_flags (s : State) (e : KeyEvt) (h : Option HandleType) :
    (handleKeyDown s e h).state.isDragging = s.isDragging ∧
      (handleKeyDown s e h).state.activeHandle = s.activeHandle := by
  unfold handleKeyDown
  by_cases hd : s.config.disabled = true
  · simp only [hd, if_true]
    exact ⟨rfl, rfl⟩
  · simp only [hd, Bool.false_eq_true, if_false]
    cases e.key <;> simp only <;>
      first
        | exact ⟨rfl, rfl⟩
        | (split <;>
            first
              | exact ⟨rfl, rfl⟩
              | exact setValue_flags _ _ _ _)

theorem handleInputChange_flags (s : State) (parsed : JsNum) (h : HandleType) :
    (handleInputChange s parsed h).state.isDragging = s.isDragging ∧
      (handleInputChange s parsed h).state.activeHandle = s.activeHandle := by
  cases parsed with
  | nan => exact ⟨rfl, rfl⟩
  | fin v => cases h <;> exact setValue_flags _ _ _ _

theorem handleInputBlur_flags (s : State) (parsed : JsNum) (h : HandleType) :
    (handleInputBlur s parsed h).state.isDragging = s.isDragging ∧
      (handleInputBlur s parsed h).state.activeHandle = s.activeHandle := by
  cases parsed with
  | nan => cases h <;> exact ⟨rfl, rfl⟩
  | fin v => cases h <;> exact setValue_flags _ _ _ _

/-- Every call keeps the two drag flags in step: the dragging flag is set exactly when an
active handle is recorded. -/
theorem step_keeps_flags (s : State) (ev : Event)
    (hinv : s.isDragging = true ↔ s.activeHandle ≠ none) :
    (step s ev).isDragging = true ↔ (step s ev).activeHandle ≠ none := by
  cases ev with
  | startDrag e h =>
    cases hdis : s.config.disabled with
    | true =>
      have : startDrag s e h = Outcome.ok s := by simp [startDrag, hdis]
      simp only [step, this, Outcome.state]
      exact hinv
    | false =>
      obtain ⟨h1, h2, _⟩ := startDrag_state s e h hdis
      simp only [step, h1, h2]
      simp
  | handleDrag e rect now =>
    obtain ⟨_, h2, h3, _⟩ := handleDrag_step s e rect now
    simp only [step, h2, h3]
    exact hinv
  | endDrag =>
    cases hd : s.isDragging with
    | true =>
      have h1 : (endDrag s).isDragging = false ∧ (endDrag s).activeHandle = none := by
        simp only [endDrag, hd, if_true]
        split_ifs <;> exact ⟨rfl, rfl⟩
      simp only [step, h1.1, h1.2]
      simp
    | false =>
      have h1 : endDrag s = s := by simp [endDrag, hd]
      simp only [step, h1]
      exact hinv
  | handleTrackClick e rect =>
    obtain ⟨h1, h2⟩ := handleTrackClick_flags s e rect
    simp only [step, h1, h2]
    exact hinv
  | handleKeyDown e h =>
    obtain ⟨h1, h2⟩ := handleKeyDown_flags s e h
    simp only [step, h1, h2]
    exact hinv
  | handleInputChange parsed h =>
    obtain ⟨h1, h2⟩ := handleInputChange_flags s parsed h
    simp only [step, h1, h2]
    exact hinv
  | handleInputBlur parsed h =>
    obtain ⟨h1, h2⟩ := handleInputBlur_flags s parsed h
    simp only [step, h1, h2]
    exact hinv
  | setValue v src t =>
    obtain ⟨h1, h2⟩ := setValue_flags s v src t
    simp only [step, h1, h2]
    exact hinv
  | setDisabled d => exact hinv

theorem run_keeps_flags (evs : List Event) (s : State)
    (hinv : s.isDragging = true ↔ s.activeHandle ≠ none) :
    (run s evs).isDragging = true ↔ (run s evs).activeHandle ≠ none := by
  induction evs generalizing s with
  | nil => exact hinv
  | cons ev evs ih => exact ih (step s ev) (step_keeps_flags s ev hinv)

/-- C26: in every state reached from construction by any sequence of calls (`startDrag`
with any handle type, `handleDrag`, `endDrag`, `handleTrackClick`, `handleKeyDown`, the
input listeners, `setValue`, `setDisabled`), `isDragging` is true exactly when
`activeHandle` is not `null`; there is one `activeHandle` field, hence at most one drag
session. -/
theorem drag_flags_invariant (o : Options) (evs : List Event) :
    (run (construct o) evs).isDragging = true ↔
      (run (construct o) evs).activeHandle ≠ none := by
  apply run_keeps_flags
  obtain ⟨h1, h2⟩ := construct_flags o
  rw [h1, h2]
  simp

/-! ## Drag move on a range slider -/

theorem draggingRange_values :
    draggingRange.values = JsVal.arr [JsNum.fin 20, JsNum.fin 75] := by
  simp [draggingRange, startDrag, construct, Options.defaults, mouseAt, pointerX,
    Outcome.state, JsVal.idx]
  norm_num

theorem draggingRange_flags :
    draggingRange.isDragging = true ∧ draggingRange.activeHandle = some HandleType.min := by
  simp [draggingRange, startDrag, construct, Options.defaults, mouseAt, pointerX,
    Outcome.state]

/-- C27: on a range slider storing `(lo, hi)` with `min ≤ lo ≤ hi ≤ max`, a pointer-move
during a drag whose snapped value is the number `sv` returns; with active handle `min` it
stores `(max(min, min(sv, hi)), hi)`, with active handle `max` it stores
`(lo, min(max, max(sv, lo)))`: the opposite endpoint is unchanged and is not crossed. -/
theorem handleDrag_range_value (s : State) (e : PointerEvt) (rect : Rect) (now : ℚ)
    (x : Option ℚ) (lo hi sv : ℚ) (hrange : s.config.type = SliderType.range)
    (hvals : s.values = JsVal.arr [JsNum.fin lo, JsNum.fin hi])
    (hlo : s.config.min ≤ lo) (hlohi : lo ≤ hi) (hhi : hi ≤ s.config.max)
    (hdrag : s.isDragging = true) (hx : pointerX e = Except.ok x)
    (hsv : snappedAt s.config x rect = JsNum.fin sv) :
    (s.activeHandle = some HandleType.min →
        ∃ s1, handleDrag s e rect now = Outcome.ok s1 ∧
          s1.values = JsVal.arr [JsNum.fin (max s.config.min (min sv hi)), JsNum.fin hi] ∧
          max s.config.min (min sv hi) ≤ hi) ∧
      (s.activeHandle = some HandleType.max →
        ∃ s1, handleDrag s e rect now = Outcome.ok s1 ∧
          s1.values = JsVal.arr [JsNum.fin lo, JsNum.fin (min s.config.max (max sv lo))] ∧
          lo ≤ min s.config.max (max sv lo)) := by
  constructor
  · intro hact
    have hle : max s.config.min (min sv hi) ≤ hi :=
      max_le (le_trans hlo hlohi) (min_le_right _ _)
    rw [handleDrag_dragging s e rect now _ x hdrag hact hx]
    simp only
    generalize (s.config.continuousUpdates &&
      decide (now - s.lastCallbackTime ≥ s.config.throttleMs)) = trig
    have hcfg := throttled_config s trig now
    obtain ⟨s1, hs1, hv⟩ := setValue_range_values
      (if trig then { s with lastCallbackTime := now } else s)
      (JsNum.mathMax (JsNum.fin s.config.min)
        (JsNum.mathMin (snappedAt s.config x rect) (s.values.idx 1)))
      (s.values.idx 1) (some HandleType.min) trig (by rw [hcfg, hrange])
    rw [hcfg, hsv, hvals] at hv
    simp only [JsVal.idx, List.getD_cons_succ, List.getD_cons_zero, JsNum.mathMin_fin,
      JsNum.mathMax_fin] at hv
    rw [rangeValues_ordered _ _ _ (le_max_left _ _) hle hhi] at hv
    exact ⟨s1, hs1, hv, hle⟩
  · intro hact
    have hle : lo ≤ min s.config.max (max sv lo) :=
      le_min (le_trans hlohi hhi) (le_max_right _ _)
    rw [handleDrag_dragging s e rect now _ x hdrag hact hx]
    simp only
    generalize (s.config.continuousUpdates &&
      decide (now - s.lastCallbackTime ≥ s.config.throttleMs)) = trig
    have hcfg := throttled_config s trig now
    obtain ⟨s1, hs1, hv⟩ := setValue_range_values
      (if trig then { s with lastCallbackTime := now } else s)
      (s.values.idx 0)
      (JsNum.mathMin (JsNum.fin s.config.max)
        (JsNum.mathMax (snappedAt s.config x rect) (s.values.idx 0)))
      (some HandleType.max) trig (by rw [hcfg, hrange])
    rw [hcfg, hsv, hvals] at hv
    simp only [JsVal.idx, List.getD_cons_succ, List.getD_cons_zero, JsNum.mathMin_fin,
      JsNum.mathMax_fin] at hv
    rw [rangeValues_ordered _ _ _ hlo hle (min_le_left _ _)] at hv
    exact ⟨s1, hs1, hv, hle⟩

/-- Witness for C27: the range slider storing `(20, 75)` with `step = 10`, its `min`
handle dragged to `90`, which snaps to `90` and stops at `75`. -/
theorem handleDrag_range_value_witness :
    draggingRange.config.type = SliderType.range ∧
      draggingRange.values = JsVal.arr [JsNum.fin 20, JsNum.fin 75] ∧
      draggingRange.isDragging = true ∧
      draggingRange.activeHandle = some HandleType.min ∧
      snappedAt draggingRange.config (some 90) sampleRect = JsNum.fin 90 ∧
      ∃ s1, handleDrag draggingRange (mouseAt 90) sampleRect 0 = Outcome.ok s1 ∧
        s1.values =
          JsVal.arr [JsNum.fin (max draggingRange.config.min (min 90 75)), JsNum.fin 75] := by
  have hc := draggingRange_config
  have hrange : draggingRange.config.type = SliderType.range := by rw [hc]
  have hsv : snappedAt draggingRange.config (some 90) sampleRect = JsNum.fin 90 := by
    rw [hc]
    have hfl : ⌊(19 : ℚ) / 2⌋ = 9 := by
      rw [Int.floor_eq_iff]; constructor <;> norm_num
    simp [snappedAt, snapToStep, sampleRect, JsNum.ofOption, JsNum.div]
    norm_num [hfl]
  obtain ⟨s1, h1, h2, _⟩ := (handleDrag_range_value draggingRange (mouseAt 90) sampleRect 0
    (some 90) 20 75 90 hrange draggingRange_values (by rw [hc]; norm_num) (by norm_num)
    (by rw [hc]; norm_num) draggingRange_flags.1 (pointerX_mouseAt 90 (by norm_num)) hsv).1
    draggingRange_flags.2
  exact ⟨hrange, draggingRange_values, draggingRange_flags.1, draggingRange_flags.2, hsv,
    s1, h1, h2⟩

/-! ## Full drag without continuous updates -/

/-- The moves of a drag run in order: the last one acts on the state the others left. -/
theorem dragMoves_append (s : State) (ms : List Move) (m : Move) :
    dragMoves s (ms ++ [m]) = (handleDrag (dragMoves s ms) m.e m.rect m.now).state := by
  induction ms generalizing s with
  | nil => rfl
  | cons m0 ms ih =>
    simp only [List.cons_append, dragMoves]
    exact ih _

/-- One pointer-move of a range handle, read as a number over a track with a width, on a
slider with `step ≠ 0` storing `(lo, hi)` with `min ≤ lo ≤ hi ≤ max`: the dragged end
becomes the snapped pointer value clamped between the bound and the opposite end, which
stays as it was. -/
theorem handleDrag_range_step (s : State) (e : PointerEvt) (rect : Rect) (now x lo hi : ℚ)
    (hrange : s.config.type = SliderType.range)
    (hvals : s.values = JsVal.arr [JsNum.fin lo, JsNum.fin hi])
    (hlo : s.config.min ≤ lo) (hlohi : lo ≤ hi) (hhi : hi ≤ s.config.max)
    (hstep : s.config.step ≠ 0) (hdrag : s.isDragging = true)
    (hx : pointerX e = Except.ok (some x)) (hw : rect.width ≠ 0) :
    (s.activeHandle = some HandleType.min →
        ∃ lo1 : ℚ,
          (handleDrag s e rect now).state.values = JsVal.arr [JsNum.fin lo1, JsNum.fin hi] ∧
          s.config.min ≤ lo1 ∧ lo1 ≤ hi ∧
          JsNum.mathMax (JsNum.fin s.config.min)
            (JsNum.mathMin (snappedAt s.config (some x) rect) (JsNum.fin hi)) =
              JsNum.fin lo1) ∧
      (s.activeHandle = some HandleType.max →
        ∃ hi1 : ℚ,
          (handleDrag s e rect now).state.values = JsVal.arr [JsNum.fin lo, JsNum.fin hi1] ∧
          lo ≤ hi1 ∧ hi1 ≤ s.config.max ∧
          JsNum.mathMin (JsNum.fin s.config.max)
            (JsNum.mathMax (snappedAt s.config (some x) rect) (JsNum.fin lo)) =
              JsNum.fin hi1) := by
  obtain ⟨k, hk⟩ := snappedAt_fin s.config x rect hw hstep
  constructor
  · intro hact
    have hle : max s.config.min (min (k * s.config.step + s.config.min) hi) ≤ hi :=
      max_le (le_trans hlo hlohi) (min_le_right _ _)
    rw [handleDrag_dragging s e rect now _ (some x) hdrag hact hx]
    simp only
    generalize (s.config.continuousUpdates &&
      decide (now - s.lastCallbackTime ≥ s.config.throttleMs)) = trig
    have hcfg := throttled_config s trig now
    obtain ⟨s1, hs1, hv⟩ := setValue_range_values
      (if trig then { s with lastCallbackTime := now } else s)
      (JsNum.mathMax (JsNum.fin s.config.min)
        (JsNum.mathMin (snappedAt s.config (some x) rect) (s.values.idx 1)))
      (s.values.idx 1) (some HandleType.min) trig (by rw [hcfg, hrange])
    rw [hcfg, hk, hvals] at hv
    simp only [JsVal.idx, List.getD_cons_succ, List.getD_cons_zero, JsNum.mathMin_fin,
      JsNum.mathMax_fin] at hv
    rw [rangeValues_ordered _ _ _ (le_max_left _ _) hle hhi] at hv
    refine ⟨max s.config.min (min (k * s.config.step + s.config.min) hi), ?_,
      le_max_left _ _, hle, ?_⟩
    · rw [hs1]; exact hv
    · rw [hk]; rfl
  · intro hact
    have hle : lo ≤ min s.config.max (max (k * s.config.step + s.config.min) lo) :=
      le_min (le_trans hlohi hhi) (le_max_right _ _)
    rw [handleDrag_dragging s e rect now _ (some x) hdrag hact hx]
    simp only
    generalize (s.config.continuousUpdates &&
      decide (now - s.lastCallbackTime ≥ s.config.throttleMs)) = trig
    have hcfg := throttled_config s trig now
    obtain ⟨s1, hs1, hv⟩ := setValue_range_values
      (if trig then { s with lastCallbackTime := now } else s)
      (s.values.idx 0)
      (JsNum.mathMin (JsNum.fin s.config.max)
        (JsNum.mathMax (snappedAt s.config (some x) rect) (s.values.idx 0)))
      (some HandleType.max) trig (by rw [hcfg, hrange])
    rw [hcfg, hk, hvals] at hv
    simp only [JsVal.idx, List.getD_cons_succ, List.getD_cons_zero, JsNum.mathMin_fin,
      JsNum.mathMax_fin] at hv
    rw [rangeValues_ordered _ _ _ hlo hle (min_le_left _ _)] at hv
    refine ⟨min s.config.max (max (k * s.config.step + s.config.min) lo), ?_, hle,
      min_le_left _ _, ?_⟩
    · rw [hs1]; exact hv
    · rw [hk]; rfl

/-- Through any run of pointer-moves of a range handle, each read as a number over a track
with a width, the stored pair stays finite, ordered and inside the bounds, and the end
opposite to the dragged handle stays as it was. -/
theorem dragMoves_range_values (ms : List Move) (s : State) (h : HandleType) (lo hi : ℚ)
    (hrange : s.config.type = SliderType.range)
    (hvals : s.values = JsVal.arr [JsNum.fin lo, JsNum.fin hi])
    (hlo : s.config.min ≤ lo) (hlohi : lo ≤ hi) (hhi : hi ≤ s.config.max)
    (hstep : s.config.step ≠ 0) (hdrag : s.isDragging = true)
    (hact : s.activeHandle = some h) (hh : h = HandleType.min ∨ h = HandleType.max)
    (hms : ∀ m ∈ ms, m.rect.width ≠ 0 ∧ ∃ x : ℚ, pointerX m.e = Except.ok (some x)) :
    ∃ lo1 hi1 : ℚ,
      (dragMoves s ms).values = JsVal.arr [JsNum.fin lo1, JsNum.fin hi1] ∧
      s.config.min ≤ lo1 ∧ lo1 ≤ hi1 ∧ hi1 ≤ s.config.max ∧
      (h = HandleType.min → hi1 = hi) ∧ (h = HandleType.max → lo1 = lo) := by
  induction ms generalizing s lo hi with
  | nil => exact ⟨lo, hi, hvals, hlo, hlohi, hhi, fun _ => rfl, fun _ => rfl⟩
  | cons m ms ih =>
    obtain ⟨hw, x, hx⟩ := hms m (List.mem_cons_self _ _)
    obtain ⟨f1, f2, f3, _⟩ := handleDrag_step s m.e m.rect m.now
    obtain ⟨smin, smax⟩ := handleDrag_range_step s m.e m.rect m.now x lo hi hrange hvals hlo
      hlohi hhi hstep hdrag hx hw
    have hms1 : ∀ m1 ∈ ms, m1.rect.width ≠ 0 ∧ ∃ x1 : ℚ, pointerX m1.e = Except.ok (some x1) :=
      fun m1 hm1 => hms m1 (List.mem_cons_of_mem _ hm1)
    simp only [dragMoves]
    rcases hh with hh | hh
    · subst hh
      obtain ⟨lo1, v1, a1, b1, _⟩ := smin hact
      obtain ⟨lo2, hi2, v2, a2, b2, c2, d2, _⟩ :=
        ih (handleDrag s m.e m.rect m.now).state lo1 hi (by rw [f1]; exact hrange) v1
          (by rw [f1]; exact a1) b1 (by rw [f1]; exact hhi) (by rw [f1]; exact hstep)
          (f2.trans hdrag) (f3.trans hact) hms1
      rw [f1] at a2 c2
      exact ⟨lo2, hi2, v2, a2, b2, c2, d2, (by intro hc; cases hc)⟩
    · subst hh
      obtain ⟨hi1, v1, a1, b1, _⟩ := smax hact
      obtain ⟨lo2, hi2, v2, a2, b2, c2, _, e2⟩ :=
        ih (handleDrag s m.e m.rect m.now).state lo hi1 (by rw [f1]; exact hrange) v1
          (by rw [f1]; exact hlo) a1 (by rw [f1]; exact b1) (by rw [f1]; exact hstep)
          (f2.trans hdrag) (f3.trans hact) hms1
      rw [f1] at a2 c2
      exact ⟨lo2, hi2, v2, a2, b2, c2, (by intro hc; cases hc), e2⟩

/-- C9: on an enabled slider with `continuousUpdates = false` and an `onChange` callback,
a full drag (pointer-down, any pointer-moves, pointer-up) leaves the log untouched through
the moves and adds exactly one `onChange` invocation at pointer-up, whose source is the
dragged handle and whose value argument is the value stored after the last move.  That
value is the stored value itself when there is no move.  On a single slider it is the
snapped value of the last pointer position clamped into `[min, max]`, over a track with a
width.  On a range slider storing `(lo, hi)` with `min ≤ lo ≤ hi ≤ max` and `step > 0`,
when every move is read as a number over a track with a width, it is the pair in which the
dragged end is the snapped value of the last pointer position clamped between its bound
and the opposite end, and the opposite end is as it was. -/
theorem fullDrag_notifies_once (s : State) (down : PointerEvt) (h : HandleType)
    (ms : List Move) (hen : s.config.disabled = false)
    (hcu : s.config.continuousUpdates = false) (hcb : s.config.onChange = true) :
    (dragMoves (startDrag s down h).state ms).calls = s.calls ∧
      (fullDrag s down h ms).calls =
        s.calls ++ [Call.onChange (dragMoves (startDrag s down h).state ms).values (some h)] ∧
      onChangeCalls ((fullDrag s down h ms).calls.drop s.calls.length) =
        [Call.onChange (dragMoves (startDrag s down h).state ms).values (some h)] ∧
      (fullDrag s down h ms).values = (dragMoves (startDrag s down h).state ms).values ∧
      (ms = [] → (fullDrag s down h ms).calls = s.calls ++ [Call.onChange s.values (some h)]) ∧
      (∀ (ms0 : List Move) (m : Move) (x : Option ℚ), ms = ms0 ++ [m] →
        s.config.type = SliderType.single → h = HandleType.single →
        pointerX m.e = Except.ok x → 0 < m.rect.width →
        (fullDrag s down h ms).calls =
          s.calls ++
            [Call.onChange
              (JsVal.num (JsNum.mathMax (JsNum.fin s.config.min)
                (JsNum.mathMin (JsNum.fin s.config.max) (snappedAt s.config x m.rect))))
              (some HandleType.single)]) ∧
      (∀ (ms0 : List Move) (m : Move) (x lo hi : ℚ), ms = ms0 ++ [m] →
        s.config.type = SliderType.range →
        s.values = JsVal.arr [JsNum.fin lo, JsNum.fin hi] →
        s.config.min ≤ lo → lo ≤ hi → hi ≤ s.config.max → 0 < s.config.step →
        (∀ m1 ∈ ms, 0 < m1.rect.width ∧ ∃ x1 : ℚ, pointerX m1.e = Except.ok (some x1)) →
        pointerX m.e = Except.ok (some x) →
        (h = HandleType.min →
          (fullDrag s down h ms).calls =
            s.calls ++
              [Call.onChange
                (JsVal.arr [JsNum.mathMax (JsNum.fin s.config.min)
                  (JsNum.mathMin (snappedAt s.config (some x) m.rect) (JsNum.fin hi)),
                  JsNum.fin hi])
                (some HandleType.min)]) ∧
        (h = HandleType.max →
          (fullDrag s down h ms).calls =
            s.calls ++
              [Call.onChange
                (JsVal.arr [JsNum.fin lo,
                  JsNum.mathMin (JsNum.fin s.config.max)
                    (JsNum.mathMax (snappedAt s.config (some x) m.rect) (JsNum.fin lo))])
                (some HandleType.max)])) := by
  obtain ⟨h1, h2, h3, h4, h5, _⟩ := startDrag_state s down h hen
  obtain ⟨f1, f2, f3⟩ := dragMoves_frame ms (startDrag s down h).state
  have hcalls : (dragMoves (startDrag s down h).state ms).calls = s.calls :=
    (dragMoves_calls_of_not_continuous ms _ (by rw [h3]; exact hcu)).trans h4
  obtain ⟨e1, e2, _, _⟩ := endDrag_dragging (dragMoves (startDrag s down h).state ms)
    (f2.trans h1) (by rw [f1, h3]; exact hcb)
  rw [f3, h2, hcalls] at e1
  have e1f : (fullDrag s down h ms).calls =
      s.calls ++ [Call.onChange (dragMoves (startDrag s down h).state ms).values (some h)] := by
    simpa [fullDrag] using e1
  refine ⟨hcalls, e1f, ?_, e2, ?_, ?_, ?_⟩
  · rw [e1f, List.drop_left]
    simp [onChangeCalls, Call.isOnChange]
  · intro hnil
    rw [e1f, hnil]
    simp only [dragMoves]
    rw [h5]
  · intro ms0 m x hms hsingle hh hx hw
    obtain ⟨g1, g2, g3⟩ := dragMoves_frame ms0 (startDrag s down h).state
    obtain ⟨s1, k1, k2⟩ := handleDrag_single_value (dragMoves (startDrag s down h).state ms0)
      m.e m.rect m.now x (by rw [g1, h3]; exact hsingle) (g2.trans h1)
      (by rw [g3, h2, hh]) hx hw.ne'
    rw [e1f, hms, dragMoves_append, k1]
    simp only [Outcome.state]
    rw [k2, g1, h3, hh]
  · intro ms0 m x lo hi hms hrange hvals hlo hlohi hhi hstep hall hx
    obtain ⟨g1, g2, g3⟩ := dragMoves_frame ms0 (startDrag s down h).state
    have hcfg0 : (dragMoves (startDrag s down h).state ms0).config = s.config := g1.trans h3
    have hall0 : ∀ m1 ∈ ms0,
        m1.rect.width ≠ 0 ∧ ∃ x1 : ℚ, pointerX m1.e = Except.ok (some x1) := by
      intro m1 hm1
      obtain ⟨w1, w2⟩ := hall m1 (by rw [hms]; exact List.mem_append_left _ hm1)
      exact ⟨w1.ne', w2⟩
    have hwm : m.rect.width ≠ 0 :=
      (hall m (by rw [hms]; exact List.mem_append_right _ (List.mem_singleton_self _))).1.ne'
    constructor
    · intro hh
      obtain ⟨lo1, hi1, v1, a1, b1, c1, d1, _⟩ := dragMoves_range_values ms0
        (startDrag s down h).state h lo hi (by rw [h3]; exact hrange) (h5.trans hvals)
        (by rw [h3]; exact hlo) hlohi (by rw [h3]; exact hhi) (by rw [h3]; exact hstep.ne') h1 h2
        (Or.inl hh) hall0
      have d1h := d1 hh
      subst d1h
      rw [h3] at a1 c1
      obtain ⟨lo2, v2, _, _, w2⟩ :=
        (handleDrag_range_step (dragMoves (startDrag s down h).state ms0) m.e m.rect m.now x
          lo1 hi1 (by rw [hcfg0]; exact hrange) v1 (by rw [hcfg0]; exact a1) b1
          (by rw [hcfg0]; exact c1) (by rw [hcfg0]; exact hstep.ne') (g2.trans h1) hx hwm).1
          (by rw [g3, h2, hh])
      rw [hcfg0] at w2
      rw [e1f, hms, dragMoves_append, v2, w2, hh]
    · intro hh
      obtain ⟨lo1, hi1, v1, a1, b1, c1, _, d1⟩ := dragMoves_range_values ms0
        (startDrag s down h).state h lo hi (by rw [h3]; exact hrange) (h5.trans hvals)
        (by rw [h3]; exact hlo) hlohi (by rw [h3]; exact hhi) (by rw [h3]; exact hstep.ne') h1 h2
        (Or.inr hh) hall0
      have d1h := d1 hh
      subst d1h
      rw [h3] at a1 c1
      obtain ⟨hi2, v2, _, _, w2⟩ :=
        (handleDrag_range_step (dragMoves (startDrag s down h).state ms0) m.e m.rect m.now x
          lo1 hi1 (by rw [hcfg0]; exact hrange) v1 (by rw [hcfg0]; exact a1) b1
          (by rw [hcfg0]; exact c1) (by rw [hcfg0]; exact hstep.ne') (g2.trans h1) hx hwm).2
          (by rw [g3, h2, hh])
      rw [hcfg0] at w2
      rw [e1f, hms, dragMoves_append, v2, w2, hh]

/-- Witness for C9.  The default single slider, grabbed and dragged to `30` and then to
`70`, makes the one invocation `onChange(70, 'single')`.  The range slider storing
`(20, 80)`, its `min` handle dragged to `50` and then to `90`, makes the one invocation
`onChange([80, 80], 'min')`: the snapped `90` stops at the opposite end. -/
theorem fullDrag_notifies_once_witness :
    sampleSingle.config.disabled = false ∧ sampleSingle.config.continuousUpdates = false ∧
      sampleSingle.config.onChange = true ∧
      (fullDrag sampleSingle (mouseAt 5) HandleType.single [moveAt 30 10, moveAt 70 20]).calls =
        [Call.onChange (JsVal.num (JsNum.fin 70)) (some HandleType.single)] ∧
      (fullDrag clickRange (mouseAt 20) HandleType.min [moveAt 50 10, moveAt 90 20]).calls =
        [Call.onChange (JsVal.arr [JsNum.fin 80, JsNum.fin 80]) (some HandleType.min)] := by
  have hc := sampleSingle_config
  have hr := clickRange_config
  have h1 : sampleSingle.config.disabled = false := by rw [hc]
  have h2 : sampleSingle.config.continuousUpdates = false := by rw [hc]
  have h3 : sampleSingle.config.onChange = true := by rw [hc]
  have hs0 : sampleSingle.calls = [] := by simp [sampleSingle, construct, Options.defaults]
  have hsnap : snappedAt sampleSingle.config (some 70) sampleRect = JsNum.fin 70 := by
    have h70 := snappedAt_sample_70
    rw [hr] at h70
    rw [hc]
    exact h70
  have hsnap90 : snappedAt clickRange.config (some 90) sampleRect = JsNum.fin 90 := by
    simpa using snappedAt_sample 90 (by norm_num) (by norm_num)
  have hA := (fullDrag_notifies_once sampleSingle (mouseAt 5) HandleType.single
    [moveAt 30 10, moveAt 70 20] h1 h2 h3).2.2.2.2.2.1 [moveAt 30 10] (moveAt 70 20) (some 70)
    rfl (by rw [hc]) rfl (pointerX_mouseAt 70 (by norm_num)) (by norm_num [moveAt, sampleRect])
  have hall : ∀ m1 ∈ [moveAt 50 10, moveAt 90 20],
      0 < m1.rect.width ∧ ∃ x1 : ℚ, pointerX m1.e = Except.ok (some x1) := by
    intro m1 hm1
    simp only [List.mem_cons, List.mem_singleton, List.not_mem_nil, or_false] at hm1
    rcases hm1 with rfl | rfl
    · exact ⟨by norm_num [moveAt, sampleRect], 50, pointerX_mouseAt 50 (by norm_num)⟩
    · exact ⟨by norm_num [moveAt, sampleRect], 90, pointerX_mouseAt 90 (by norm_num)⟩
  have hB := ((fullDrag_notifies_once clickRange (mouseAt 20) HandleType.min
    [moveAt 50 10, moveAt 90 20] (by rw [hr]) (by rw [hr]) (by rw [hr])).2.2.2.2.2.2
    [moveAt 50 10] (moveAt 90 20) 90 20 80 rfl (by rw [hr]) clickRange_values
    (by rw [hr]; norm_num) (by norm_num) (by rw [hr]; norm_num) (by rw [hr]; norm_num) hall
    (pointerX_mouseAt 90 (by norm_num))).1 rfl
  refine ⟨h1, h2, h3, ?_, ?_⟩
  · rw [hA, show (moveAt 70 20).rect = sampleRect from rfl, hsnap, hs0, hc]
    norm_num
  · rw [hB, show (moveAt 90 20).rect = sampleRect from rfl, hsnap90, clickRange_calls, hr]
    norm_num

end NumericSlider

/-! # SplitPanel -/

namespace SplitPanel

/-- C28: with `minLeft ≤ 100 - minRight`, `setSplit(p, skipCallback)` stores
`max(minLeft, min(100 - minRight, p))`, which lies in `[minLeft, 100 - minRight]`, and
invokes `onChange` with that percent exactly when `skipCallback` is false and the callback
is registered. -/
theorem setSplit_clamps (s : State) (p : ℚ) (skipCallback : Bool) (rect : ContainerRect)
    (hcfg : s.config.minLeft ≤ 100 - s.config.minRight) :
    (setSplit s (NumericSlider.JsNum.fin p) skipCallback rect).currentSplit =
        NumericSlider.JsNum.fin (max s.config.minLeft (min (100 - s.config.minRight) p)) ∧
      s.config.minLeft ≤ max s.config.minLeft (min (100 - s.config.minRight) p) ∧
      max s.config.minLeft (min (100 - s.config.minRight) p) ≤ 100 - s.config.minRight ∧
      (setSplit s (NumericSlider.JsNum.fin p) skipCallback rect).calls =
        s.calls ++
          (if skipCallback = false ∧ s.config.onChange = true then
            [NumericSlider.JsNum.fin (max s.config.minLeft (min (100 - s.config.minRight) p))]
           else []) := by
  refine ⟨?_, le_max_left _ _, max_le hcfg (min_le_left _ _), ?_⟩
  · unfold setSplit
    simp only [NumericSlider.JsNum.mathMin_fin, NumericSlider.JsNum.mathMax_fin]
    split_ifs <;> rfl
  · unfold setSplit
    simp only [NumericSlider.JsNum.mathMin_fin, NumericSlider.JsNum.mathMax_fin]
    cases skipCallback <;> cases hcb : s.config.onChange <;> simp [hcb]

/-- Witness for C28 on the default panel (`minLeft = minRight = 10`): `setSplit(95)`
stores `90` and invokes `onChange(90)`. -/
theorem setSplit_clamps_witness :
    samplePanel.config.minLeft ≤ 100 - samplePanel.config.minRight ∧
      (setSplit samplePanel (NumericSlider.JsNum.fin 95) false
        { width := 800, height := 600 }).currentSplit = NumericSlider.JsNum.fin 90 ∧
      (setSplit samplePanel (NumericSlider.JsNum.fin 95) false
        { width := 800, height := 600 }).calls = [NumericSlider.JsNum.fin 90] := by
  have hcfg : samplePanel.config.minLeft ≤ 100 - samplePanel.config.minRight := by
    norm_num [samplePanel]
  obtain ⟨h1, _, _, h4⟩ := setSplit_clamps samplePanel 95 false
    { width := 800, height := 600 } hcfg
  refine ⟨hcfg, ?_, ?_⟩
  · rw [h1]; norm_num [samplePanel]
  · rw [h4]; norm_num [samplePanel]

end SplitPanel

/-! # Modal -/

namespace Modal

/-- The effect of `open()` on a closed modal whose scroll lock is off. -/
theorem openModal_closed (s : State) (env : Env) (hclosed : s.isOpen = false)
    (hlock : s.bodyScrollLocked = false) :
    (openModal s env).isOpen = true ∧ (openModal s env).bodyScrollLocked = true ∧
      (openModal s env).config = s.config ∧
      (openModal s env).calls = s.calls ++ (if s.config.onOpen then [Call.onOpen] else []) := by
  unfold openModal lockBodyScroll
  simp only [hclosed, hlock, Bool.false_eq_true, if_false]
  cases h1 : s.config.showCloseButton <;> cases h2 : s.config.hasTitle <;>
    cases h3 : s.config.onOpen <;> simp [h1, h2, h3]

/-- The effect of `close()` on an open modal whose scroll lock is on. -/
theorem close_open (s : State) (hopen : s.isOpen = true) (hlock : s.bodyScrollLocked = true) :
    (close s).isOpen = false ∧ (close s).bodyScrollLocked = false ∧
      (close s).config = s.config ∧
      (close s).calls = s.calls ++ (if s.config.onClose then [Call.onClose] else []) := by
  unfold close unlockBodyScroll
  simp only [hopen, hlock, Bool.not_true, Bool.false_eq_true, if_false]
  cases h1 : s.previousActiveElement <;> cases h2 : s.config.onClose <;> simp [h1, h2]

theorem openModal_open (s : State) (env : Env) (hopen : s.isOpen = true) :
    openModal s env = s := by
  simp [openModal, hopen]

theorem close_closed (s : State) (hclosed : s.isOpen = false) : close s = s := by
  simp [close, hclosed]

/-- The invariant of the open/close state machine for a modal with both callbacks. -/
theorem run_keeps_invariant (c : Config) (honOpen : c.onOpen = true)
    (honClose : c.onClose = true) (as : List Action) (s : State) (hcfg : s.config = c)
    (hlock : s.bodyScrollLocked = s.isOpen)
    (hcount : (count Call.onOpen s.calls : ℤ) - count Call.onClose s.calls =
      if s.isOpen then 1 else 0) :
    (run s as).bodyScrollLocked = (run s as).isOpen ∧
      (count Call.onOpen (run s as).calls : ℤ) - count Call.onClose (run s as).calls =
        if (run s as).isOpen then 1 else 0 := by
  induction as generalizing s with
  | nil => exact ⟨hlock, hcount⟩
  | cons a as ih =>
    cases a with
    | openModal env =>
      simp only [run]
      cases ho : s.isOpen with
      | true =>
        simp only [openModal_open s env ho]
        exact ih s hcfg hlock hcount
      | false =>
        obtain ⟨h1, h2, h3, h4⟩ := openModal_closed s env ho (by rw [hlock, ho])
        apply ih (openModal s env) (h3.trans hcfg) (by rw [h1, h2])
        rw [h4, h1, hcfg, honOpen]
        rw [ho] at hcount
        simp only [count, if_true, List.count_append] at hcount ⊢
        simp only [Bool.false_eq_true, if_false] at hcount
        simp
        linarith
    | close =>
      simp only [run]
      cases ho : s.isOpen with
      | false =>
        simp only [close_closed s ho]
        exact ih s hcfg hlock hcount
      | true =>
        obtain ⟨h1, h2, h3, h4⟩ := close_open s ho (by rw [hlock, ho])
        apply ih (close s) (h3.trans hcfg) (by rw [h1, h2])
        rw [h4, h1, hcfg, honClose]
        rw [ho] at hcount
        simp only [count, if_true, List.count_append] at hcount ⊢
        simp
        linarith

/-- C30 fails as stated for a modal without callbacks: after `open()` on a new modal with
neither `onOpen` nor `onClose`, the modal is open and its scroll lock is on, but no
callback has been invoked, so the difference of the two counts is `0`, not `1`. -/
theorem open_without_callbacks :
    (run (construct plainConfig) [Action.openModal sampleEnv]).isOpen = true ∧
      (run (construct plainConfig) [Action.openModal sampleEnv]).bodyScrollLocked = true ∧
      (count Call.onOpen (run (construct plainConfig) [Action.openModal sampleEnv]).calls : ℤ) -
        count Call.onClose (run (construct plainConfig) [Action.openModal sampleEnv]).calls =
        0 := by
  simp [run, construct, openModal, lockBodyScroll, count, plainConfig]

/-- The scroll lock follows `isOpen` through every sequence of `open()` and `close()`
calls, for every modal, with or without callbacks. -/
theorem run_keeps_lock (as : List Action) (s : State)
    (hlock : s.bodyScrollLocked = s.isOpen) :
    (run s as).bodyScrollLocked = (run s as).isOpen := by
  induction as generalizing s with
  | nil => exact hlock
  | cons a as ih =>
    cases a with
    | openModal env =>
      simp only [run]
      cases ho : s.isOpen with
      | true =>
        simp only [openModal_open s env ho]
        exact ih s hlock
      | false =>
        obtain ⟨h1, h2, _, _⟩ := openModal_closed s env ho (by rw [hlock, ho])
        exact ih (openModal s env) (by rw [h1, h2])
    | close =>
      simp only [run]
      cases ho : s.isOpen with
      | false =>
        simp only [close_closed s ho]
        exact ih s hlock
      | true =>
        obtain ⟨h1, h2, _, _⟩ := close_open s ho (by rw [hlock, ho])
        exact ih (close s) (by rw [h1, h2])

/-- C30, as the code has it: in every state reached from a new modal by `open()` and
`close()` calls, `bodyScrollLocked` equals `isOpen`, for every modal, with or without
callbacks; when both `onOpen` and `onClose` are registered, the number of `onOpen`
invocations minus the number of `onClose` invocations is `1` when the modal is open and `0`
otherwise; `open()` on an open modal and `close()` on a closed modal return the state
unchanged. -/
theorem open_close_invariant (c : Config) (as : List Action) :
    (run (construct c) as).bodyScrollLocked = (run (construct c) as).isOpen ∧
      (c.onOpen = true → c.onClose = true →
        (count Call.onOpen (run (construct c) as).calls : ℤ) -
            count Call.onClose (run (construct c) as).calls =
          (if (run (construct c) as).isOpen then 1 else 0)) ∧
      (∀ (s : State) (env : Env), s.isOpen = true → openModal s env = s) ∧
      (∀ s : State, s.isOpen = false → close s = s) := by
  refine ⟨run_keeps_lock as (construct c) rfl, ?_, openModal_open, close_closed⟩
  intro honOpen honClose
  exact (run_keeps_invariant c honOpen honClose as (construct c) rfl rfl
    (by simp [construct, count])).2

/-- Witness for the amended C30: a modal with both callbacks, opened, opened again and
closed, ends closed and unlocked after one invocation of each callback; a modal without
callbacks, opened once, is open and locked. -/
theorem open_close_invariant_witness :
    callbackConfig.onOpen = true ∧ callbackConfig.onClose = true ∧
      (run (construct callbackConfig)
        [Action.openModal sampleEnv, Action.openModal sampleEnv, Action.close]).bodyScrollLocked =
      (run (construct callbackConfig)
        [Action.openModal sampleEnv, Action.openModal sampleEnv, Action.close]).isOpen ∧
      (count Call.onOpen (run (construct callbackConfig)
          [Action.openModal sampleEnv, Action.openModal sampleEnv, Action.close]).calls : ℤ) -
        count Call.onClose (run (construct callbackConfig)
          [Action.openModal sampleEnv, Action.openModal sampleEnv, Action.close]).calls =
        (if (run (construct callbackConfig)
          [Action.openModal sampleEnv, Action.openModal sampleEnv, Action.close]).isOpen
         then 1 else 0) ∧
      (run (construct callbackConfig)
        [Action.openModal sampleEnv, Action.openModal sampleEnv, Action.close]).calls =
        [Call.onOpen, Call.onClose] ∧
      (run (construct plainConfig) [Action.openModal sampleEnv]).bodyScrollLocked =
        (run (construct plainConfig) [Action.openModal sampleEnv]).isOpen ∧
      (run (construct plainConfig) [Action.openModal sampleEnv]).isOpen = true := by
  have h := open_close_invariant callbackConfig
    [Action.openModal sampleEnv, Action.openModal sampleEnv, Action.close]
  have hp := open_close_invariant plainConfig [Action.openModal sampleEnv]
  refine ⟨rfl, rfl, h.1, h.2.1 rfl rfl, ?_, hp.1, ?_⟩
  · simp [run, construct, openModal, close, lockBodyScroll, unlockBodyScroll, callbackConfig,
      sampleEnv]
  · simp [run, construct, openModal, lockBodyScroll, plainConfig]

end Modal

/-! # Test server -/

namespace TestServer

/-- What `stripCommon` removes is a common prefix of the two paths. -/
theorem stripCommon_spec (p c : List String) :
    ∃ common : List String,
      p = common ++ (stripCommon p c).1 ∧ c = common ++ (stripCommon p c).2 := by
  induction p generalizing c with
  | nil => exact ⟨[], by simp [stripCommon]⟩
  | cons x xs ih =>
    cases c with
    | nil => exact ⟨[], by simp [stripCommon]⟩
    | cons y ys =>
      by_cases hxy : x = y
      · obtain ⟨common, h1, h2⟩ := ih ys
        refine ⟨x :: common, ?_, ?_⟩
        · simp only [stripCommon, hxy, if_true, List.cons_append]
          rw [← hxy] at *
          exact congrArg (List.cons x) h1
        · simp only [stripCommon, hxy, if_true, List.cons_append]
          exact congrArg (List.cons y) h2
      · exact ⟨[], by simp [stripCommon, hxy]⟩

/-- The check `isPathInside` answers true only for a strict descendant. -/
theorem isPathInside_strict (child parent : List String)
    (h : isPathInside child parent = true) : strictlyInside child parent := by
  obtain ⟨common, h1, h2⟩ := stripCommon_spec parent child
  unfold isPathInside relative at h
  simp only [Bool.and_eq_true, Bool.not_eq_true'] at h
  obtain ⟨⟨hne, hdd⟩, _⟩ := h
  cases hps : (stripCommon parent child).1 with
  | nil =>
    rw [hps] at h1 hne
    simp only [List.length_nil, List.replicate_zero, List.nil_append] at hne
    refine ⟨(stripCommon parent child).2, ?_, ?_⟩
    · intro hnil
      rw [hnil] at hne
      simp at hne
    · have hparent : common = parent := by simpa using h1.symm
      rw [hparent] at h2
      exact h2
  | cons x xs =>
    rw [hps] at hdd
    simp [List.replicate_succ, startsWithDotDot] at hdd

theorem join_index (p : List String) : join p "index.html" = p ++ ["index.html"] := by
  simp [join, splitSegments, stepSegment]

theorem strictlyInside_append (p dir : List String) (seg : String)
    (h : strictlyInside p dir) : strictlyInside (p ++ [seg]) dir := by
  obtain ⟨rest, _, hp⟩ := h
  exact ⟨rest ++ [seg], by simp, by rw [hp, List.append_assoc]⟩

/-- C29: `isPathInside(child, parent)` is true only when `child` is a strict descendant of
`parent`; the handler calls `fs.stat` and opens a read stream only on the resolved path,
or on `index.html` under it, when the resolved path is a strict descendant of
`DESIGN_SYSTEM_DIR` or of `PUBLIC_DIR`; and for a resolved path that is neither, the
directories themselves included, the response is `403 Forbidden` and the only file-system
call made is the `fs.existsSync` test that precedes the check. -/
theorem traversal_safe (fs : FileSystem) (dir : List String) (pathname : String) :
    (∀ child parent : List String, isPathInside child parent = true →
        strictlyInside child parent) ∧
      (∀ p : List String,
        Access.stat p ∈ (handleRequest fs dir pathname).accesses ∨
            Access.createReadStream p ∈ (handleRequest fs dir pathname).accesses →
          (strictlyInside (resolvePath fs dir pathname) dir ∨
              strictlyInside (resolvePath fs dir pathname) (PUBLIC_DIR dir)) ∧
            (p = resolvePath fs dir pathname ∨
              p = resolvePath fs dir pathname ++ ["index.html"]) ∧
            (strictlyInside p dir ∨ strictlyInside p (PUBLIC_DIR dir))) ∧
      (¬ strictlyInside (resolvePath fs dir pathname) dir →
        ¬ strictlyInside (resolvePath fs dir pathname) (PUBLIC_DIR dir) →
        (handleRequest fs dir pathname).response = Response.forbidden ∧
          (handleRequest fs dir pathname).accesses =
            [Access.existsSync (join dir (relativePath pathname))]) := by
  refine ⟨isPathInside_strict, ?_, ?_⟩
  · intro p hp
    by_cases hout : (!isPathInside (resolvePath fs dir pathname) dir &&
        !isPathInside (resolvePath fs dir pathname) (PUBLIC_DIR dir)) = true
    · simp only [handleRequest, hout, if_true] at hp
      simp at hp
    · have hin : strictlyInside (resolvePath fs dir pathname) dir ∨
          strictlyInside (resolvePath fs dir pathname) (PUBLIC_DIR dir) := by
        simp only [Bool.and_eq_true, Bool.not_eq_true', not_and, Bool.not_eq_false] at hout
        by_cases h1 : isPathInside (resolvePath fs dir pathname) dir = true
        · exact Or.inl (isPathInside_strict _ _ h1)
        · exact Or.inr (isPathInside_strict _ _ (hout (by simpa using h1)))
      have hidx : strictlyInside (resolvePath fs dir pathname ++ ["index.html"]) dir ∨
          strictlyInside (resolvePath fs dir pathname ++ ["index.html"]) (PUBLIC_DIR dir) :=
        hin.imp (strictlyInside_append _ _ _) (strictlyInside_append _ _ _)
      have hcases : p = resolvePath fs dir pathname ∨
          p = resolvePath fs dir pathname ++ ["index.html"] := by
        simp only [handleRequest] at hp
        rw [if_neg hout] at hp
        cases hst : fs.stat (resolvePath fs dir pathname) with
        | none =>
          rw [hst] at hp
          simp at hp
          exact Or.inl hp
        | some d =>
          rw [hst] at hp
          cases d with
          | false =>
            simp at hp
            exact Or.inl hp
          | true =>
            simp only [join_index] at hp
            by_cases hex : fs.existsSync (resolvePath fs dir pathname ++ ["index.html"]) = true
            · simp [hex] at hp
              exact hp
            · simp [hex] at hp
              exact Or.inl hp
      refine ⟨hin, hcases, ?_⟩
      rcases hcases with rfl | rfl
      · exact hin
      · exact hidx
  · intro h1 h2
    have e1 : isPathInside (resolvePath fs dir pathname) dir = false := by
      by_contra hc
      exact h1 (isPathInside_strict _ _ (by simpa using hc))
    have e2 : isPathInside (resolvePath fs dir pathname) (PUBLIC_DIR dir) = false := by
      by_contra hc
      exact h2 (isPathInside_strict _ _ (by simpa using hc))
    simp [handleRequest, e1, e2]

/-- An example of a traversal: with `DESIGN_SYSTEM_DIR = /srv/app/ds`, the request for
`/../../../etc/passwd` resolves to `/etc/passwd` and is answered `403 Forbidden` after the
single `fs.existsSync` test; the directory `/srv/app` itself is not inside itself. -/
theorem traversal_example :
    PUBLIC_DIR ["srv", "app", "ds"] = ["srv", "app"] ∧
      resolvePath emptyFs ["srv", "app", "ds"] "/../../../etc/passwd" = ["etc", "passwd"] ∧
      handleRequest emptyFs ["srv", "app", "ds"] "/../../../etc/passwd" =
        { response := Response.forbidden, accesses := [Access.existsSync ["etc", "passwd"]] } ∧
      isPathInside ["srv", "app"] ["srv", "app"] = false ∧
      isPathInside ["srv", "app", "test.html"] ["srv", "app"] = true := by
  refine ⟨by decide, by decide, by decide, by decide, by decide⟩

end TestServer
